import Mathlib

/-!
# The viewer texture list (`indra/newview/llviewertexturelist.cpp`)

A shallow embedding of `LLViewerTextureList`, the registry of fetched textures,
of the per-texture priority update, of the shutdown / prefetch manifest and of
the stages of `updateImages` (fast cache load, fetch update, create queue and
downscale queue).

Conventions of the embedding.

* A texture object lives in a heap `mHeap : TexPtr → LLViewerFetchedTexture`;
  `new` returns the next unused address `mNextPtr`.  A nullable C++ pointer is
  an `Option TexPtr`.
* `std::set<LLPointer<..>>` is a `Finset TexPtr` (iteration order is
  `Finset.sort`), `std::map<LLTextureKey, ..>` is an association list kept in
  key order, `std::queue` is a `List`.
* `llassert`, `llverify`, `llassert_always` and `LL_ERRS` are the code's own
  contract checks: a call that trips one of them yields `none`.
* `F32` values are exact rationals: rounding error and overflow of the
  floating-point operations are not modelled.
* Log output (`LL_WARNS`, `LL_INFOS`, `LL_DEBUGS`) is not part of the state.
* An `LLTimer` is a `Clock`: the sequence of values its successive readings
  return.  Nothing is assumed about these values.
* The field `mTrace` records, in call order, the start of each stage of
  `updateImages` with its budget and the calls the loops make on textures.  No
  function reads it; it serves to state the order of the calls.
-/

namespace LLViewerTextureListModel

/-! ## Identifiers, keys, constants -/

/-- An `LLUUID`; the null id is `0`. -/
abbrev LLUUID := Nat

/-- Address of a texture object. -/
abbrev TexPtr := Nat

/-- The list a texture is filed under (`ETexListType`). -/
inductive ETexListType where
  | TEX_LIST_STANDARD
  | TEX_LIST_SCALE
  deriving DecidableEq, Repr

/-- Numeric value of the enumerator, in declaration order. -/
def ETexListType.toNat : ETexListType → Nat
  | .TEX_LIST_STANDARD => 0
  | .TEX_LIST_SCALE => 1

/-- The key of the UUID map (`LLTextureKey`): an id and a list type. -/
structure LLTextureKey where
  textureId : LLUUID := 0
  textureType : ETexListType := .TEX_LIST_STANDARD
  deriving DecidableEq, Repr

/-- Modelled from the spec: `operator<` of `LLTextureKey` is declared in
`llviewertexturelist.h`, which is not among the sources; the spec calls the key a
"stable ordering key" and `findTexturesByID` walks the entries of one id from
`(id, TEX_LIST_STANDARD)` on, so keys compare by id first and by list type
second. -/
def LLTextureKey.lt (key1 key2 : LLTextureKey) : Bool :=
  if key1.textureId ≠ key2.textureId then decide (key1.textureId < key2.textureId)
  else decide (key1.textureType.toNat < key2.textureType.toNat)

/-- Position of a key in the key order. -/
def LLTextureKey.rank (k : LLTextureKey) : Nat := 2 * k.textureId + k.textureType.toNat

/-- A network host (`LLHost`): address and port, `0` being the invalid value. -/
structure LLHost where
  mIP : Nat := 0
  mPort : Nat := 0
  deriving DecidableEq, Repr

/-- The test `LLHost::isOk`. -/
def LLHost.isOk (h : LLHost) : Bool := h.mIP != 0 && h.mPort != 0

/-- The test `LLHost::isInvalid`. -/
def LLHost.isInvalid (h : LLHost) : Bool := h.mIP == 0 || h.mPort == 0

/-- Texture class `LLViewerTexture::FETCHED_TEXTURE` (value documented in `dump`). -/
def FETCHED_TEXTURE : Int := 3

/-- Texture class `LLViewerTexture::LOD_TEXTURE` (value documented in `dump`). -/
def LOD_TEXTURE : Int := 4

/-! ## Texture objects -/

/-- What the list reads of an `LLFace` that displays a texture, after the face
has refreshed its virtual size (`getTextureVirtualSize`): whether it has a viewer
object, `getVirtualSize()`, and the fields the priority update looks at.
`mTextureMatrix` is the pointer cast to an integer, `0` for null.  `mScaleS` and
`mScaleT` are the scales of the texture entry of the face (`getScaleS`,
`getScaleT`, 1 without a texture entry); in `updateImageDecodePriority` only a
block that is commented out mentions them. -/
structure LLFace where
  hasViewerObject : Bool := true
  mVSize : ℚ := 0
  mInFrustum : Bool := false
  mImportanceToCamera : ℚ := 0
  mCloseToCamera : ℚ := 0
  mTextureMatrix : Nat := 0
  hasMedia : Bool := false
  mScaleS : ℚ := 1
  mScaleT : ℚ := 1
  deriving DecidableEq

/-- What the list reads of the `LLImageGL` behind a texture. -/
structure LLImageGL where
  mHasGLTexture : Bool := false
  mMaxDiscardLevel : Int := 0
  mAllowCompression : Bool := true

/-- State of an `LLGLTexture` with respect to deletion of its GL image. -/
inductive LLGLTextureState where
  | DELETED
  | DELETION_CANDIDATE
  | INACTIVE
  | ACTIVE
  | NO_DELETE
  deriving DecidableEq, Repr

/-- The fields of an `LLViewerFetchedTexture` that the texture list reads or
writes.  `mNumRefs`, `mLastReferencedElapsed` and `mSavedRawElapsed` are the
values `getNumRefs()`, `getLastReferencedTimer()->getElapsedTimeF32()` and
`getElapsedLastReferencedSavedRawImageTime()` return when the list asks;
`mFaceList` holds, per texture channel, the first `getNumFaces` entries of the
face list; `mSpotLightPriority` has one entry per volume that uses the texture
as its light texture. -/
structure LLViewerFetchedTexture where
  mID : LLUUID := 0
  mFTType : Int := 0
  mTargetHost : LLHost := {}
  mUrl : String := ""
  mUseMipMaps : Bool := true
  mType : Int := FETCHED_TEXTURE
  mExplicitFormat : Option (Int × Int) := none
  mGLTexturep : Option LLImageGL := none
  mBoostLevel : Int := 0
  mDontDiscard : Bool := false
  mTextureState : LLGLTextureState := .NO_DELETE
  mGLTextureCreated : Bool := false
  mInImageList : Bool := false
  mInFastCacheList : Bool := false
  mTextureListType : ETexListType := .TEX_LIST_STANDARD
  mHasCallbacks : Bool := false
  mNumRefs : Int := 0
  mLastReferencedElapsed : ℚ := 0
  mHasSavedRawImage : Bool := false
  mSavedRawElapsed : ℚ := 0
  mIsDeleted : Bool := false
  mDiscardLevel : Int := -1
  mDesiredDiscardLevel : Int := 0
  mMaxVirtualSize : ℚ := 0
  mCloseToCamera : ℚ := 0
  mFaceList : List (List (Option LLFace)) := []
  mHasParcelMedia : Bool := false
  mNeedsAux : Bool := false
  mIsInvisiprim : Bool := false
  mBoundRecently : Bool := false
  mWidth : Int → Int := fun _ => 0
  mHeight : Int → Int := fun _ => 0
  mCreatePending : Bool := false
  mDownScalePending : Bool := false
  mSpotLightPriority : List ℚ := []
  mIsViewerMediaTexture : Bool := false

instance : Inhabited LLViewerFetchedTexture := ⟨{}⟩

/-- One record of the manifest file: `area`, `uuid`, `type`. -/
structure ManifestEntry where
  area : Int
  uuid : LLUUID
  type : Int
  deriving DecidableEq, Repr

/-- The content of a file on disk, byte by byte. -/
abbrev FileBytes := List Nat

/-- Constants and settings the texture list reads but does not define: the
enumerators of `EBoostLevel` and `FTType`, `MAX_DISCARD_LEVEL`, the well-known
image ids, the saved settings, `LLUUID::generate`, the texture's own
`processTextureStats`, the static `LLViewerTexture::isInvisiprim` and whether the
cache directory has a name.  The methods of a texture that `updateImages` calls
and that live in other files (`createTexture`, `postCreateTexture`,
`loadFromFastCache`, `updateFetch`, `forceToDeleteRequest`, `doLoadedCallbacks`,
`resetTextureStats`) act on the texture object; `scaleDownGL` is
`LLImageGL::scaleDown` on a GL image and its current discard level.
`MIN_UPDATE_COUNT` is the setting `TextureFetchUpdateMinCount`;
`texture_scale_min` and `texture_scale_max` are the settings
`TextureScaleMinAreaFactor` and `TextureScaleMaxAreaFactor`, which
`updateImageDecodePriority` declares.  `toPrettyXML` and `fromXML` are the two
calls of `LLSDSerialize`, which is outside the sources: the content written for
an array of records, and, for the content of a file, the value the call returns
together with the array it leaves in `imagelist`.  They are parameters of the
model. -/
structure Env where
  BOOST_NONE : Int := 0
  BOOST_HIGH : Int
  BOOST_SCULPTED : Int
  BOOST_ICON : Int
  BOOST_THUMBNAIL : Int
  BOOST_UI : Int
  FTT_DEFAULT : Int
  MAX_DISCARD_LEVEL : Int
  IMG_DEFAULT : LLUUID
  sMaxVirtualSize : ℚ
  fast_cache_fetching_enabled : Bool := true
  texture_camera_boost : ℚ := 7
  generate : String → LLUUID
  processTextureStats : LLViewerFetchedTexture → LLViewerFetchedTexture
  DEFAULT_WATER_NORMAL : LLUUID
  IMG_SHOT : LLUUID
  IMG_SMOKE_POOF : LLUUID
  IMG_SMOKE : LLUUID
  isInvisiprim : LLUUID → Bool
  cacheDirAvailable : Bool
  MIN_UPDATE_COUNT : Int
  createTexture : LLViewerFetchedTexture → LLViewerFetchedTexture
  postCreateTexture : LLViewerFetchedTexture → LLViewerFetchedTexture
  scaleDownGL : LLImageGL × Int → Int → LLImageGL × Int
  loadFromFastCache : LLViewerFetchedTexture → LLViewerFetchedTexture
  updateFetch : LLViewerFetchedTexture → LLViewerFetchedTexture
  forceToDeleteRequest : LLViewerFetchedTexture → LLViewerFetchedTexture
  doLoadedCallbacks : LLViewerFetchedTexture → LLViewerFetchedTexture × Bool
  resetTextureStats : LLViewerFetchedTexture → LLViewerFetchedTexture
  texture_scale_min : ℚ
  texture_scale_max : ℚ
  toPrettyXML : List ManifestEntry → FileBytes
  fromXML : FileBytes → Int × List ManifestEntry

/-- The function `get_element_type`: icons and thumbnails go to the scaled list. -/
def get_element_type (c : Env) (priority : Int) : ETexListType :=
  if priority = c.BOOST_ICON ∨ priority = c.BOOST_THUMBNAIL then .TEX_LIST_SCALE
  else .TEX_LIST_STANDARD

namespace LLViewerFetchedTexture

/-- The key a texture is registered under: its id and its list type. -/
def key (t : LLViewerFetchedTexture) : LLTextureKey := ⟨t.mID, t.mTextureListType⟩

/-- The test `hasGLTexture()`: there is an `LLImageGL` and it has a GL name. -/
def hasGLTexture (t : LLViewerFetchedTexture) : Bool :=
  match t.mGLTexturep with
  | some img => img.mHasGLTexture
  | none => false

/-- The test `getUseDiscard()`. -/
def getUseDiscard (t : LLViewerFetchedTexture) : Bool := t.mUseMipMaps && !t.mDontDiscard

/-- Modelled from the spec: the constructors of `LLViewerFetchedTexture` and
`LLViewerLODTexture` are defined in `llviewertexture.cpp`, not among the sources.
A new object takes its id, fetch type, host, url and mip-map flag from the
arguments, its class from the constructor used, and has a GL image object but no
flag set (the spec's `inFastCacheQueue`, `createPending`, `downscalePending`). -/
def create (texture_type : Int) (id : LLUUID) (f_type : Int) (host : LLHost) (url : String)
    (usemipmaps : Bool) : LLViewerFetchedTexture :=
  { mID := id, mFTType := f_type, mTargetHost := host, mUrl := url,
    mUseMipMaps := usemipmaps, mType := texture_type, mGLTexturep := some {} }

/-- The setter `setExplicitFormat`. -/
def setExplicitFormat (t : LLViewerFetchedTexture) (internal_format primary_format : Int) :
    LLViewerFetchedTexture :=
  { t with mExplicitFormat := some (internal_format, primary_format) }

/-- Modelled from the spec: `LLGLTexture::dontDiscard` (not among the sources)
pins the texture, the spec's `noEvict` flag: no discard, GL image never deleted. -/
def dontDiscard (t : LLViewerFetchedTexture) : LLViewerFetchedTexture :=
  { t with mDontDiscard := true, mTextureState := .NO_DELETE }

/-- Modelled from the spec: `LLGLTexture::forceActive` (not among the sources)
makes the GL image deletable again once unused. -/
def forceActive (t : LLViewerFetchedTexture) : LLViewerFetchedTexture :=
  { t with mTextureState := .ACTIVE }

/-- Modelled from the spec: `LLGLTexture::setNoDelete` (not among the sources),
the spec's pinned / "never delete" flag. -/
def setNoDelete (t : LLViewerFetchedTexture) : LLViewerFetchedTexture :=
  { t with mTextureState := .NO_DELETE }

/-- Modelled from the spec: `setBoostLevel` (not among the sources) stores the
priority class. -/
def setBoostLevel (t : LLViewerFetchedTexture) (level : Int) : LLViewerFetchedTexture :=
  { t with mBoostLevel := level }

/-- Modelled from the spec: `addTextureStats` (not among the sources) raises the
running virtual size to the given value, limited to `sMaxVirtualSize`. -/
def addTextureStats (c : Env) (t : LLViewerFetchedTexture) (virtual_size : ℚ) :
    LLViewerFetchedTexture :=
  let v := min virtual_size c.sMaxVirtualSize
  if v > t.mMaxVirtualSize then { t with mMaxVirtualSize := v } else t

end LLViewerFetchedTexture

/-! ## The texture list -/

/-- The UUID map `uuid_map_t`, entries in key order. -/
abbrev uuid_map_t := List (LLTextureKey × TexPtr)

/-- Lookup `std::map::find`: the value stored under the key, if any. -/
def uuid_map_find : uuid_map_t → LLTextureKey → Option TexPtr
  | [], _ => none
  | (k, v) :: rest, key => if key = k then some v else uuid_map_find rest key

/-- Assignment `map[key] = value`: replaces the value of an existing entry, or
inserts a new entry at its place in key order. -/
def uuid_map_assign : uuid_map_t → LLTextureKey → TexPtr → uuid_map_t
  | [], key, value => [(key, value)]
  | (k, v) :: rest, key, value =>
    if key = k then (key, value) :: rest
    else if key.lt k then (key, value) :: (k, v) :: rest
    else (k, v) :: uuid_map_assign rest key value

/-- Removal `std::map::erase(key)`: the map without the key. -/
def uuid_map_erase : uuid_map_t → LLTextureKey → uuid_map_t
  | [], _ => []
  | (k, v) :: rest, key =>
    if k = key then uuid_map_erase rest key else (k, v) :: uuid_map_erase rest key

/-- The number of entries `std::map::erase(key)` reports as removed. -/
def uuid_map_erase_count (m : uuid_map_t) (key : LLTextureKey) : Nat :=
  m.length - (uuid_map_erase m key).length

/-- The stages of one call of `updateImages`, in the order in which the code
runs them; the downscale loop is the second half of
`updateImagesCreateTextures`. -/
inductive Stage where
  | fastCache
  | fetch
  | create
  | downscale
  deriving DecidableEq, Repr

/-- Position of a stage in the order of the calls. -/
def Stage.toNat : Stage → Nat
  | .fastCache => 0
  | .fetch => 1
  | .create => 2
  | .downscale => 3

/-- One record of the call trace: a stage of `updateImages` starts with a time
budget, or one of the loops calls a method of a texture.  The trace is kept only
to state in which order the calls happen. -/
inductive TraceEvent where
  | stageBegin (stage : Stage) (max_time : ℚ)
  | loadFromFastCache (image : TexPtr)
  | fetchVisit (image : TexPtr)
  | updateImageDecodePriority (image : TexPtr)
  | updateFetch (image : TexPtr)
  | createTexture (image : TexPtr)
  | postCreateTexture (image : TexPtr)
  | scaleDownRequest (image : TexPtr)
  | scaleDownGL (image : TexPtr)
  | downScaleDone (image : TexPtr)
  deriving DecidableEq, Repr

/-- The stage a record belongs to. -/
def TraceEvent.stage : TraceEvent → Stage
  | .stageBegin stage _ => stage
  | .loadFromFastCache _ => .fastCache
  | .fetchVisit _ => .fetch
  | .updateImageDecodePriority _ => .fetch
  | .updateFetch _ => .fetch
  | .createTexture _ => .create
  | .postCreateTexture _ => .create
  | .scaleDownRequest _ => .create
  | .scaleDownGL _ => .downscale
  | .downScaleDone _ => .downscale

/-- The readings of one `LLTimer`: entry `i` is what the `i`-th call of
`getElapsedTimeF32` on it returns. -/
abbrev Clock := Nat → ℚ

/-- The object `gTextureList` with the globals it works on. -/
structure LLViewerTextureList where
  mInitialized : Bool := false
  sNumImages : Int := 0
  mImageList : Finset TexPtr := ∅
  mUUIDMap : uuid_map_t := []
  mCallbackList : Finset TexPtr := ∅
  mFastCacheList : Finset TexPtr := ∅
  mImagePreloads : Finset TexPtr := ∅
  mCreateTextureList : List TexPtr := []
  mDownScaleQueue : List TexPtr := []
  mLastUpdateKey : LLTextureKey := {}
  sDesiredDiscardBias : ℚ := 0
  mHeap : TexPtr → LLViewerFetchedTexture := fun _ => {}
  mNextPtr : TexPtr := 0
  mManifest : Option FileBytes := none
  gCubeSnapshot : Bool := false
  mIsDisabled : Bool := false
  mDownResMapComplete : Bool := true
  sBiasTexturesUpdated : Nat := 0
  sNumFastCacheReads : Nat := 0
  gTeleportDisplay : Bool := false
  cleared : Bool := false
  teleportArriving : Bool := false
  mNumFetchRequests : Nat := 0
  mForceResetTextureStats : Bool := false
  mTrace : List TraceEvent := []

namespace LLViewerTextureList

/-- Write access to one texture object. -/
def modify (st : LLViewerTextureList) (p : TexPtr)
    (f : LLViewerFetchedTexture → LLViewerFetchedTexture) : LLViewerTextureList :=
  { st with mHeap := Function.update st.mHeap p (f (st.mHeap p)) }

/-- The expression `new T(..)`: the object is placed at the next unused address. -/
def alloc (st : LLViewerTextureList) (t : LLViewerFetchedTexture) :
    LLViewerTextureList × TexPtr :=
  ({ st with mHeap := Function.update st.mHeap st.mNextPtr t, mNextPtr := st.mNextPtr + 1 },
   st.mNextPtr)

/-- The method `init`, without the preloads of `doPreloadImages`. -/
def init (st : LLViewerTextureList) : LLViewerTextureList :=
  { st with mInitialized := true, sNumImages := 0 }

/-- The method `findImage(const LLTextureKey&)`. -/
def findImageKey (st : LLViewerTextureList) (search_key : LLTextureKey) : Option TexPtr :=
  uuid_map_find st.mUUIDMap search_key

/-- The method `findImage(const LLUUID&, ETexListType)`. -/
def findImage (st : LLViewerTextureList) (image_id : LLUUID) (tex_type : ETexListType) :
    Option TexPtr :=
  st.findImageKey ⟨image_id, tex_type⟩

/-- The method `addImageToList`. -/
def addImageToList (st : LLViewerTextureList) (image : TexPtr) : Option LLViewerTextureList :=
  if !st.mInitialized then none
  else if (st.mHeap image).mInImageList then some st
  else
    some ({ st with mImageList := insert image st.mImageList }.modify image
      (fun t => { t with mInImageList := true }))

/-- The method `removeImageFromList`. -/
def removeImageFromList (st : LLViewerTextureList) (image : TexPtr) :
    Option LLViewerTextureList :=
  if !st.mInitialized then none
  else if (st.mHeap image).mInImageList then
    some ({ st with mImageList := st.mImageList.erase image }.modify image
      (fun t => { t with mInImageList := false }))
  else if image ∈ st.mImageList then
    some { st with mImageList := st.mImageList.erase image }
  else none

/-- The method `addImage`. -/
def addImage (st : LLViewerTextureList) (new_image : Option TexPtr) (tex_type : ETexListType) :
    Option LLViewerTextureList :=
  match new_image with
  | none => some st
  | some p =>
    let key : LLTextureKey := ⟨(st.mHeap p).mID, tex_type⟩
    let st1 := { st with sNumImages := st.sNumImages + 1 }
    match st1.addImageToList p with
    | none => none
    | some st2 =>
      some ({ st2 with mUUIDMap := uuid_map_assign st2.mUUIDMap key p }.modify p
        (fun t => { t with mTextureListType := tex_type }))

/-- The method `deleteImage`. -/
def deleteImage (st : LLViewerTextureList) (image : Option TexPtr) :
    Option LLViewerTextureList :=
  match image with
  | none => some st
  | some p =>
    let key := (st.mHeap p).key
    if uuid_map_erase_count st.mUUIDMap key ≠ 1 then none
    else
      removeImageFromList
        { st with
          mCallbackList := if (st.mHeap p).mHasCallbacks then st.mCallbackList.erase p
            else st.mCallbackList,
          mUUIDMap := uuid_map_erase st.mUUIDMap key,
          sNumImages := st.sNumImages - 1 } p

/-- The settings a new texture gets from its boost priority (`createImage` and
`getImageFromUrl` share this block, the former with the `else` branch). -/
def applyBoost (c : Env) (boost_priority : Int) (forceActiveIfNone : Bool)
    (t : LLViewerFetchedTexture) : LLViewerFetchedTexture :=
  if boost_priority ≠ 0 then
    let t1 := if boost_priority = c.BOOST_UI then t.dontDiscard else t
    let t2 := if boost_priority = c.BOOST_ICON ∨ boost_priority = c.BOOST_THUMBNAIL then
      t1.dontDiscard.forceActive else t1
    t2.setBoostLevel boost_priority
  else if forceActiveIfNone then t.forceActive
  else t

/-- The object `createImage` builds before it registers it: the constructor of
the requested class, the explicit format if both formats are given, and no
compression for sculpted textures. -/
def newImage (c : Env) (image_id : LLUUID) (f_type : Int) (usemipmaps : Bool)
    (boost_priority : Int) (texture_type : Int) (internal_format primary_format : Int)
    (request_from_host : LLHost) : LLViewerFetchedTexture :=
  let t0 := LLViewerFetchedTexture.create texture_type image_id f_type request_from_host ""
    usemipmaps
  let t1 := if internal_format ≠ 0 ∧ primary_format ≠ 0 then
    t0.setExplicitFormat internal_format primary_format else t0
  if boost_priority = c.BOOST_SCULPTED then
    { t1 with mGLTexturep := t1.mGLTexturep.map (fun img => { img with mAllowCompression := false }) }
  else t1

/-- Insertion into `mFastCacheList`, with the flag of the texture. -/
def insertFastCache (st : LLViewerTextureList) (p : TexPtr) : LLViewerTextureList :=
  { st with mFastCacheList := insert p st.mFastCacheList }.modify p
    (fun t => { t with mInFastCacheList := true })

/-- The method `createImage`. -/
def createImage (c : Env) (st : LLViewerTextureList) (image_id : LLUUID) (f_type : Int)
    (usemipmaps : Bool) (boost_priority : Int) (texture_type : Int)
    (internal_format primary_format : Int) (request_from_host : LLHost) :
    Option (LLViewerTextureList × TexPtr) :=
  if texture_type ≠ FETCHED_TEXTURE ∧ texture_type ≠ LOD_TEXTURE then none
  else
    let st1 := (st.alloc (newImage c image_id f_type usemipmaps boost_priority texture_type
      internal_format primary_format request_from_host)).1
    let p := st.mNextPtr
    match st1.addImage (some p) (get_element_type c boost_priority) with
    | none => none
    | some st2 =>
      let st3 := st2.modify p (applyBoost c boost_priority true)
      let st4 := if c.fast_cache_fetching_enabled ∧ boost_priority ≠ c.BOOST_SCULPTED then
        st3.insertFastCache p else st3
      some (st4, p)

/-- The body of `getImage` for a non-null id (from the `findImage` call on). -/
def getImageNonNull (c : Env) (st : LLViewerTextureList) (image_id : LLUUID) (f_type : Int)
    (usemipmaps : Bool) (boost_priority : Int) (texture_type : Int)
    (internal_format primary_format : Int) (request_from_host : LLHost) :
    Option (LLViewerTextureList × Option TexPtr) :=
  match st.findImage image_id (get_element_type c boost_priority) with
  | some p =>
    some (st.modify p (fun t => { t with mGLTextureCreated := true }), some p)
  | none =>
    match createImage c st image_id f_type usemipmaps boost_priority texture_type
        internal_format primary_format request_from_host with
    | none => none
    | some (st1, p) =>
      some (st1.modify p (fun t => { t with mGLTextureCreated := true }), some p)

/-- The method `getImage`.  For a null id it asks, through
`LLViewerTextureManager::getFetchedTexture`, for `IMG_DEFAULT` with the default
arguments and `BOOST_UI`; were `IMG_DEFAULT` null itself the call would not
return, which is `none` here. -/
def getImage (c : Env) (st : LLViewerTextureList) (image_id : LLUUID) (f_type : Int)
    (usemipmaps : Bool) (boost_priority : Int) (texture_type : Int)
    (internal_format primary_format : Int) (request_from_host : LLHost) :
    Option (LLViewerTextureList × Option TexPtr) :=
  if !st.mInitialized then some (st, none)
  else if image_id = 0 then
    if c.IMG_DEFAULT = 0 then none
    else getImageNonNull c st c.IMG_DEFAULT c.FTT_DEFAULT true c.BOOST_UI FETCHED_TEXTURE 0 0 {}
  else
    getImageNonNull c st image_id f_type usemipmaps boost_priority texture_type
      internal_format primary_format request_from_host

/-- The object `getImageFromUrl` builds before it registers it. -/
def newImageFromUrl (url : String) (new_id : LLUUID) (f_type : Int) (usemipmaps : Bool)
    (texture_type : Int) (internal_format primary_format : Int) : LLViewerFetchedTexture :=
  let t0 := LLViewerFetchedTexture.create texture_type new_id f_type {} url usemipmaps
  if internal_format ≠ 0 ∧ primary_format ≠ 0 then
    t0.setExplicitFormat internal_format primary_format else t0

/-- The method `getImageFromUrl`. -/
def getImageFromUrl (c : Env) (st : LLViewerTextureList) (url : String) (f_type : Int)
    (usemipmaps : Bool) (boost_priority : Int) (texture_type : Int)
    (internal_format primary_format : Int) (force_id : LLUUID) :
    Option (LLViewerTextureList × Option TexPtr) :=
  if !st.mInitialized then some (st, none)
  else
    let new_id := if force_id ≠ 0 then force_id else c.generate url
    match st.findImage new_id (get_element_type c boost_priority) with
    | some p =>
      some (st.modify p (fun t => { t with mGLTextureCreated := true }), some p)
    | none =>
      if texture_type ≠ FETCHED_TEXTURE ∧ texture_type ≠ LOD_TEXTURE then none
      else
        let st1 := (st.alloc (newImageFromUrl url new_id f_type usemipmaps texture_type
          internal_format primary_format)).1
        let p := st.mNextPtr
        match st1.addImage (some p) (get_element_type c boost_priority) with
        | none => none
        | some st2 =>
          let st3 := st2.modify p (applyBoost c boost_priority false)
          some (st3.modify p (fun t => { t with mGLTextureCreated := true }), some p)

end LLViewerTextureList

/-! ## The priority update -/

/-- Modelled from the spec: `llclamp(a, minval, maxval)` (declared outside the
sources), the spec's `clamp`: the lower bound is tested first. -/
def llclamp (a minval maxval : ℚ) : ℚ :=
  if a < minval then minval else if a > maxval then maxval else a

/-- The test `n - 1/2 ≤ 4 ^ x` for a rational exponent `x`, stated on integer
powers: `(2n - 1) ^ den ≤ 2 ^ den * 4 ^ num`. -/
def half_le_pow4 (x : ℚ) (n : ℕ) : Prop :=
  n = 0 ∨ (2 * (n : ℚ) - 1) ^ x.den ≤ 2 ^ x.den * (4 : ℚ) ^ x.num

instance (x : ℚ) : DecidablePred (half_le_pow4 x) := fun n => by
  unfold half_le_pow4
  infer_instance

/-- Modelled from the spec: `llroundf(powf(4, x))`, both functions being
declared outside the sources; the spec's `round(4^(effectiveBias - 1))`.  The
value is exact: the nearest integer to `4 ^ x` is the greatest `n` with
`n - 1/2 ≤ 4 ^ x`. -/
def llroundf_powf4 (x : ℚ) : ℕ :=
  Nat.findGreatest (half_le_pow4 x) (4 ^ x.num.toNat)

/-- Rounding to the nearest integer, a tie going to the even neighbour. -/
def roundHalfEven (x : ℚ) : Int :=
  if x - ⌊x⌋ < 1 / 2 then ⌊x⌋
  else if x - ⌊x⌋ > 1 / 2 then ⌊x⌋ + 1
  else if ⌊x⌋ % 2 = 0 then ⌊x⌋ else ⌊x⌋ + 1

/-- The loop of `floorLog2`: the number is halved until it is below 2, at most
`fuel` times. -/
def floorLog2Loop : Nat → Nat → Nat
  | 0, _ => 0
  | fuel + 1, n => if n < 2 then 0 else floorLog2Loop fuel (n / 2) + 1

/-- The integer part of the binary logarithm of a number, 0 for the number 0:
the function `Nat.log2`, by a loop that evaluates. -/
def floorLog2 (n : Nat) : Nat := floorLog2Loop n n

/-- The binary exponent `e` of a positive number `x`: `2 ^ e ≤ x < 2 ^ (e + 1)`. -/
def binaryExponent (x : ℚ) : Int :=
  if 1 ≤ x then (floorLog2 ⌊x⌋₊ : Int)
  else if x⁻¹ ≤ 2 ^ floorLog2 ⌈x⁻¹⌉₊ then -(floorLog2 ⌈x⁻¹⌉₊ : Int)
  else -(floorLog2 ⌈x⁻¹⌉₊ : Int) - 1

/-- The `F32` nearest to a number: the significand is rounded to 24 bits, a tie
going to the even significand.  The limits of the exponent (infinity from
`2 ^ 128` on, subnormal numbers below `2 ^ -126`) are not modelled. -/
def F32_round (x : ℚ) : ℚ :=
  if x = 0 then 0
  else
    (if x < 0 then -1 else 1)
      * (roundHalfEven (|x| / 2 ^ (binaryExponent |x| - 23)) : ℚ)
      * 2 ^ (binaryExponent |x| - 23)

/-- The conversion `(F32)` of a `U32`. -/
def F32_of_U32 (n : Nat) : ℚ := F32_round n

/-- The conversion `(F32)` of an `S32`. -/
def F32_of_S32 (x : Int) : ℚ := F32_round x

/-- The product of two `F32`, rounded once. -/
def F32_mul (a b : ℚ) : ℚ := F32_round (a * b)

/-- The conversion `S32(x)` of a float: truncation towards zero.  For a value
outside the range of `S32` the conversion is undefined in the language; the
model goes on with the truncated value. -/
def S32_of_F32 (x : ℚ) : Int := Int.tdiv x.num x.den

/-- The constant `BIAS_TRS_OUT_OF_SCREEN`. -/
def BIAS_TRS_OUT_OF_SCREEN : ℚ := 3 / 2

/-- The constant `BIAS_TRS_ON_SCREEN`. -/
def BIAS_TRS_ON_SCREEN : ℚ := 1

/-- The value `img ? img->getMaxDiscardLevel() : MAX_DISCARD_LEVEL`. -/
def maxDiscardLevel (c : Env) (t : LLViewerFetchedTexture) : Int :=
  match t.mGLTexturep with
  | some img => img.mMaxDiscardLevel
  | none => c.MAX_DISCARD_LEVEL

/-- The scaler `1.0f / llroundf(powf(4, bias - 1.f))` is a finite number: the
rounded power it divides by is not zero.  This is so for every global bias from 1
on. -/
def finiteScaler (c : Env) (t : LLViewerFetchedTexture) (sDesiredDiscardBias : ℚ) : Prop :=
  llroundf_powf4 (llclamp ((maxDiscardLevel c t : ℚ) - 2) 1 sDesiredDiscardBias - 1) ≠ 0

/-- The size scaler `bias` of `updateImageDecodePriority`: the global bias capped
by the resolution of the image, turned into a factor on virtual sizes. -/
def discardBias (c : Env) (t : LLViewerFetchedTexture) (sDesiredDiscardBias : ℚ) : ℚ :=
  let max_discard : ℚ := (maxDiscardLevel c t : ℚ)
  let bias := llclamp (max_discard - 2) 1 sDesiredDiscardBias
  1 / (llroundf_powf4 (bias - 1) : ℚ)

/-- The virtual size of one face after the camera-importance boost and the
close-to-camera boost. -/
def boostedVSize (c : Env) (face : LLFace) : ℚ :=
  let vsize := face.mVSize
  let vsize := vsize + vsize * face.mImportanceToCamera * c.texture_camera_boost
  vsize + vsize * face.mCloseToCamera * c.texture_camera_boost

/-- The variables the face loop of `updateImageDecodePriority` accumulates. -/
structure FaceScan where
  max_vsize : ℚ := 0
  max_on_screen_vsize : ℚ := 0
  on_screen_count : Int := 0
  close_to_camera : ℚ := 0
  face_count : Nat := 0
  animated : Int := 0

/-- The body of the inner face loop for a face that has a viewer object. -/
def scanValidFace (c : Env) (bias : ℚ) (hasParcelMedia : Bool) (acc : FaceScan)
    (f : LLFace) : FaceScan :=
  { face_count := acc.face_count + 1,
    on_screen_count := acc.on_screen_count + (if f.mInFrustum then 1 else 0)
      + S32_of_F32 (f.mImportanceToCamera * 1000),
    animated := acc.animated + (f.mTextureMatrix : Int) + (if f.hasMedia then 1 else 0)
      + (if hasParcelMedia then 1 else 0),
    close_to_camera := acc.close_to_camera + f.mCloseToCamera,
    max_on_screen_vsize := max acc.max_on_screen_vsize (boostedVSize c f),
    max_vsize := max acc.max_vsize (boostedVSize c f * bias) }

/-- One iteration of the inner face loop: null faces and faces without a viewer
object are skipped. -/
def scanFace (c : Env) (bias : ℚ) (hasParcelMedia : Bool) (acc : FaceScan)
    (face : Option LLFace) : FaceScan :=
  match face with
  | none => acc
  | some f => if f.hasViewerObject then scanValidFace c bias hasParcelMedia acc f else acc

/-- The two nested loops over the texture channels and the faces of a channel. -/
def scanFaces (c : Env) (bias : ℚ) (t : LLViewerFetchedTexture) : FaceScan :=
  t.mFaceList.foldl (fun acc faces => faces.foldl (scanFace c bias t.mHasParcelMedia) acc) {}

/-- The faces the loop counts: those of all channels, in order, that are not
null and have a viewer object. -/
def validFaces (t : LLViewerFetchedTexture) : List LLFace :=
  t.mFaceList.flatten.filterMap (fun face =>
    match face with
    | none => none
    | some f => if f.hasViewerObject then some f else none)

/-- The virtual size `updateImageDecodePriority` hands to `addTextureStats`,
given the result of the face loop and the texture after the boost and the reset
of its running size. -/
def selectVSize (c : Env) (sDesiredDiscardBias : ℚ) (scan : FaceScan)
    (t : LLViewerFetchedTexture) : ℚ :=
  let on_screen : Bool := decide (scan.on_screen_count ≠ 0)
  if on_screen ∧ ((t.mDiscardLevel < 2 ∧ t.mType ≥ FETCHED_TEXTURE)
      ∨ (t.mType = FETCHED_TEXTURE ∧ sDesiredDiscardBias < 2)) then
    scan.max_on_screen_vsize
  else if t.mBoostLevel ≥ c.BOOST_HIGH ∨ t.mType < FETCHED_TEXTURE
      ∨ scan.close_to_camera ≠ 0 then
    scan.max_on_screen_vsize
  else scan.max_vsize

/-- The call `setCloseToCamera(close_to_camera > 0.0f ? 1.0f : 0.0f)`. -/
def setCloseToCamera (scan : FaceScan) (t : LLViewerFetchedTexture) : LLViewerFetchedTexture :=
  { t with mCloseToCamera := if scan.close_to_camera > 0 then 1 else 0 }

/-- A texture on more than 1024 faces, or an animated one, is boosted to
`BOOST_HIGH`. -/
def boostHeavilyUsed (c : Env) (scan : FaceScan) (t : LLViewerFetchedTexture) :
    LLViewerFetchedTexture :=
  if scan.face_count > 1024 ∨ scan.animated ≠ 0 then t.setBoostLevel c.BOOST_HIGH else t

/-- The conditional reset of the running virtual size of an unboosted LOD
texture. -/
def resetMaxVirtualSize (c : Env) (sDesiredDiscardBias : ℚ) (scan : FaceScan)
    (t : LLViewerFetchedTexture) : LLViewerFetchedTexture :=
  let on_screen : Bool := decide (scan.on_screen_count ≠ 0)
  if t.mType = LOD_TEXTURE ∧ t.mBoostLevel = c.BOOST_NONE then
    if sDesiredDiscardBias > BIAS_TRS_OUT_OF_SCREEN
        ∨ (on_screen = false ∧ sDesiredDiscardBias > BIAS_TRS_ON_SCREEN) then
      { t with mMaxVirtualSize := 0 }
    else t
  else t

/-- The first block of `updateImageDecodePriority`, for textures below
`BOOST_HIGH`: face loop, boost of heavily used or animated textures, reset of the
running size of unboosted LOD textures, and the new texture statistics. -/
def updateFaceStats (c : Env) (sDesiredDiscardBias : ℚ) (t : LLViewerFetchedTexture) :
    LLViewerFetchedTexture :=
  if t.mBoostLevel < c.BOOST_HIGH then
    let scan := scanFaces c (discardBias c t sDesiredDiscardBias) t
    let t1 := setCloseToCamera scan t
    let t2 := boostHeavilyUsed c scan t1
    let t3 := resetMaxVirtualSize c sDesiredDiscardBias scan t2
    t3.addTextureStats c (selectVSize c sDesiredDiscardBias scan t3)
  else t

/-- The texture right before the call of `addTextureStats` in the first block of
`updateImageDecodePriority`: after the face loop, the boost of heavily used or
animated textures and the conditional reset of the running size. -/
def preparedForStats (c : Env) (sDesiredDiscardBias : ℚ) (t : LLViewerFetchedTexture) :
    LLViewerFetchedTexture :=
  resetMaxVirtualSize c sDesiredDiscardBias
    (scanFaces c (discardBias c t sDesiredDiscardBias) t)
    (boostHeavilyUsed c (scanFaces c (discardBias c t sDesiredDiscardBias) t)
      (setCloseToCamera (scanFaces c (discardBias c t sDesiredDiscardBias) t) t))

/-- The virtual size the first block of `updateImageDecodePriority` hands to
`addTextureStats`. -/
def fedVirtualSize (c : Env) (sDesiredDiscardBias : ℚ) (t : LLViewerFetchedTexture) : ℚ :=
  selectVSize c sDesiredDiscardBias (scanFaces c (discardBias c t sDesiredDiscardBias) t)
    (preparedForStats c sDesiredDiscardBias t)

/-- Modelled from the spec: `LLVOVolume::updateSpotLightPriority` is outside the
sources; a spotlight adds its priority to the statistics of its light texture,
which is what the loop over `getVolumeList(LIGHT_TEX)` amounts to. -/
def updateSpotLights (c : Env) (t : LLViewerFetchedTexture) : LLViewerFetchedTexture :=
  t.mSpotLightPriority.foldl (fun acc priority => acc.addTextureStats c priority) t

/-- The `else` branch of the lazy flush: the texture is still referenced, its
timer is reset and a saved raw image that was idle too long is destroyed. -/
def touchReferenced (max_inactive_time : ℚ) (t : LLViewerFetchedTexture) :
    LLViewerFetchedTexture :=
  let t1 := { t with mLastReferencedElapsed := 0 }
  if t1.mHasSavedRawImage ∧ t1.mSavedRawElapsed > max_inactive_time then
    { t1 with mHasSavedRawImage := false }
  else t1

namespace LLViewerTextureList

/-- The end of `updateImageDecodePriority`: `processTextureStats` unless the
texture left the image list or still waits for the fast cache. -/
def finishDecodePriority (c : Env) (st : LLViewerTextureList) (imagep : TexPtr) :
    LLViewerTextureList :=
  if !(st.mHeap imagep).mInImageList then st
  else if (st.mHeap imagep).mInFastCacheList then st
  else st.modify imagep c.processTextureStats

/-- The method `updateImageDecodePriority`. -/
def updateImageDecodePriority (c : Env) (st : LLViewerTextureList) (imagep : TexPtr)
    (flush_images : Bool) : Option LLViewerTextureList :=
  if st.gCubeSnapshot then none
  else
    let st2 := st.modify imagep
      (fun t => updateSpotLights c (updateFaceStats c st.sDesiredDiscardBias t))
    let max_inactive_time : ℚ := 20
    let min_refs : Int := 3
    let lazy_flush_timeout : ℚ := 30
    let num_refs := (st2.mHeap imagep).mNumRefs
    if num_refs ≤ min_refs ∧ flush_images = true then
      if (st2.mHeap imagep).mLastReferencedElapsed > lazy_flush_timeout then
        st2.deleteImage (some imagep)
      else some (finishDecodePriority c st2 imagep)
    else
      let st3 := st2.modify imagep (touchReferenced max_inactive_time)
      if (st3.mHeap imagep).mIsDeleted then some st3
      else some (finishDecodePriority c st3 imagep)

end LLViewerTextureList

/-! ## Shutdown and prefetch -/

/-- The order of `std::pair<S32, LLViewerFetchedTexture*>`: by area, then by
address. -/
def area_pair_lt (a b : Int × TexPtr) : Prop := a.1 < b.1 ∨ (a.1 = b.1 ∧ a.2 < b.2)

instance (a b : Int × TexPtr) : Decidable (area_pair_lt a b) := by
  unfold area_pair_lt
  infer_instance

/-- Insertion `std::set::insert` into `image_area_list_t`, kept in ascending
order; an element already present is not inserted again. -/
def area_set_insert (e : Int × TexPtr) : List (Int × TexPtr) → List (Int × TexPtr)
  | [] => [e]
  | x :: rest =>
    if area_pair_lt e x then e :: x :: rest
    else if e = x then x :: rest
    else x :: area_set_insert e rest

/-- The test of the first loop of `shutdown`: the image has a GL texture, may be
discarded, needs no aux data, has no host and no url, is not an invisiprim, was
bound recently, and its desired discard level is in `[0, MAX_DISCARD_LEVEL)`. -/
def savedOnShutdown (c : Env) (t : LLViewerFetchedTexture) : Bool :=
  !(!t.hasGLTexture || !t.getUseDiscard || t.mNeedsAux || !t.mTargetHost.isInvalid
      || !t.mUrl.isEmpty || t.mIsInvisiprim)
    && t.mBoundRecently
    && decide (t.mDesiredDiscardLevel ≥ 0 ∧ t.mDesiredDiscardLevel < c.MAX_DISCARD_LEVEL)

/-- The value an integer has when it is stored in an `S32`: reduced modulo
`2 ^ 32` into the range from `-2 ^ 31` to `2 ^ 31 - 1`. -/
def S32_wrap (x : Int) : Int := (x + 2147483648) % 4294967296 - 2147483648

/-- The pixel area of a texture at its desired discard level, as a number: width
times height. -/
def pixelArea (t : LLViewerFetchedTexture) : Int :=
  t.mWidth t.mDesiredDiscardLevel * t.mHeight t.mDesiredDiscardLevel

/-- The value `pixel_area` of `shutdown`: the product of the `S32` values
`getWidth(desired)` and `getHeight(desired)`, stored in an `S32`. -/
def shutdownPixelArea (t : LLViewerFetchedTexture) : Int :=
  S32_wrap (t.mWidth t.mDesiredDiscardLevel * t.mHeight t.mDesiredDiscardLevel)

namespace LLViewerTextureList

/-- The first loop of `shutdown`: the set `image_area_list`, in ascending order. -/
def shutdownAreaList (c : Env) (st : LLViewerTextureList) : List (Int × TexPtr) :=
  (st.mImageList.sort (· ≤ ·)).foldl
    (fun acc image =>
      if savedOnShutdown c (st.mHeap image) then
        area_set_insert (shutdownPixelArea (st.mHeap image), image) acc
      else acc) []

/-- The images the second loop of `shutdown` visits: `image_area_list` from its
end, stopping after `max_count = 1000` entries. -/
def shutdownSelection (c : Env) (st : LLViewerTextureList) : List (Int × TexPtr) :=
  (st.shutdownAreaList c).reverse.take 1000

/-- The array `imagelist` that `shutdown` builds. -/
def shutdownManifest (c : Env) (st : LLViewerTextureList) : List ManifestEntry :=
  (st.shutdownSelection c).map
    (fun e => { area := e.1, uuid := (st.mHeap e.2).mID, type := (st.mHeap e.2).mType })

/-- The method `shutdown`: the manifest is written with `toPrettyXML` if it has
an entry and the cache directory has a name; then every list is cleared. -/
def shutdown (c : Env) (st : LLViewerTextureList) : LLViewerTextureList :=
  let imagelist := st.shutdownManifest c
  { st with
    mImagePreloads := ∅,
    mManifest :=
      if imagelist.length > 0 ∧ c.cacheDirAvailable = true then some (c.toPrettyXML imagelist)
      else st.mManifest,
    mCallbackList := ∅,
    mCreateTextureList := [],
    mHeap := fun q => if q ∈ st.mCreateTextureList then
      { st.mHeap q with mCreatePending := false } else st.mHeap q,
    mFastCacheList := ∅,
    mUUIDMap := [],
    mImageList := ∅,
    mInitialized := false }

/-- The body of the prefetch loop of `doPrefetchImages` for one record. -/
def prefetchEntry (c : Env) (st : LLViewerTextureList) (imagesd : ManifestEntry) :
    Option LLViewerTextureList :=
  if (FETCHED_TEXTURE = imagesd.type ∨ LOD_TEXTURE = imagesd.type)
      ∧ c.isInvisiprim imagesd.uuid = false then
    match getImage c st imagesd.uuid c.FTT_DEFAULT true c.BOOST_NONE imagesd.type 0 0 {} with
    | none => none
    | some (st1, some image) =>
      some (st1.modify image (fun t => t.addTextureStats c (F32_of_S32 imagesd.area)))
    | some (st1, none) => some st1
  else some st

/-- The prefetch loop of `doPrefetchImages` over the records of the manifest. -/
def prefetchEntries (c : Env) : LLViewerTextureList → List ManifestEntry →
    Option LLViewerTextureList
  | st, [] => some st
  | st, imagesd :: rest =>
    match prefetchEntry c st imagesd with
    | none => none
    | some st1 => prefetchEntries c st1 rest

/-- The first part of `doPrefetchImages`: the fixed preloads.  The calls go
through `LLViewerTextureManager::getFetchedTexture`, which forwards to `getImage`
with its default arguments; `LLStandardBumpmap::addstandard`, outside the
sources, is a parameter.  `setAddressMode` is not modelled. -/
def prefetchPreloads (c : Env)
    (addstandard : LLViewerTextureList → Option LLViewerTextureList)
    (st : LLViewerTextureList) : Option LLViewerTextureList := do
  let st1 ← match st.findImage c.DEFAULT_WATER_NORMAL .TEX_LIST_STANDARD with
    | some _ => some st
    | none =>
      match getImage c st c.DEFAULT_WATER_NORMAL c.FTT_DEFAULT true c.BOOST_UI
          FETCHED_TEXTURE 0 0 {} with
      | none => none
      | some (s, some imagep) => some { s with mImagePreloads := insert imagep s.mImagePreloads }
      | some (s, none) => some s
  let r2 ← getImage c st1 c.IMG_SHOT c.FTT_DEFAULT true c.BOOST_NONE FETCHED_TEXTURE 0 0 {}
  let r3 ← getImage c r2.1 c.IMG_SMOKE_POOF c.FTT_DEFAULT true c.BOOST_NONE FETCHED_TEXTURE
    0 0 {}
  let r4 ← getImage c r3.1 c.IMG_SMOKE c.FTT_DEFAULT true c.BOOST_UI FETCHED_TEXTURE 0 0 {}
  let sSmokeImagep ← r4.2
  addstandard (r4.1.modify sSmokeImagep LLViewerFetchedTexture.setNoDelete)

/-- Modelled from the spec: `LLSDSerialize::fromXML` is outside the sources, and
so is the meaning of the value it returns.  A manifest file fails to parse when
the call returns zero on its content: that is the value the test
`!LLSDSerialize::fromXML(imagelist, file)` of `doPrefetchImages` singles out, and
the branch it guards reports "XML parse error reading texture list". -/
def failsToParse (c : Env) (file : FileBytes) : Prop := (c.fromXML file).1 = 0

instance (c : Env) (file : FileBytes) : Decidable (failsToParse c file) := by
  unfold failsToParse
  infer_instance

/-- The second part of `doPrefetchImages`, "pre-fetch textures from last logout".
A file that cannot be opened leaves `imagelist` empty.  For a file that is open
the test is `!LLSDSerialize::fromXML(imagelist, file)`: when the call returns
zero the file is removed and the method returns; otherwise the loop runs over the
array the call left in `imagelist`. -/
def prefetchManifest (c : Env) (st : LLViewerTextureList) : Option LLViewerTextureList :=
  match st.mManifest with
  | none => prefetchEntries c st []
  | some file =>
    if (c.fromXML file).1 = 0 then some { st with mManifest := none }
    else prefetchEntries c st (c.fromXML file).2

/-- The method `doPrefetchImages`; `purgeCache` is
`LLAppViewer::instance()->getPurgeCache()`. -/
def doPrefetchImages (c : Env)
    (addstandard : LLViewerTextureList → Option LLViewerTextureList) (purgeCache : Bool)
    (st : LLViewerTextureList) : Option LLViewerTextureList :=
  match prefetchPreloads c addstandard st with
  | none => none
  | some st1 => if purgeCache then some st1 else prefetchManifest c st1

end LLViewerTextureList

/-! ## The stages of `updateImages` -/

/-- The conversion `(U32)` of an `S32`. -/
def U32_of_S32 (x : Int) : Nat := (x % 4294967296).toNat

/-- The call `mUUIDMap.upper_bound(key)`: the position of the first entry whose
key is greater than `key`, the length of the map for `end()`. -/
def uuid_map_upper_bound : uuid_map_t → LLTextureKey → Nat
  | [], _ => 0
  | (k, _) :: rest, key => if key.lt k then 0 else uuid_map_upper_bound rest key + 1

/-- The flag `redundant_load` of the create loop: the texture in VRAM already is
at least as fine as the desired discard level. -/
def redundant_load (t : LLViewerFetchedTexture) : Bool :=
  t.hasGLTexture && decide (t.mDiscardLevel ≤ t.mDesiredDiscardLevel)

/-- The test of the create loop that sends a texture to the downscale queue right
after its creation. -/
def needsScaleDown (c : Env) (t : LLViewerFetchedTexture) : Bool :=
  t.hasGLTexture && decide (t.mDiscardLevel < t.mDesiredDiscardLevel)
    && decide (t.mDesiredDiscardLevel ≤ c.MAX_DISCARD_LEVEL)
    && decide (t.mBoostLevel = c.BOOST_NONE) && decide (t.mType = LOD_TEXTURE)
    && !t.mHasParcelMedia && !t.mIsViewerMediaTexture

namespace LLViewerTextureList

/-- A record is appended to the call trace. -/
def log (st : LLViewerTextureList) (e : TraceEvent) : LLViewerTextureList :=
  { st with mTrace := st.mTrace ++ [e] }

/-- The call `mDownScaleQueue.push(imagep)`. -/
def pushDownScale (st : LLViewerTextureList) (imagep : TexPtr) : LLViewerTextureList :=
  { st with mDownScaleQueue := st.mDownScaleQueue ++ [imagep] }

/-- Modelled from the spec: `LLViewerFetchedTexture::scaleDown` is outside the
sources; a texture with a GL image that does not wait for a downscale yet is
flagged and appended to the downscale queue (spec 4.5, "enqueue into
DownscaleQueue rather than waiting for the next tick"). -/
def scaleDown (st : LLViewerTextureList) (imagep : TexPtr) : LLViewerTextureList :=
  if (st.mHeap imagep).hasGLTexture = true ∧ (st.mHeap imagep).mDownScalePending = false then
    (st.modify imagep (fun t => { t with mDownScalePending := true })).pushDownScale imagep
  else st

/-- The call `mCreateTextureList.pop()`. -/
def popCreate (st : LLViewerTextureList) : LLViewerTextureList :=
  { st with mCreateTextureList := st.mCreateTextureList.tail }

/-- The call `mDownScaleQueue.pop()`. -/
def popDownScale (st : LLViewerTextureList) : LLViewerTextureList :=
  { st with mDownScaleQueue := st.mDownScaleQueue.tail }

/-- The upload of the create loop: `createTexture` unless the load is
redundant. -/
def uploadFront (c : Env) (st : LLViewerTextureList) (imagep : TexPtr) : LLViewerTextureList :=
  if redundant_load (st.mHeap imagep) = true then st
  else (st.log (.createTexture imagep)).modify imagep c.createTexture

/-- The end of the body of the create loop: a texture that is finer than desired
right after its creation is scaled down at once. -/
def scaleDownFront (c : Env) (st : LLViewerTextureList) (imagep : TexPtr) :
    LLViewerTextureList :=
  if needsScaleDown c (st.mHeap imagep) = true then
    (st.log (.scaleDownRequest imagep)).scaleDown imagep
  else st

/-- The middle of the body of the create loop: `postCreateTexture`, the reset of
`mCreatePending` and the `pop` of the queue. -/
def finishUpload (c : Env) (st : LLViewerTextureList) (imagep : TexPtr) :
    LLViewerTextureList :=
  ((((st.log (.postCreateTexture imagep)).modify imagep c.postCreateTexture).modify imagep
    (fun t => { t with mCreatePending := false }))).popCreate

/-- The body of the create loop for the front entry `imagep`, after its assertion
and up to the reading of the timer. -/
def createFrontBody (c : Env) (st : LLViewerTextureList) (imagep : TexPtr) :
    LLViewerTextureList :=
  scaleDownFront c (finishUpload c (uploadFront c st imagep) imagep) imagep

/-- One turn of the create loop for the front entry `imagep`; `none` if
`llassert(imagep->mCreatePending)` fails. -/
def createFront (c : Env) (st : LLViewerTextureList) (imagep : TexPtr) :
    Option LLViewerTextureList :=
  if (st.mHeap imagep).mCreatePending = false then none
  else some (createFrontBody c st imagep)

/-- The create loop of `updateImagesCreateTextures`.  `reads` counts the readings
of `create_timer` so far; every turn pops one entry, so the length of the queue
is enough fuel. -/
def createTexturesLoop (c : Env) (max_time : ℚ) (create_timer : Clock) :
    Nat → Nat → LLViewerTextureList → Option (LLViewerTextureList × Nat)
  | 0, reads, st => some (st, reads)
  | fuel + 1, reads, st =>
    match st.mCreateTextureList with
    | [] => some (st, reads)
    | imagep :: _ =>
      match createFront c st imagep with
      | none => none
      | some st1 =>
        if create_timer reads > max_time * (1 / 2) then some (st1, reads + 1)
        else createTexturesLoop c max_time create_timer fuel (reads + 1) st1

/-- The call `img->scaleDown(image->getDesiredDiscardLevel())` of the downscale
loop, made when the texture has a GL image with a GL name. -/
def scaleDownImage (c : Env) (st : LLViewerTextureList) (image : TexPtr) :
    LLViewerTextureList :=
  match (st.mHeap image).mGLTexturep with
  | some img =>
    if img.mHasGLTexture = true then
      (st.log (.scaleDownGL image)).modify image (fun t =>
        { t with
          mGLTexturep := some (c.scaleDownGL (img, t.mDiscardLevel) t.mDesiredDiscardLevel).1,
          mDiscardLevel := (c.scaleDownGL (img, t.mDiscardLevel) t.mDesiredDiscardLevel).2 })
    else st
  | none => st

/-- The body of the downscale loop for the front entry `image`, after its
assertion and up to the reading of the timer. -/
def downScaleFrontBody (c : Env) (st : LLViewerTextureList) (image : TexPtr) :
    LLViewerTextureList :=
  (((scaleDownImage c st image).modify image
    (fun t => { t with mDownScalePending := false })).popDownScale).log (.downScaleDone image)

/-- One turn of the downscale loop for the front entry `image`; `none` if
`llassert(image->mDownScalePending)` fails. -/
def downScaleFront (c : Env) (st : LLViewerTextureList) (image : TexPtr) :
    Option LLViewerTextureList :=
  if (st.mHeap image).mDownScalePending = false then none
  else some (downScaleFrontBody c st image)

/-- The downscale loop of `updateImagesCreateTextures`.  `min_count` is
decremented only when the timer is past `max_time`, and the loop stops once it
is used up. -/
def downScaleLoop (c : Env) (max_time : ℚ) (create_timer : Clock) :
    Nat → Nat → Int → LLViewerTextureList → Option (LLViewerTextureList × Nat)
  | 0, reads, _, st => some (st, reads)
  | fuel + 1, reads, min_count, st =>
    match st.mDownScaleQueue with
    | [] => some (st, reads)
    | image :: _ =>
      match downScaleFront c st image with
      | none => none
      | some st1 =>
        if create_timer reads > max_time then
          if min_count - 1 ≤ 0 then some (st1, reads + 1)
          else downScaleLoop c max_time create_timer fuel (reads + 1) (min_count - 1) st1
        else downScaleLoop c max_time create_timer fuel (reads + 1) min_count st1

/-- The second half of `updateImagesCreateTextures`: the downscale queue is
drained when it is not empty and the render target `mDownResMap` is complete;
`min_count` is computed from the create queue as the create loop left it. -/
def drainDownScaleQueue (c : Env) (st : LLViewerTextureList) (max_time : ℚ)
    (create_timer : Clock) (reads : Nat) : Option (LLViewerTextureList × Nat) :=
  if st.mDownScaleQueue ≠ [] ∧ st.mDownResMapComplete = true then
    let min_count : Int := (st.mCreateTextureList.length : Int) / 20 + 5
    downScaleLoop c max_time create_timer st.mDownScaleQueue.length reads min_count st
  else some (st, reads)

/-- The method `updateImagesCreateTextures`; the result carries the elapsed time
that the method returns. -/
def updateImagesCreateTextures (c : Env) (st : LLViewerTextureList) (max_time : ℚ)
    (create_timer : Clock) : Option (LLViewerTextureList × ℚ) :=
  if st.mIsDisabled = true then some (st, 0)
  else
    match createTexturesLoop c max_time create_timer st.mCreateTextureList.length 0 st with
    | none => none
    | some (st1, reads1) =>
      match drainDownScaleQueue c st1 max_time create_timer reads1 with
      | none => none
      | some (st2, reads2) => some (st2, create_timer reads2)

/-- The loop of `updateImagesLoadingFastCache` over the entries of the fast cache
list in set order; the number of readings of the timer is the number of entries
loaded. -/
def loadFastCacheEntries (c : Env) (max_time : ℚ) (timer : Clock) :
    List TexPtr → Nat → LLViewerTextureList → LLViewerTextureList × Nat
  | [], reads, st => (st, reads)
  | imagep :: rest, reads, st =>
    let st1 := (st.log (.loadFromFastCache imagep)).modify imagep c.loadFromFastCache
    let st2 := { st1 with sNumFastCacheReads := st1.sNumFastCacheReads + 1 }
    if timer reads > max_time then (st2, reads + 1)
    else loadFastCacheEntries c max_time timer rest (reads + 1) st2

/-- The method `updateImagesLoadingFastCache`: the entries loaded are erased from
the fast cache list, `erase(begin(), enditer)`. -/
def updateImagesLoadingFastCache (c : Env) (st : LLViewerTextureList) (max_time : ℚ)
    (timer : Clock) : LLViewerTextureList × ℚ :=
  if st.mIsDisabled = true then (st, 0)
  else if st.mFastCacheList = ∅ then (st, 0)
  else
    let images := st.mFastCacheList.sort (· ≤ ·)
    let r := loadFastCacheEntries c max_time timer images 0 st
    ({ r.1 with mFastCacheList := r.1.mFastCacheList \ (images.take r.2).toFinset }, timer r.2)

/-- The number of map entries `updateImagesFetchTextures` looks at, and the new
value of `sBiasTexturesUpdated`.  `size` is `(U32) mUUIDMap.size()`.  The product
`update_count * sDesiredDiscardBias` is a product of two `F32`, the count being
converted first; it is cast to `S32` and stored in the `U32` `update_count`,
which changes nothing since the product is not negative.  The sum that goes to
the `U32` counter wraps. -/
def fetchUpdateCount (c : Env) (st : LLViewerTextureList) : Nat × Nat :=
  let size : Nat := st.mUUIDMap.length % 4294967296
  let update_count : Nat := max (U32_of_S32 c.MIN_UPDATE_COUNT) (size / 20)
  if st.sDesiredDiscardBias > 1 ∧ st.sBiasTexturesUpdated < size then
    let boosted : Nat :=
      (S32_of_F32 (F32_mul (F32_of_U32 update_count) st.sDesiredDiscardBias)).toNat
    (min boosted size, (st.sBiasTexturesUpdated + boosted) % 4294967296)
  else (min update_count size, st.sBiasTexturesUpdated)

/-- The copy loop of `updateImagesFetchTextures`: `update_count` entries of the
map from position `iter` on, wrapping from `end()` to `begin()`; an entry enters
`entries` when its texture has a GL image.  Reading the entry at `end()` is
undefined and modelled as `none`. -/
def copyEntries (st : LLViewerTextureList) : Nat → Nat → List TexPtr → Option (List TexPtr)
  | 0, _, entries => some entries
  | update_count + 1, iter, entries =>
    let iter1 := if iter = st.mUUIDMap.length then 0 else iter
    match st.mUUIDMap[iter1]? with
    | none => none
    | some (_, imagep) =>
      copyEntries st update_count (iter1 + 1)
        (if (st.mHeap imagep).mGLTexturep.isSome = true then entries ++ [imagep] else entries)

/-- The first statement of the update loop of `updateImagesFetchTextures`: the
cursor `mLastUpdateKey` moves to the key of the entry. -/
def visit (st : LLViewerTextureList) (imagep : TexPtr) : LLViewerTextureList :=
  ({ st with mLastUpdateKey := (st.mHeap imagep).key } : LLViewerTextureList).log
    (.fetchVisit imagep)

/-- The body of the update loop of `updateImagesFetchTextures` for one entry:
the cursor moves to the entry, and a texture with more than one reference gets
`updateImageDecodePriority` and `updateFetch`.  The call leaves `flush_images`
at its default, `true` in the header, which is outside the sources. -/
def fetchEntry (c : Env) (st : LLViewerTextureList) (imagep : TexPtr) :
    Option LLViewerTextureList :=
  if ((st.visit imagep).mHeap imagep).mNumRefs > (1 : Int) then
    match updateImageDecodePriority c
        ((st.visit imagep).log (.updateImageDecodePriority imagep)) imagep true with
    | none => none
    | some st2 => some ((st2.log (.updateFetch imagep)).modify imagep c.updateFetch)
  else some (st.visit imagep)

/-- The update loop of `updateImagesFetchTextures` over the copied entries. -/
def fetchEntries (c : Env) (max_time : ℚ) (timer : Clock) :
    List TexPtr → Nat → LLViewerTextureList → Option (LLViewerTextureList × Nat)
  | [], reads, st => some (st, reads)
  | imagep :: rest, reads, st =>
    match fetchEntry c st imagep with
    | none => none
    | some st1 =>
      if timer reads > max_time then some (st1, reads + 1)
      else fetchEntries c max_time timer rest (reads + 1) st1

/-- The entries `updateImagesFetchTextures` copies out of the map. -/
def fetchSelection (c : Env) (st : LLViewerTextureList) : Option (List TexPtr) :=
  copyEntries st (fetchUpdateCount c st).1
    (uuid_map_upper_bound st.mUUIDMap st.mLastUpdateKey) []

/-- The method `updateImagesFetchTextures`; the result carries the elapsed time
that the method returns. -/
def updateImagesFetchTextures (c : Env) (st : LLViewerTextureList) (max_time : ℚ)
    (timer : Clock) : Option (LLViewerTextureList × ℚ) :=
  match fetchSelection c st with
  | none => none
  | some entries =>
    match fetchEntries c max_time timer entries 0
        { st with sBiasTexturesUpdated := (fetchUpdateCount c st).2 } with
    | none => none
    | some (st1, reads) => some (st1, timer reads)

/-- The method `clearFetchingRequests`; `deleteAllRequests` empties the request
table of the texture fetcher. -/
def clearFetchingRequests (c : Env) (st : LLViewerTextureList) : LLViewerTextureList :=
  if st.mNumFetchRequests = 0 then st
  else
    (st.mImageList.sort (· ≤ ·)).foldl
      (fun s imagep => s.modify imagep c.forceToDeleteRequest) { st with mNumFetchRequests := 0 }

/-- The callback loop at the end of `updateImages`: textures with a url always
run their callbacks, local ones until one of them did something.  A texture that
runs out of callbacks leaves `mCallbackList` inside `doLoadedCallbacks`, which is
outside the sources; the list is left as it is. -/
def doLoadedCallbacksAll (c : Env) :
    List TexPtr → Bool → LLViewerTextureList → LLViewerTextureList
  | [], _, st => st
  | image :: rest, didone, st =>
    if (st.mHeap image).mUrl ≠ "" ∨ didone = false then
      doLoadedCallbacksAll c rest (c.doLoadedCallbacks (st.mHeap image)).2
        (st.modify image (fun t => (c.doLoadedCallbacks t).1))
    else doLoadedCallbacksAll c rest didone st

/-- The method `updateImagesUpdateStats`. -/
def updateImagesUpdateStats (c : Env) (st : LLViewerTextureList) : LLViewerTextureList :=
  if st.mForceResetTextureStats = true then
    (st.mImageList.sort (· ≤ ·)).foldl
      (fun s imagep => s.modify imagep c.resetTextureStats)
      { st with mForceResetTextureStats := false }
  else st

/-- The budget `updateImages` hands to `updateImagesFetchTextures`, given the
time the fast cache stage reported. -/
def fetchBudget (max_time used_fast : ℚ) : ℚ :=
  max (max_time - used_fast) (max_time * (33 / 100))

/-- The budget `updateImages` hands to `updateImagesCreateTextures`, given the
times the two earlier stages reported. -/
def createBudget (max_time used_fast used_fetch : ℚ) : ℚ :=
  max (fetchBudget max_time used_fast - used_fetch) (max_time * (33 / 100))

/-- The three stages of `updateImages` after the teleport test, followed by the
callback loop and `updateImagesUpdateStats`.  The constant `0.33f` is taken as
the fraction 33/100. -/
def runStages (c : Env) (st : LLViewerTextureList) (max_time : ℚ)
    (fast_timer fetch_timer create_timer : Clock) : Option LLViewerTextureList :=
  let r1 := updateImagesLoadingFastCache c (st.log (.stageBegin .fastCache max_time))
    max_time fast_timer
  match updateImagesFetchTextures c
      (r1.1.log (.stageBegin .fetch (fetchBudget max_time r1.2)))
      (fetchBudget max_time r1.2) fetch_timer with
  | none => none
  | some r2 =>
    match updateImagesCreateTextures c
        (r2.1.log (.stageBegin .create (createBudget max_time r1.2 r2.2)))
        (createBudget max_time r1.2 r2.2) create_timer with
    | none => none
    | some r3 =>
      some (updateImagesUpdateStats c
        (doLoadedCallbacksAll c (r3.1.mCallbackList.sort (· ≤ ·)) false r3.1))

/-- The method `updateImages`.  During a teleport the first call clears the
fetch requests and returns, and later calls return at once unless the agent is
arriving.  The bandwidth setting and the statistics samples taken before the
stages touch nothing the list holds. -/
def updateImages (c : Env) (st : LLViewerTextureList) (max_time : ℚ)
    (fast_timer fetch_timer create_timer : Clock) : Option LLViewerTextureList :=
  if st.gTeleportDisplay = true ∧ st.cleared = false then
    some { clearFetchingRequests c st with cleared := true }
  else if st.gTeleportDisplay = true ∧ st.teleportArriving = false then some st
  else
    runStages c (if st.gTeleportDisplay = true then st else { st with cleared := false })
      max_time fast_timer fetch_timer create_timer

/-- Successive calls of `updateImagesFetchTextures`, one per entry of `ticks`,
each with its time budget and its timer. -/
def fetchTicks (c : Env) : LLViewerTextureList → List (ℚ × Clock) → Option LLViewerTextureList
  | st, [] => some st
  | st, tick :: rest =>
    match updateImagesFetchTextures c st tick.1 tick.2 with
    | none => none
    | some r => fetchTicks c r.1 rest

end LLViewerTextureList

/-- The images of the list that pass the test of `shutdown`. -/
def qualifyingImages (c : Env) (st : LLViewerTextureList) : Finset TexPtr :=
  st.mImageList.filter (fun image => savedOnShutdown c (st.mHeap image) = true)

/-- Two lists have the same registry: the map, the image list and the count. -/
def SameRegistry (st1 st : LLViewerTextureList) : Prop :=
  st1.mUUIDMap = st.mUUIDMap ∧ st1.mImageList = st.mImageList ∧ st1.sNumImages = st.sNumImages

/-- The records `ev` are method calls, no start of a stage, of the stages number
`lo` to `hi`, and they come in stage order. -/
def CallsOf (lo hi : Nat) (ev : List TraceEvent) : Prop :=
  (∀ e ∈ ev, (∀ s b, e ≠ TraceEvent.stageBegin s b) ∧ lo ≤ e.stage.toNat ∧ e.stage.toNat ≤ hi)
    ∧ ev.Pairwise (fun a b => a.stage.toNat ≤ b.stage.toNat)

/-- The trace of `st1` is the trace of `st` followed by method calls of the
stages number `lo` to `hi` in stage order. -/
def TraceExt (lo hi : Nat) (st st1 : LLViewerTextureList) : Prop :=
  ∃ ev, st1.mTrace = st.mTrace ++ ev ∧ CallsOf lo hi ev

/-- The texture whose removal from the downscale queue a record reports. -/
def TraceEvent.downScaled : TraceEvent → Option TexPtr
  | .downScaleDone image => some image
  | _ => none

/-- Two lists agree outside the registry and the texture objects: same trace,
fast cache list, allocation pointer, queues, cursor and globals. -/
structure SameControl (st1 st : LLViewerTextureList) : Prop where
  trace : st1.mTrace = st.mTrace
  fast : st1.mFastCacheList = st.mFastCacheList
  next : st1.mNextPtr = st.mNextPtr
  create : st1.mCreateTextureList = st.mCreateTextureList
  down : st1.mDownScaleQueue = st.mDownScaleQueue
  cursor : st1.mLastUpdateKey = st.mLastUpdateKey
  cube : st1.gCubeSnapshot = st.gCubeSnapshot
  bias : st1.sDesiredDiscardBias = st.sDesiredDiscardBias
  updated : st1.sBiasTexturesUpdated = st.sBiasTexturesUpdated

/-- Two texture objects have the same identity for the fetch cursor: id, list
type, reference count, and whether there is a GL image object. -/
def SameIdentity (t1 t : LLViewerFetchedTexture) : Prop :=
  t1.mID = t.mID ∧ t1.mTextureListType = t.mTextureListType ∧ t1.mNumRefs = t.mNumRefs
    ∧ t1.mGLTexturep.isSome = t.mGLTexturep.isSome

/-- The list holds the fixed registry `m`: its map is `m`, `gCubeSnapshot` is
off, and every registered texture sits under its own key, has a GL image object
and is held by more than three references, so that no update evicts it. -/
structure FetchStable (m : uuid_map_t) (st : LLViewerTextureList) : Prop where
  map : st.mUUIDMap = m
  cube : st.gCubeSnapshot = false
  live : ∀ e ∈ m, (st.mHeap e.2).key = e.1 ∧ (st.mHeap e.2).mGLTexturep.isSome = true
    ∧ 3 < (st.mHeap e.2).mNumRefs

/-- Modelled from the spec: the texture-scale compensation factor of a face, the
square of the smaller of its two texture scales clamped to the range of the
settings `TextureScaleMinAreaFactor` and `TextureScaleMaxAreaFactor`.  In the
code only the commented-out block of the face loop computes it. -/
def textureScaleFactor (c : Env) (f : LLFace) : ℚ :=
  llclamp (min |f.mScaleS| |f.mScaleT| * min |f.mScaleS| |f.mScaleT|)
    c.texture_scale_min c.texture_scale_max

/-- The texture with the texture scales of all its faces replaced. -/
def LLViewerFetchedTexture.withTextureScale (t : LLViewerFetchedTexture) (s u : ℚ) :
    LLViewerFetchedTexture :=
  { t with
    mFaceList :=
      t.mFaceList.map (List.map (Option.map (fun f => { f with mScaleS := s, mScaleT := u }))) }

/-- The two textures agree on the saved raw image: whether there is one and how
long it has not been referenced. -/
def SameSavedRaw (t1 t : LLViewerFetchedTexture) : Prop :=
  t1.mHasSavedRawImage = t.mHasSavedRawImage ∧ t1.mSavedRawElapsed = t.mSavedRawElapsed

/-- The number of resources one tick of the fetch stage selects, and the new
value of the bias-updated counter, in the words of the specification: the base
count is `max(minCount, size / 20)` with integer division; with the bias above 1
and the counter below `size` the count is the floor of the base count times the
bias and the counter grows by that uncapped product; the number selected is the
count capped by `size`. -/
def selectionCountSpec (minCount size : Nat) (bias : ℚ) (counter : Nat) : Nat × Nat :=
  if bias > 1 ∧ counter < size then
    (min size ⌊((max minCount (size / 20) : Nat) : ℚ) * bias⌋₊,
      counter + ⌊((max minCount (size / 20) : Nat) : ℚ) * bias⌋₊)
  else (min size (max minCount (size / 20)), counter)

/-- The texture after the call `img->scaleDown(image->getDesiredDiscardLevel())`
of the downscale loop, which is made when the texture has a GL image with a GL
name. -/
def scaledDownGL (c : Env) (t : LLViewerFetchedTexture) : LLViewerFetchedTexture :=
  match t.mGLTexturep with
  | some img =>
    if img.mHasGLTexture = true then
      { t with
        mGLTexturep := some (c.scaleDownGL (img, t.mDiscardLevel) t.mDesiredDiscardLevel).1,
        mDiscardLevel := (c.scaleDownGL (img, t.mDiscardLevel) t.mDesiredDiscardLevel).2 }
    else t
  | none => t

/-- The texture after its turn in the downscale loop: scaled down if it has a GL
image with a GL name, and with the flag `mDownScalePending` cleared. -/
def downScaledTexture (c : Env) (t : LLViewerFetchedTexture) : LLViewerFetchedTexture :=
  { scaledDownGL c t with mDownScalePending := false }

/-- The records one turn of the downscale loop leaves in the trace for the
texture `p` of the list `st`: the call of `LLImageGL::scaleDown`, made when the
texture has a GL image with a GL name, and the removal from the queue. -/
def downScaleCalls (st : LLViewerTextureList) (p : TexPtr) : List TraceEvent :=
  (if (st.mHeap p).hasGLTexture = true then [TraceEvent.scaleDownGL p] else [])
    ++ [TraceEvent.downScaleDone p]

/-- The trace shows that the update loop of `updateImagesFetchTextures` took the
texture as its entry: the cursor moved to it and, one right after the other,
`updateImageDecodePriority` and `updateFetch` were called on it. -/
def FetchServed (ev : List TraceEvent) (p : TexPtr) : Prop :=
  [TraceEvent.fetchVisit p, TraceEvent.updateImageDecodePriority p, TraceEvent.updateFetch p]
    <:+: ev

/-- The count and the counter in the amended wording: as `selectionCountSpec`,
but the product of the base count and the bias is a product in single precision,
rounded before the floor is taken. -/
def selectionCountRounded (minCount size : Nat) (bias : ℚ) (counter : Nat) : Nat × Nat :=
  if bias > 1 ∧ counter < size then
    (min size ⌊F32_mul (F32_of_U32 (max minCount (size / 20))) bias⌋₊,
      counter + ⌊F32_mul (F32_of_U32 (max minCount (size / 20))) bias⌋₊)
  else (min size (max minCount (size / 20)), counter)

/-- One call of the registry interface. -/
inductive RegistryCall where
  | getImage (image_id : LLUUID) (f_type : Int) (usemipmaps : Bool)
      (boost_priority texture_type internal_format primary_format : Int)
      (request_from_host : LLHost)
  | getImageFromUrl (url : String) (f_type : Int) (usemipmaps : Bool)
      (boost_priority texture_type internal_format primary_format : Int) (force_id : LLUUID)
  | deleteImage (image : Option TexPtr)

/-- The list after one call, `none` if the call trips a contract check. -/
def RegistryCall.apply (c : Env) (st : LLViewerTextureList) :
    RegistryCall → Option LLViewerTextureList
  | .getImage image_id f_type usemipmaps boost_priority texture_type internal_format
      primary_format request_from_host =>
    (LLViewerTextureList.getImage c st image_id f_type usemipmaps boost_priority texture_type
      internal_format primary_format request_from_host).map Prod.fst
  | .getImageFromUrl url f_type usemipmaps boost_priority texture_type internal_format
      primary_format force_id =>
    (LLViewerTextureList.getImageFromUrl c st url f_type usemipmaps boost_priority texture_type
      internal_format primary_format force_id).map Prod.fst
  | .deleteImage image => st.deleteImage image

/-- The list after a sequence of calls. -/
def runCalls (c : Env) : LLViewerTextureList → List RegistryCall → Option LLViewerTextureList
  | st, [] => some st
  | st, call :: rest =>
    match call.apply c st with
    | none => none
    | some st1 => runCalls c st1 rest

/-- One call on the list as far as the fast cache list is concerned: a call of
the registry interface, or one drain by `updateImagesLoadingFastCache`. -/
inductive FastCacheCall where
  | registry (call : RegistryCall)
  | drain (max_time : ℚ) (timer : Clock)

/-- The list after one such call, `none` if the call trips a contract check. -/
def FastCacheCall.apply (c : Env) (st : LLViewerTextureList) :
    FastCacheCall → Option LLViewerTextureList
  | .registry call => call.apply c st
  | .drain max_time timer =>
    some (LLViewerTextureList.updateImagesLoadingFastCache c st max_time timer).1

/-- The list after a sequence of such calls. -/
def runFastCacheCalls (c : Env) :
    LLViewerTextureList → List FastCacheCall → Option LLViewerTextureList
  | st, [] => some st
  | st, call :: rest =>
    match call.apply c st with
    | none => none
    | some st1 => runFastCacheCalls c st1 rest

/-- What a call may do to the fast cache list: objects are only allocated, and
an entry of the list afterwards was an entry before or has been allocated by the
call. -/
def FastCacheStep (st st1 : LLViewerTextureList) : Prop :=
  st.mNextPtr ≤ st1.mNextPtr
    ∧ ∀ p ∈ st1.mFastCacheList, p ∈ st.mFastCacheList ∨ st.mNextPtr ≤ p

/-- The registry invariant: the image list and the UUID map hold the same
textures, every map entry stores a texture under the key made of its own id and
list type, no key occurs twice, and `sNumImages` counts the map entries. -/
def RegistryInvariant (st : LLViewerTextureList) : Prop :=
  (∀ p, p ∈ st.mImageList ↔ ∃ k, (k, p) ∈ st.mUUIDMap)
    ∧ (∀ k p, (k, p) ∈ st.mUUIDMap → k = (st.mHeap p).key)
    ∧ (st.mUUIDMap.map Prod.fst).Nodup
    ∧ (∀ p ∈ st.mImageList, ∀ q ∈ st.mImageList,
        (st.mHeap p).key = (st.mHeap q).key → p = q)
    ∧ st.sNumImages = st.mUUIDMap.length

/-- Two states of a texture object that agree on everything the registry and
the lazy flush look at: id, list type, list flag, callbacks, reference count
and idle time. -/
def SameRegistration (t1 t : LLViewerFetchedTexture) : Prop :=
  t1.mID = t.mID ∧ t1.mTextureListType = t.mTextureListType
    ∧ t1.mInImageList = t.mInImageList ∧ t1.mHasCallbacks = t.mHasCallbacks
    ∧ t1.mNumRefs = t.mNumRefs ∧ t1.mLastReferencedElapsed = t.mLastReferencedElapsed

/-- The UUID map is in strict key order. -/
def uuid_map_sorted (m : uuid_map_t) : Prop :=
  m.Pairwise (fun a b => a.1.lt b.1 = true)

/-- Well-formedness of the list, the inductive form of the registry invariant. -/
structure RegistryWF (st : LLViewerTextureList) : Prop where
  sorted : uuid_map_sorted st.mUUIDMap
  map_sound : ∀ k p, uuid_map_find st.mUUIDMap k = some p →
    p ∈ st.mImageList ∧ (st.mHeap p).key = k
  list_sound : ∀ p ∈ st.mImageList, uuid_map_find st.mUUIDMap (st.mHeap p).key = some p
  count : st.sNumImages = st.mUUIDMap.length
  flag : ∀ p, (st.mHeap p).mInImageList = true ↔ p ∈ st.mImageList
  allocated : ∀ p ∈ st.mImageList, p < st.mNextPtr

/-- The writer of the sample environment: three bytes per record. -/
def sampleToPrettyXML (imagelist : List ManifestEntry) : FileBytes :=
  imagelist.flatMap (fun e => [e.area.toNat, e.uuid, e.type.toNat])

/-- The records in a file of the sample environment, if it consists of whole
records. -/
def sampleRecords : FileBytes → Option (List ManifestEntry)
  | [] => some []
  | area :: uuid :: type :: rest =>
    (sampleRecords rest).map (fun l => ⟨area, uuid, type⟩ :: l)
  | _ => none

/-- The reader of the sample environment: it returns the number of elements it
parsed, the array included, and zero for a file that does not consist of whole
records. -/
def sampleFromXML (file : FileBytes) : Int × List ManifestEntry :=
  match sampleRecords file with
  | some l => (l.length + 1, l)
  | none => (0, [])

/-- A sample environment for the concrete instances below. -/
def sampleEnv : Env :=
  { BOOST_NONE := 0, BOOST_HIGH := 10, BOOST_SCULPTED := 11, BOOST_ICON := 19,
    BOOST_THUMBNAIL := 20, BOOST_UI := 21, FTT_DEFAULT := 0, MAX_DISCARD_LEVEL := 5,
    IMG_DEFAULT := 1, sMaxVirtualSize := 67108864, fast_cache_fetching_enabled := true,
    texture_camera_boost := 7, generate := fun url => url.length + 100,
    processTextureStats := id, DEFAULT_WATER_NORMAL := 2, IMG_SHOT := 3, IMG_SMOKE_POOF := 4,
    IMG_SMOKE := 6, isInvisiprim := fun _ => false, cacheDirAvailable := true,
    MIN_UPDATE_COUNT := 32,
    createTexture := fun t =>
      { t with mGLTexturep := some { mHasGLTexture := true, mMaxDiscardLevel := 5 },
               mDiscardLevel := 0 },
    postCreateTexture := id,
    scaleDownGL := fun img desired_discard => (img.1, max img.2 desired_discard),
    loadFromFastCache := fun t => { t with mInFastCacheList := false },
    updateFetch := id, forceToDeleteRequest := id,
    doLoadedCallbacks := fun t => (t, false), resetTextureStats := id,
    texture_scale_min := 19 / 2000, texture_scale_max := 25,
    toPrettyXML := sampleToPrettyXML, fromXML := sampleFromXML }

/-- The list right after construction and `init`: initialised and empty. -/
def emptyList : LLViewerTextureList := LLViewerTextureList.init {}

/-- A sample sequence of calls: texture 5 twice, an icon with the same id, a
texture from a url, then removal of the first texture and a request for id 5
again. -/
def sampleCalls : List RegistryCall :=
  [ .getImage 5 0 true 0 FETCHED_TEXTURE 0 0 {},
    .getImage 5 2 false 10 LOD_TEXTURE 6 7 ⟨9, 80⟩,
    .getImage 5 0 true 19 FETCHED_TEXTURE 0 0 {},
    .getImageFromUrl "file://a.png" 0 true 21 FETCHED_TEXTURE 0 0 0,
    .deleteImage (some 0),
    .getImage 5 0 true 0 LOD_TEXTURE 0 0 {} ]

/-- Two requests on the empty list: texture 5 as an unboosted LOD texture (object
0) and texture 7 with `BOOST_UI` (object 1). -/
def sampleRegistryCalls : List RegistryCall :=
  [ .getImage 5 0 true 0 LOD_TEXTURE 0 0 {},
    .getImage 7 0 true 21 FETCHED_TEXTURE 0 0 {} ]

/-- The list after the two requests. -/
def sampleRegistry : LLViewerTextureList :=
  (runCalls sampleEnv emptyList sampleRegistryCalls).getD emptyList

/-- The sample list with both textures held only by the list and the update
loop (three references) and idle for 40 seconds. -/
def idleRegistry : LLViewerTextureList :=
  (sampleRegistry.modify 0
    (fun t => { t with mNumRefs := 3, mLastReferencedElapsed := 40 })).modify 1
    (fun t => { t with mNumRefs := 3, mLastReferencedElapsed := 40 })

/-- The sample list with the `BOOST_UI` texture idle for 40 seconds but held by
one more reference than the list and the update loop take. -/
def referencedRegistry : LLViewerTextureList :=
  sampleRegistry.modify 1 (fun t => { t with mNumRefs := 4, mLastReferencedElapsed := 40 })

/-- An unboosted fetched texture shown on two faces in view, of virtual sizes 100
and 400, neither important to the camera nor close to it. -/
def twoFaceTexture : LLViewerFetchedTexture :=
  { mID := 9,
    mFaceList := [[some { mVSize := 100, mInFrustum := true },
                   some { mVSize := 400, mInFrustum := true }]] }

/-- An unboosted LOD texture whose GL image has `maxDiscard` as its maximum
discard level, shown on one face out of view of virtual size 1000. -/
def offScreenTexture (maxDiscard : Int) : LLViewerFetchedTexture :=
  { mID := 11, mType := LOD_TEXTURE,
    mGLTexturep := some { mHasGLTexture := true, mMaxDiscardLevel := maxDiscard },
    mFaceList := [[some { mVSize := 1000, mInFrustum := false }]] }

/-- A discardable LOD texture with a GL image, bound recently, 64 by 64 texels at
its desired discard level 1. -/
def savedTexture : LLViewerFetchedTexture :=
  { mID := 5, mType := LOD_TEXTURE, mInImageList := true,
    mGLTexturep := some { mHasGLTexture := true, mMaxDiscardLevel := 5 },
    mBoundRecently := true, mDesiredDiscardLevel := 1,
    mWidth := fun discard => 128 / 2 ^ discard.toNat,
    mHeight := fun discard => 128 / 2 ^ discard.toNat }

/-- A list that holds the texture `savedTexture` as its only image. -/
def savedRegistry : LLViewerTextureList :=
  { mInitialized := true, sNumImages := 1, mImageList := {0},
    mUUIDMap := [(⟨5, .TEX_LIST_STANDARD⟩, 0)], mHeap := fun _ => savedTexture,
    mNextPtr := 1 }

/-- The empty list at the start after `savedRegistry` was shut down: the manifest
file is the one that shutdown wrote. -/
def restartRegistry : LLViewerTextureList :=
  { emptyList with mManifest := (savedRegistry.shutdown sampleEnv).mManifest }

/-- The list `restartRegistry` after the fixed preloads of `doPrefetchImages`,
with no standard bump maps. -/
def restartPreloaded : LLViewerTextureList :=
  (LLViewerTextureList.prefetchPreloads sampleEnv some restartRegistry).getD restartRegistry

/-- The empty list next to a manifest file that breaks off inside its first
record. -/
def corruptRegistry : LLViewerTextureList :=
  { emptyList with mManifest := some [4096, 42] }

/-- The list `corruptRegistry` after the fixed preloads of `doPrefetchImages`,
with no standard bump maps. -/
def preloadedRegistry : LLViewerTextureList :=
  (LLViewerTextureList.prefetchPreloads sampleEnv some corruptRegistry).getD corruptRegistry

/-- The off-screen LOD texture with five discard levels, resident at full
resolution (discard level 0). -/
def sharpOffScreenTexture : LLViewerFetchedTexture :=
  { offScreenTexture 5 with mDiscardLevel := 0 }

/-- The off-screen LOD texture with a running virtual size of 5000 left from
earlier updates. -/
def staleOffScreenTexture : LLViewerFetchedTexture :=
  { offScreenTexture 5 with mMaxVirtualSize := 5000 }

/-- A list under memory pressure: the textures 0 to 6 have a GL image at discard
level 0, want discard level 2 and wait in the downscale queue; texture 7 has been
decoded, has no GL image yet and waits in the create queue. -/
def pressureList : LLViewerTextureList :=
  { mInitialized := true,
    mCreateTextureList := [7],
    mDownScaleQueue := [0, 1, 2, 3, 4, 5, 6],
    mHeap := fun p =>
      if p = 7 then { mID := 7, mCreatePending := true, mGLTexturep := some {} }
      else { mID := p, mType := LOD_TEXTURE, mDownScalePending := true,
             mGLTexturep := some { mHasGLTexture := true, mMaxDiscardLevel := 5 },
             mDiscardLevel := 0, mDesiredDiscardLevel := 2 },
    mNextPtr := 8 }

/-- The list `pressureList` while the render target `mDownResMap` is not
complete. -/
def stalledList : LLViewerTextureList :=
  { pressureList with mDownResMapComplete := false }

/-- The list `pressureList` with a texture in the create queue that is resident
at discard level 0 while discard level 1 is desired. -/
def redundantList : LLViewerTextureList :=
  { pressureList with
    mHeap := fun p =>
      if p = 7 then
        { mID := 7, mCreatePending := true,
          mGLTexturep := some { mHasGLTexture := true, mMaxDiscardLevel := 5 },
          mDiscardLevel := 0, mDesiredDiscardLevel := 1 }
      else pressureList.mHeap p }

/-- A timer that always reads one second. -/
def slowClock : Clock := fun _ => 1

/-- A timer that always reads zero. -/
def fastClock : Clock := fun _ => 0

/-- The sample list at the start of a tick: texture 5 (object 0) is held only by
the list and the update loop and has been idle for 40 seconds; texture 7 (object
1) is held by four references, has been decoded and waits in the create queue. -/
def tickRegistry : LLViewerTextureList :=
  { (sampleRegistry.modify 0
      (fun t => { t with mNumRefs := 3, mLastReferencedElapsed := 40 })).modify 1
      (fun t => { t with mNumRefs := 4, mCreatePending := true }) with
    mCreateTextureList := [1] }

/-- Three requests on the empty list: the textures 5, 7 and 9 (objects 0, 1
and 2). -/
def busyCalls : List RegistryCall :=
  [ .getImage 5 0 true 0 LOD_TEXTURE 0 0 {},
    .getImage 7 0 true 0 FETCHED_TEXTURE 0 0 {},
    .getImage 9 0 true 0 LOD_TEXTURE 0 0 {} ]

/-- The list after the three requests, before the references are counted. -/
def busyRegistry0 : LLViewerTextureList :=
  (runCalls sampleEnv emptyList busyCalls).getD emptyList

/-- The list with the three textures, each held by four references. -/
def busyRegistry : LLViewerTextureList :=
  ((busyRegistry0.modify 0 (fun t => { t with mNumRefs := 4 })).modify 1
    (fun t => { t with mNumRefs := 4 })).modify 2 (fun t => { t with mNumRefs := 4 })

/-- Three ticks with a budget of zero and a timer that reads one second at once:
each call of the fetch stage stops after its first entry. -/
def busyTicks : List (ℚ × Clock) := [(0, slowClock), (0, slowClock), (0, slowClock)]

/-- The empty list after a request for texture 5 and one drain of the fast cache
list: object 0 is registered and has left the fast cache list. -/
def drainedRegistry : LLViewerTextureList :=
  (runFastCacheCalls sampleEnv emptyList
    [.registry (.getImage 5 0 true 0 LOD_TEXTURE 0 0 {}), .drain 1 fastClock]).getD emptyList

/-- Calls after the drain: texture 5 is requested again, texture 9 is created,
texture 5 is requested once more, and the fast cache list is drained. -/
def laterCalls : List FastCacheCall :=
  [ .registry (.getImage 5 0 true 0 LOD_TEXTURE 0 0 {}),
    .registry (.getImage 9 0 true 0 LOD_TEXTURE 0 0 {}),
    .registry (.getImage 5 0 true 0 LOD_TEXTURE 0 0 {}),
    .drain 1 fastClock ]

/-- An unboosted fetched texture shown on one face in view with footprint 100;
the texture is stretched: one tenth of it covers the face in both directions. -/
def stretchedTexture : LLViewerFetchedTexture :=
  { mID := 13,
    mFaceList := [[some { mVSize := 100, mInFrustum := true, mScaleS := 1 / 10,
                          mScaleT := 1 / 10 }]] }

/-- An unboosted fetched texture on 1025 faces in view: 1024 faces of footprint
100 and, last in the face list, one face of footprint `last`. -/
def crowdedTexture (last : ℚ) : LLViewerFetchedTexture :=
  { mID := 15,
    mFaceList := [List.replicate 1024 (some { mVSize := 100, mInFrustum := true })
      ++ [some { mVSize := last, mInFrustum := true }]] }

/-- The sample list with a saved raw image on both textures: texture 0 is held by
three references, was referenced 25 seconds ago and its saved raw image 40
seconds ago; texture 1 is held by four references and its saved raw image was
referenced 25 seconds ago. -/
def rawRegistry : LLViewerTextureList :=
  (sampleRegistry.modify 0
    (fun t => { t with mNumRefs := 3, mLastReferencedElapsed := 25, mHasSavedRawImage := true,
                       mSavedRawElapsed := 40 })).modify 1
    (fun t => { t with mNumRefs := 4, mHasSavedRawImage := true, mSavedRawElapsed := 25 })

/-- A list whose create queue holds texture 7, a decoded LOD texture of the given
boost level without a GL image yet, for which discard level 2 is desired. -/
def fineList (boost : Int) : LLViewerTextureList :=
  { mInitialized := true,
    mCreateTextureList := [7],
    mHeap := fun p =>
      { mID := p, mType := LOD_TEXTURE, mBoostLevel := boost, mCreatePending := true,
        mDesiredDiscardLevel := 2 },
    mNextPtr := 8 }

/-- The sample environment with the setting `TextureFetchUpdateMinCount` at 10. -/
def roundingEnv : Env := { sampleEnv with MIN_UPDATE_COUNT := 10 }

/-- A list whose map has 20 entries, at the bias `1.3f`, the `F32` nearest to
13/10, which is `10905190 / 2 ^ 23`; no texture has been updated under the bias
yet. -/
def roundingRegistry : LLViewerTextureList :=
  { emptyList with
    mUUIDMap := (List.range 20).map (fun i => (⟨i, .TEX_LIST_STANDARD⟩, i)),
    sDesiredDiscardBias := 10905190 / 8388608 }

/-- The list with three textures under memory pressure: the bias is 3/2 and no
texture has been updated under the bias yet. -/
def biasedRegistry : LLViewerTextureList :=
  { busyRegistry with sDesiredDiscardBias := 3 / 2 }

/-! ## Lemmas on the UUID map -/

theorem uuid_map_find_assign (m : uuid_map_t) (key : LLTextureKey) (value : TexPtr)
    (k2 : LLTextureKey) :
    uuid_map_find (uuid_map_assign m key value) k2
      = if k2 = key then some value else uuid_map_find m k2 := by
  induction m with
  | nil => simp [uuid_map_assign, uuid_map_find]
  | cons e rest ih =>
    obtain ⟨k, v⟩ := e
    by_cases h1 : key = k
    · subst h1
      by_cases h2 : k2 = key <;> simp [uuid_map_assign, uuid_map_find, h2]
    · by_cases h3 : key.lt k = true
      · simp [uuid_map_assign, uuid_map_find, h1, h3]
      · by_cases h2 : k2 = key
        · subst h2
          simp [uuid_map_assign, uuid_map_find, h1, h3, ih]
        · simp [uuid_map_assign, uuid_map_find, h1, h3, ih, h2]

theorem uuid_map_find_erase (m : uuid_map_t) (key k2 : LLTextureKey) :
    uuid_map_find (uuid_map_erase m key) k2
      = if k2 = key then none else uuid_map_find m k2 := by
  induction m with
  | nil => simp [uuid_map_erase, uuid_map_find]
  | cons e rest ih =>
    obtain ⟨k, v⟩ := e
    by_cases h1 : k = key
    · subst h1
      by_cases h2 : k2 = k
      · subst h2
        simpa [uuid_map_erase, uuid_map_find] using ih
      · simp [uuid_map_erase, uuid_map_find, h2, ih]
    · by_cases h2 : k2 = key
      · subst h2
        have h3 : ¬ k2 = k := fun h => h1 h.symm
        simp [uuid_map_erase, uuid_map_find, h1, ih, h3]
      · simp [uuid_map_erase, uuid_map_find, h1, ih, h2]

theorem LLTextureKey.lt_iff_rank (a b : LLTextureKey) : a.lt b = true ↔ a.rank < b.rank := by
  obtain ⟨ia, ta⟩ := a
  obtain ⟨ib, tb⟩ := b
  unfold LLTextureKey.lt LLTextureKey.rank
  by_cases h : ia = ib
  · subst h
    cases ta <;> cases tb <;> simp [ETexListType.toNat]
  · simp only [ne_eq, h, not_false_eq_true, if_true, decide_eq_true_eq]
    unfold LLUUID at *
    cases ta <;> cases tb <;> simp only [ETexListType.toNat] <;> constructor <;> intro h3 <;> omega

theorem LLTextureKey.rank_injective (a b : LLTextureKey) (h : a.rank = b.rank) : a = b := by
  obtain ⟨ia, ta⟩ := a
  obtain ⟨ib, tb⟩ := b
  unfold LLTextureKey.rank at h
  unfold LLUUID at *
  cases ta <;> cases tb <;> simp only [ETexListType.toNat] at h
  · have : ia = ib := by omega
    subst this
    rfl
  · exfalso; omega
  · exfalso; omega
  · have : ia = ib := by omega
    subst this
    rfl

theorem uuid_map_mem_assign (m : uuid_map_t) (key : LLTextureKey) (value : TexPtr)
    (e : LLTextureKey × TexPtr) (h : e ∈ uuid_map_assign m key value) :
    e = (key, value) ∨ e ∈ m := by
  induction m with
  | nil => simpa [uuid_map_assign] using h
  | cons x rest ih =>
    obtain ⟨k, v⟩ := x
    unfold uuid_map_assign at h
    split_ifs at h with h1 h2
    · rcases List.mem_cons.1 h with h | h
      · exact Or.inl h
      · exact Or.inr (List.mem_cons_of_mem _ h)
    · rcases List.mem_cons.1 h with h | h
      · exact Or.inl h
      · exact Or.inr h
    · rcases List.mem_cons.1 h with h | h
      · exact Or.inr (h ▸ List.mem_cons_self _ _)
      · rcases ih h with h | h
        · exact Or.inl h
        · exact Or.inr (List.mem_cons_of_mem _ h)

theorem uuid_map_sorted_assign (m : uuid_map_t) (key : LLTextureKey) (value : TexPtr)
    (hs : uuid_map_sorted m) : uuid_map_sorted (uuid_map_assign m key value) := by
  induction m with
  | nil => simp [uuid_map_assign, uuid_map_sorted]
  | cons x rest ih =>
    obtain ⟨k, v⟩ := x
    unfold uuid_map_sorted at hs ih ⊢
    rw [List.pairwise_cons] at hs
    unfold uuid_map_assign
    split_ifs with h1 h2
    · subst h1
      exact List.pairwise_cons.2 ⟨hs.1, hs.2⟩
    · refine List.pairwise_cons.2 ⟨?_, List.pairwise_cons.2 hs⟩
      intro e he
      rcases List.mem_cons.1 he with he | he
      · subst he
        exact h2
      · have := hs.1 e he
        rw [LLTextureKey.lt_iff_rank] at this h2 ⊢
        exact lt_trans h2 this
    · refine List.pairwise_cons.2 ⟨?_, ih hs.2⟩
      intro e he
      rcases uuid_map_mem_assign _ _ _ _ he with he | he
      · subst he
        rw [LLTextureKey.lt_iff_rank] at h2 ⊢
        have hne : key.rank ≠ k.rank := fun hr => h1 (LLTextureKey.rank_injective _ _ hr)
        simp only [] at h2 ⊢
        omega
      · exact hs.1 e he

theorem uuid_map_erase_sublist (m : uuid_map_t) (key : LLTextureKey) :
    (uuid_map_erase m key).Sublist m := by
  induction m with
  | nil => simp [uuid_map_erase]
  | cons x rest ih =>
    obtain ⟨k, v⟩ := x
    unfold uuid_map_erase
    split_ifs
    · exact ih.cons _
    · exact ih.cons₂ _

theorem uuid_map_sorted_erase (m : uuid_map_t) (key : LLTextureKey)
    (hs : uuid_map_sorted m) : uuid_map_sorted (uuid_map_erase m key) :=
  List.Pairwise.sublist (uuid_map_erase_sublist m key) hs

theorem uuid_map_length_assign (m : uuid_map_t) (key : LLTextureKey) (value : TexPtr)
    (h : uuid_map_find m key = none) :
    (uuid_map_assign m key value).length = m.length + 1 := by
  induction m with
  | nil => simp [uuid_map_assign]
  | cons x rest ih =>
    obtain ⟨k, v⟩ := x
    unfold uuid_map_find at h
    split_ifs at h with h1
    unfold uuid_map_assign
    split_ifs with h2
    · simp
    · simp [ih h]

theorem uuid_map_find_of_mem (m : uuid_map_t) (hs : uuid_map_sorted m) (k : LLTextureKey)
    (p : TexPtr) (h : (k, p) ∈ m) : uuid_map_find m k = some p := by
  induction m with
  | nil => simp at h
  | cons x rest ih =>
    obtain ⟨k1, v1⟩ := x
    unfold uuid_map_sorted at hs ih
    rw [List.pairwise_cons] at hs
    rcases List.mem_cons.1 h with h | h
    · simp only [Prod.mk.injEq] at h
      simp [uuid_map_find, h.1, h.2]
    · have hlt := hs.1 _ h
      rw [LLTextureKey.lt_iff_rank] at hlt
      have hne : k ≠ k1 := by
        intro hk
        subst hk
        simp only [] at hlt
        omega
      simp [uuid_map_find, hne, ih hs.2 h]

theorem uuid_map_mem_of_find (m : uuid_map_t) (k : LLTextureKey) (p : TexPtr)
    (h : uuid_map_find m k = some p) : (k, p) ∈ m := by
  induction m with
  | nil => simp [uuid_map_find] at h
  | cons x rest ih =>
    obtain ⟨k1, v1⟩ := x
    unfold uuid_map_find at h
    split_ifs at h with h1
    · simp only [Option.some.injEq] at h
      simp [h1, h]
    · exact List.mem_cons_of_mem _ (ih h)

theorem uuid_map_keys_nodup (m : uuid_map_t) (hs : uuid_map_sorted m) :
    (m.map Prod.fst).Nodup := by
  unfold uuid_map_sorted at hs
  rw [List.Nodup, List.pairwise_map]
  refine List.Pairwise.imp ?_ hs
  intro a b hab heq
  rw [LLTextureKey.lt_iff_rank, heq] at hab
  exact lt_irrefl _ hab

theorem uuid_map_erase_of_absent (m : uuid_map_t) (key : LLTextureKey)
    (h : ∀ e ∈ m, e.1 ≠ key) : uuid_map_erase m key = m := by
  induction m with
  | nil => rfl
  | cons x rest ih =>
    obtain ⟨k, v⟩ := x
    have hk : k ≠ key := h (k, v) (List.mem_cons_self _ _)
    have hr := ih (fun e he => h e (List.mem_cons_of_mem _ he))
    simp [uuid_map_erase, hk, hr]

theorem uuid_map_erase_length_le (m : uuid_map_t) (key : LLTextureKey) :
    (uuid_map_erase m key).length ≤ m.length :=
  (uuid_map_erase_sublist m key).length_le

theorem uuid_map_erase_count_of_sorted (m : uuid_map_t) (hs : uuid_map_sorted m)
    (key : LLTextureKey) (p : TexPtr) (h : uuid_map_find m key = some p) :
    uuid_map_erase_count m key = 1 := by
  induction m with
  | nil => simp [uuid_map_find] at h
  | cons x rest ih =>
    obtain ⟨k, v⟩ := x
    unfold uuid_map_sorted at hs ih
    rw [List.pairwise_cons] at hs
    unfold uuid_map_erase_count
    by_cases hk : k = key
    · subst hk
      have habs : ∀ e ∈ rest, e.1 ≠ k := by
        intro e he heq
        have := hs.1 e he
        rw [LLTextureKey.lt_iff_rank, heq] at this
        exact lt_irrefl _ this
      simp [uuid_map_erase, uuid_map_erase_of_absent _ _ habs]
    · have hk2 : ¬ key = k := fun he => hk he.symm
      simp only [uuid_map_find, hk2, if_false] at h
      have := ih hs.2 h
      unfold uuid_map_erase_count at this
      have hle := uuid_map_erase_length_le rest key
      simp only [uuid_map_erase, hk, if_false, List.length_cons]
      omega

namespace LLViewerTextureList

/-! ## Frame lemmas of the registry operations -/

@[simp] theorem modify_mInitialized (st : LLViewerTextureList) (p : TexPtr)
    (f : LLViewerFetchedTexture → LLViewerFetchedTexture) :
    (st.modify p f).mInitialized = st.mInitialized := rfl

@[simp] theorem modify_mUUIDMap (st : LLViewerTextureList) (p : TexPtr)
    (f : LLViewerFetchedTexture → LLViewerFetchedTexture) :
    (st.modify p f).mUUIDMap = st.mUUIDMap := rfl

@[simp] theorem modify_mImageList (st : LLViewerTextureList) (p : TexPtr)
    (f : LLViewerFetchedTexture → LLViewerFetchedTexture) :
    (st.modify p f).mImageList = st.mImageList := rfl

@[simp] theorem modify_sNumImages (st : LLViewerTextureList) (p : TexPtr)
    (f : LLViewerFetchedTexture → LLViewerFetchedTexture) :
    (st.modify p f).sNumImages = st.sNumImages := rfl

@[simp] theorem modify_mNextPtr (st : LLViewerTextureList) (p : TexPtr)
    (f : LLViewerFetchedTexture → LLViewerFetchedTexture) :
    (st.modify p f).mNextPtr = st.mNextPtr := rfl

@[simp] theorem modify_mCallbackList (st : LLViewerTextureList) (p : TexPtr)
    (f : LLViewerFetchedTexture → LLViewerFetchedTexture) :
    (st.modify p f).mCallbackList = st.mCallbackList := rfl

@[simp] theorem modify_mFastCacheList (st : LLViewerTextureList) (p : TexPtr)
    (f : LLViewerFetchedTexture → LLViewerFetchedTexture) :
    (st.modify p f).mFastCacheList = st.mFastCacheList := rfl

@[simp] theorem modify_mManifest (st : LLViewerTextureList) (p : TexPtr)
    (f : LLViewerFetchedTexture → LLViewerFetchedTexture) :
    (st.modify p f).mManifest = st.mManifest := rfl

@[simp] theorem modify_mHeap_same (st : LLViewerTextureList) (p : TexPtr)
    (f : LLViewerFetchedTexture → LLViewerFetchedTexture) :
    (st.modify p f).mHeap p = f (st.mHeap p) := by
  simp [modify]

theorem modify_mHeap_other (st : LLViewerTextureList) (p q : TexPtr)
    (f : LLViewerFetchedTexture → LLViewerFetchedTexture) (h : q ≠ p) :
    (st.modify p f).mHeap q = st.mHeap q := by
  simp [modify, Function.update_noteq h]

/-- What a successful `addImageToList` leaves behind. -/
theorem addImageToList_spec (st st2 : LLViewerTextureList) (p : TexPtr)
    (h : st.addImageToList p = some st2) :
    st.mInitialized = true ∧ st2.mInitialized = true ∧ st2.mUUIDMap = st.mUUIDMap
      ∧ st2.sNumImages = st.sNumImages ∧ st2.mNextPtr = st.mNextPtr
      ∧ st2.mFastCacheList = st.mFastCacheList ∧ st2.mCallbackList = st.mCallbackList
      ∧ st2.mManifest = st.mManifest
      ∧ st2.mImageList = (if (st.mHeap p).mInImageList then st.mImageList
          else insert p st.mImageList)
      ∧ st2.mHeap = Function.update st.mHeap p { st.mHeap p with mInImageList := true } := by
  unfold addImageToList at h
  by_cases hi : st.mInitialized = true
  · by_cases hf : (st.mHeap p).mInImageList = true
    · simp [hi, hf] at h
      subst h
      refine ⟨hi, hi, rfl, rfl, rfl, rfl, rfl, rfl, by simp [hf], ?_⟩
      funext q
      by_cases hq : q = p
      · subst hq
        simp only [Function.update_same]
        generalize st.mHeap q = t at hf
        cases t
        simp only at hf
        simp [hf]
      · simp [Function.update_noteq hq]
    · simp [hi, hf] at h
      subst h
      simp [hi, hf, modify]
  · simp [hi] at h

/-- What a successful `addImage` of a non-null image leaves behind. -/
theorem addImage_spec (st st2 : LLViewerTextureList) (p : TexPtr) (tex_type : ETexListType)
    (h : st.addImage (some p) tex_type = some st2) :
    st.mInitialized = true ∧ st2.mInitialized = true
      ∧ st2.mUUIDMap = uuid_map_assign st.mUUIDMap ⟨(st.mHeap p).mID, tex_type⟩ p
      ∧ st2.sNumImages = st.sNumImages + 1 ∧ st2.mNextPtr = st.mNextPtr
      ∧ st2.mFastCacheList = st.mFastCacheList ∧ st2.mCallbackList = st.mCallbackList
      ∧ st2.mManifest = st.mManifest
      ∧ st2.mImageList = (if (st.mHeap p).mInImageList then st.mImageList
          else insert p st.mImageList)
      ∧ st2.mHeap = Function.update st.mHeap p
          { st.mHeap p with mInImageList := true, mTextureListType := tex_type } := by
  unfold addImage at h
  simp only at h
  split at h
  · exact absurd h (by simp)
  · rename_i stm hm
    have hs := addImageToList_spec _ _ _ hm
    simp only at hs
    obtain ⟨h1, h2, h3, h4, h5, h6, h7, h8, h9, h10⟩ := hs
    simp only [Option.some.injEq] at h
    subst h
    refine ⟨h1, h2, ?_, ?_, ?_, ?_, ?_, ?_, ?_, ?_⟩
    · simp [h3]
    · simp [h4]
    · simp [h5]
    · simp [h6]
    · simp [h7]
    · simp [h8]
    · simp [h9]
    · simp [modify, h10]

theorem applyBoost_frame (c : Env) (bp : Int) (b : Bool) (t : LLViewerFetchedTexture) :
    (applyBoost c bp b t).mID = t.mID
      ∧ (applyBoost c bp b t).mTextureListType = t.mTextureListType
      ∧ (applyBoost c bp b t).mInImageList = t.mInImageList := by
  unfold applyBoost
  split_ifs <;>
    simp [LLViewerFetchedTexture.dontDiscard, LLViewerFetchedTexture.forceActive,
      LLViewerFetchedTexture.setBoostLevel]

theorem newImage_frame (c : Env) (image_id : LLUUID) (f_type : Int) (usemipmaps : Bool)
    (bp tt i1 i2 : Int) (host : LLHost) :
    (newImage c image_id f_type usemipmaps bp tt i1 i2 host).mID = image_id
      ∧ (newImage c image_id f_type usemipmaps bp tt i1 i2 host).mInImageList = false := by
  unfold newImage
  split_ifs <;>
    simp [LLViewerFetchedTexture.create, LLViewerFetchedTexture.setExplicitFormat]

theorem newImageFromUrl_frame (url : String) (new_id : LLUUID) (f_type : Int)
    (usemipmaps : Bool) (tt i1 i2 : Int) :
    (newImageFromUrl url new_id f_type usemipmaps tt i1 i2).mID = new_id
      ∧ (newImageFromUrl url new_id f_type usemipmaps tt i1 i2).mInImageList = false := by
  unfold newImageFromUrl
  split_ifs <;>
    simp [LLViewerFetchedTexture.create, LLViewerFetchedTexture.setExplicitFormat]

/-- Registration of a freshly allocated object: `new` followed by `addImage`. -/
theorem alloc_addImage_spec (st st2 : LLViewerTextureList) (t : LLViewerFetchedTexture)
    (tex_type : ETexListType) (ht : t.mInImageList = false)
    (h : (st.alloc t).1.addImage (some st.mNextPtr) tex_type = some st2) :
    st.mInitialized = true ∧ st2.mInitialized = true
      ∧ st2.mUUIDMap = uuid_map_assign st.mUUIDMap ⟨t.mID, tex_type⟩ st.mNextPtr
      ∧ st2.mImageList = insert st.mNextPtr st.mImageList
      ∧ st2.sNumImages = st.sNumImages + 1
      ∧ st2.mNextPtr = st.mNextPtr + 1
      ∧ st2.mCallbackList = st.mCallbackList
      ∧ st2.mFastCacheList = st.mFastCacheList
      ∧ st2.mManifest = st.mManifest
      ∧ (∀ q, q ≠ st.mNextPtr → st2.mHeap q = st.mHeap q)
      ∧ (st2.mHeap st.mNextPtr).mID = t.mID
      ∧ (st2.mHeap st.mNextPtr).mTextureListType = tex_type
      ∧ (st2.mHeap st.mNextPtr).mInImageList = true := by
  have hs := addImage_spec _ _ _ _ h
  simp only [alloc, Function.update_same, ht] at hs
  obtain ⟨h1, h2, h3, h4, h5, h6, h7, h8, h9, h10⟩ := hs
  refine ⟨h1, h2, h3, ?_, h4, h5, h7, h6, h8, ?_, ?_, ?_, ?_⟩
  · simpa using h9
  · intro q hq
    rw [h10]
    simp [Function.update_noteq hq]
  · rw [h10]; simp
  · rw [h10]; simp
  · rw [h10]; simp

/-- What a successful `createImage` leaves behind. -/
theorem createImage_spec (c : Env) (st st1 : LLViewerTextureList) (image_id : LLUUID)
    (f_type : Int) (usemipmaps : Bool) (boost_priority texture_type : Int)
    (internal_format primary_format : Int) (host : LLHost) (p : TexPtr)
    (h : createImage c st image_id f_type usemipmaps boost_priority texture_type
      internal_format primary_format host = some (st1, p)) :
    p = st.mNextPtr ∧ st.mInitialized = true ∧ st1.mInitialized = true
      ∧ st1.mUUIDMap = uuid_map_assign st.mUUIDMap
          ⟨image_id, get_element_type c boost_priority⟩ p
      ∧ st1.mImageList = insert p st.mImageList
      ∧ st1.sNumImages = st.sNumImages + 1
      ∧ st1.mNextPtr = st.mNextPtr + 1
      ∧ st1.mCallbackList = st.mCallbackList
      ∧ st1.mManifest = st.mManifest
      ∧ (∀ q, q ≠ p → st1.mHeap q = st.mHeap q)
      ∧ (st1.mHeap p).mID = image_id
      ∧ (st1.mHeap p).mTextureListType = get_element_type c boost_priority
      ∧ (st1.mHeap p).mInImageList = true := by
  unfold createImage at h
  by_cases hty : texture_type ≠ FETCHED_TEXTURE ∧ texture_type ≠ LOD_TEXTURE
  · rw [if_pos hty] at h
    exact absurd h (by simp)
  · rw [if_neg hty] at h
    simp only at h
    split at h
    · exact absurd h (by simp)
    · rename_i st2 hadd
      have hn := newImage_frame c image_id f_type usemipmaps boost_priority texture_type
        internal_format primary_format host
      have hs := alloc_addImage_spec _ _ _ _ hn.2 hadd
      rw [hn.1] at hs
      obtain ⟨h1, h2, h3, h4, h5, h6, h7, h8, h9, h10, h11, h12, h13⟩ := hs
      have hb := applyBoost_frame c boost_priority true (st2.mHeap st.mNextPtr)
      simp only [Option.some.injEq, Prod.mk.injEq] at h
      obtain ⟨hst, hpp⟩ := h
      subst hpp
      subst hst
      by_cases hfc : c.fast_cache_fetching_enabled = true ∧ boost_priority ≠ c.BOOST_SCULPTED
      · rw [if_pos hfc]
        refine ⟨rfl, h1, h2, h3, h4, h5, h6, h7, h9, ?_, ?_, ?_, ?_⟩
        · intro q hq
          simp [insertFastCache, modify, Function.update_noteq hq, h10 q hq]
        · simp [insertFastCache, modify, hb.1, h11]
        · simp [insertFastCache, modify, hb.2.1, h12]
        · simp [insertFastCache, modify, hb.2.2, h13]
      · rw [if_neg hfc]
        refine ⟨rfl, h1, h2, h3, h4, h5, h6, h7, h9, ?_, ?_, ?_, ?_⟩
        · intro q hq
          simp [modify, Function.update_noteq hq, h10 q hq]
        · simp [modify, hb.1, h11]
        · simp [modify, hb.2.1, h12]
        · simp [modify, hb.2.2, h13]

/-- What a successful `getImageNonNull` returns: a registered texture, found
under the requested key afterwards. -/
theorem getImageNonNull_spec (c : Env) (st st1 : LLViewerTextureList) (image_id : LLUUID)
    (f_type : Int) (usemipmaps : Bool) (boost_priority texture_type : Int)
    (internal_format primary_format : Int) (host : LLHost) (r : Option TexPtr)
    (hinit : st.mInitialized = true)
    (h : getImageNonNull c st image_id f_type usemipmaps boost_priority texture_type
      internal_format primary_format host = some (st1, r)) :
    ∃ p, r = some p ∧ st1.mInitialized = true
      ∧ st1.findImage image_id (get_element_type c boost_priority) = some p := by
  unfold getImageNonNull at h
  split at h
  · rename_i p hfind
    simp only [Option.some.injEq, Prod.mk.injEq] at h
    obtain ⟨hst, hr⟩ := h
    subst hst
    exact ⟨p, hr.symm, hinit, by simpa [findImage, findImageKey] using hfind⟩
  · split at h
    · exact absurd h (by simp)
    · rename_i hnone st2 p hcreate
      have hs := createImage_spec _ _ _ _ _ _ _ _ _ _ _ _ hcreate
      simp only [Option.some.injEq, Prod.mk.injEq] at h
      obtain ⟨hst, hr⟩ := h
      subst hst
      refine ⟨p, hr.symm, hs.2.2.1, ?_⟩
      simp [findImage, findImageKey, hs.2.2.2.1, uuid_map_find_assign]

/-- A `getImageNonNull` call that finds the texture returns it and changes only
the `mGLTextureCreated` flag of that texture. -/
theorem getImageNonNull_found (c : Env) (st : LLViewerTextureList) (image_id : LLUUID)
    (f_type : Int) (usemipmaps : Bool) (boost_priority texture_type : Int)
    (internal_format primary_format : Int) (host : LLHost) (p : TexPtr)
    (hfind : st.findImage image_id (get_element_type c boost_priority) = some p) :
    getImageNonNull c st image_id f_type usemipmaps boost_priority texture_type
      internal_format primary_format host
      = some (st.modify p (fun t => { t with mGLTextureCreated := true }), some p) := by
  unfold getImageNonNull
  rw [hfind]

/-! ## Preservation of well-formedness -/

theorem RegistryWF_emptyList : RegistryWF emptyList := by
  refine ⟨?_, ?_, ?_, ?_, ?_, ?_⟩ <;>
    simp [emptyList, init, uuid_map_sorted, uuid_map_find]

/-- Well-formedness only looks at the map, the image list, the count, the
allocation pointer and, of each texture, its key and its list flag. -/
theorem RegistryWF_congr (st st1 : LLViewerTextureList) (hw : RegistryWF st)
    (hmap : st1.mUUIDMap = st.mUUIDMap) (hlist : st1.mImageList = st.mImageList)
    (hnum : st1.sNumImages = st.sNumImages) (hnext : st1.mNextPtr = st.mNextPtr)
    (hheap : ∀ q, (st1.mHeap q).key = (st.mHeap q).key
      ∧ (st1.mHeap q).mInImageList = (st.mHeap q).mInImageList) :
    RegistryWF st1 := by
  refine ⟨?_, ?_, ?_, ?_, ?_, ?_⟩
  · rw [hmap]; exact hw.sorted
  · intro k p h
    rw [hmap] at h
    rw [hlist, (hheap p).1]
    exact hw.map_sound k p h
  · intro p hp
    rw [hlist] at hp
    rw [hmap, (hheap p).1]
    exact hw.list_sound p hp
  · rw [hnum, hmap]; exact hw.count
  · intro p
    rw [(hheap p).2, hlist]
    exact hw.flag p
  · intro p hp
    rw [hlist] at hp
    rw [hnext]
    exact hw.allocated p hp

/-- A write to one texture that keeps its id, list type and list flag. -/
theorem RegistryWF_modify (st : LLViewerTextureList) (p : TexPtr)
    (f : LLViewerFetchedTexture → LLViewerFetchedTexture) (hw : RegistryWF st)
    (hf : ∀ t, (f t).mID = t.mID ∧ (f t).mTextureListType = t.mTextureListType
      ∧ (f t).mInImageList = t.mInImageList) :
    RegistryWF (st.modify p f) := by
  refine RegistryWF_congr st _ hw rfl rfl rfl rfl ?_
  intro q
  by_cases hq : q = p
  · subst hq
    simp [LLViewerFetchedTexture.key, (hf (st.mHeap q)).1, (hf (st.mHeap q)).2.1,
      (hf (st.mHeap q)).2.2]
  · simp [modify_mHeap_other _ _ _ _ hq]

/-- Registration of a new texture under a key that was free. -/
theorem RegistryWF_register (st st2 : LLViewerTextureList) (key : LLTextureKey)
    (hw : RegistryWF st) (hfree : uuid_map_find st.mUUIDMap key = none)
    (hmap : st2.mUUIDMap = uuid_map_assign st.mUUIDMap key st.mNextPtr)
    (hlist : st2.mImageList = insert st.mNextPtr st.mImageList)
    (hnum : st2.sNumImages = st.sNumImages + 1)
    (hnext : st2.mNextPtr = st.mNextPtr + 1)
    (hheap : ∀ q, q ≠ st.mNextPtr → st2.mHeap q = st.mHeap q)
    (hkey : (st2.mHeap st.mNextPtr).key = key)
    (hflag : (st2.mHeap st.mNextPtr).mInImageList = true) :
    RegistryWF st2 := by
  have hfresh : st.mNextPtr ∉ st.mImageList := fun h => lt_irrefl _ (hw.allocated _ h)
  refine ⟨?_, ?_, ?_, ?_, ?_, ?_⟩
  · rw [hmap]; exact uuid_map_sorted_assign _ _ _ hw.sorted
  · intro k p h
    rw [hmap, uuid_map_find_assign] at h
    rw [hlist]
    by_cases hk : k = key
    · subst hk
      simp only [if_true, Option.some.injEq] at h
      subst h
      exact ⟨Finset.mem_insert_self _ _, hkey⟩
    · simp only [hk, if_false] at h
      have := hw.map_sound k p h
      have hne : p ≠ st.mNextPtr := fun he => hfresh (he ▸ this.1)
      exact ⟨Finset.mem_insert_of_mem this.1, by rw [hheap p hne]; exact this.2⟩
  · intro p hp
    rw [hlist, Finset.mem_insert] at hp
    rw [hmap, uuid_map_find_assign]
    rcases hp with hp | hp
    · subst hp
      simp [hkey]
    · have hne : p ≠ st.mNextPtr := fun he => hfresh (he ▸ hp)
      have hfind := hw.list_sound p hp
      rw [hheap p hne]
      have hk : (st.mHeap p).key ≠ key := by
        intro he
        rw [he, hfree] at hfind
        exact absurd hfind (by simp)
      simp [hk, hfind]
  · rw [hnum, hmap, uuid_map_length_assign _ _ _ hfree, hw.count]
    push_cast
    ring
  · intro p
    rw [hlist, Finset.mem_insert]
    by_cases hp : p = st.mNextPtr
    · subst hp
      simp [hflag]
    · rw [hheap p hp, hw.flag p]
      simp [hp]
  · intro p hp
    rw [hlist, Finset.mem_insert] at hp
    rw [hnext]
    rcases hp with hp | hp
    · subst hp
      exact Nat.lt_succ_self _
    · exact Nat.lt_succ_of_lt (hw.allocated p hp)

theorem RegistryWF_insertFastCache (st : LLViewerTextureList) (p : TexPtr)
    (hw : RegistryWF st) : RegistryWF (st.insertFastCache p) := by
  refine RegistryWF_congr st _ hw rfl rfl rfl rfl ?_
  intro q
  by_cases hq : q = p
  · subst hq
    simp [insertFastCache, modify, LLViewerFetchedTexture.key]
  · simp [insertFastCache, modify, Function.update_noteq hq]

theorem RegistryWF_createImage (c : Env) (st st1 : LLViewerTextureList) (image_id : LLUUID)
    (f_type : Int) (usemipmaps : Bool) (boost_priority texture_type : Int)
    (internal_format primary_format : Int) (host : LLHost) (p : TexPtr)
    (hw : RegistryWF st)
    (hfree : st.findImage image_id (get_element_type c boost_priority) = none)
    (h : createImage c st image_id f_type usemipmaps boost_priority texture_type
      internal_format primary_format host = some (st1, p)) :
    RegistryWF st1 := by
  have hs := createImage_spec _ _ _ _ _ _ _ _ _ _ _ _ h
  obtain ⟨h1, h2, h3, h4, h5, h6, h7, h8, h9, h10, h11, h12, h13⟩ := hs
  subst h1
  exact RegistryWF_register st st1 ⟨image_id, get_element_type c boost_priority⟩ hw hfree
    h4 h5 h6 h7 h10 (by simp [LLViewerFetchedTexture.key, h11, h12]) h13

theorem RegistryWF_getImageNonNull (c : Env) (st st1 : LLViewerTextureList)
    (image_id : LLUUID) (f_type : Int) (usemipmaps : Bool)
    (boost_priority texture_type : Int) (internal_format primary_format : Int)
    (host : LLHost) (r : Option TexPtr) (hw : RegistryWF st)
    (h : getImageNonNull c st image_id f_type usemipmaps boost_priority texture_type
      internal_format primary_format host = some (st1, r)) :
    RegistryWF st1 := by
  unfold getImageNonNull at h
  split at h
  · simp only [Option.some.injEq, Prod.mk.injEq] at h
    rw [← h.1]
    exact RegistryWF_modify _ _ _ hw (fun t => ⟨rfl, rfl, rfl⟩)
  · split at h
    · exact absurd h (by simp)
    · rename_i hnone _ st2 p hcreate
      simp only [Option.some.injEq, Prod.mk.injEq] at h
      rw [← h.1]
      exact RegistryWF_modify _ _ _
        (RegistryWF_createImage _ _ _ _ _ _ _ _ _ _ _ _ hw hnone hcreate)
        (fun t => ⟨rfl, rfl, rfl⟩)

theorem RegistryWF_getImage (c : Env) (st st1 : LLViewerTextureList)
    (image_id : LLUUID) (f_type : Int) (usemipmaps : Bool)
    (boost_priority texture_type : Int) (internal_format primary_format : Int)
    (host : LLHost) (r : Option TexPtr) (hw : RegistryWF st)
    (h : getImage c st image_id f_type usemipmaps boost_priority texture_type
      internal_format primary_format host = some (st1, r)) :
    RegistryWF st1 := by
  unfold getImage at h
  split_ifs at h with h1 h2 h3
  · simp only [Option.some.injEq, Prod.mk.injEq] at h
    rw [← h.1]
    exact hw
  · exact RegistryWF_getImageNonNull _ _ _ _ _ _ _ _ _ _ _ _ hw h
  · exact RegistryWF_getImageNonNull _ _ _ _ _ _ _ _ _ _ _ _ hw h

theorem RegistryWF_getImageFromUrl (c : Env) (st st1 : LLViewerTextureList)
    (url : String) (f_type : Int) (usemipmaps : Bool)
    (boost_priority texture_type : Int) (internal_format primary_format : Int)
    (force_id : LLUUID) (r : Option TexPtr) (hw : RegistryWF st)
    (h : getImageFromUrl c st url f_type usemipmaps boost_priority texture_type
      internal_format primary_format force_id = some (st1, r)) :
    RegistryWF st1 := by
  unfold getImageFromUrl at h
  by_cases hi : st.mInitialized = true
  · simp only [hi, Bool.not_true, Bool.false_eq_true, if_false] at h
    split at h
    · simp only [Option.some.injEq, Prod.mk.injEq] at h
      rw [← h.1]
      exact RegistryWF_modify _ _ _ hw (fun t => ⟨rfl, rfl, rfl⟩)
    · rename_i hnone
      by_cases hty : texture_type ≠ FETCHED_TEXTURE ∧ texture_type ≠ LOD_TEXTURE
      · rw [if_pos hty] at h
        exact absurd h (by simp)
      · rw [if_neg hty] at h
        split at h
        · exact absurd h (by simp)
        · rename_i st2 hadd
          have hn := newImageFromUrl_frame url (if force_id ≠ 0 then force_id else c.generate url)
            f_type usemipmaps texture_type internal_format primary_format
          have hs := alloc_addImage_spec _ _ _ _ hn.2 hadd
          rw [hn.1] at hs
          obtain ⟨h1, h2, h3, h4, h5, h6, h7, h8, h9, h10, h11, h12, h13⟩ := hs
          simp only [Option.some.injEq, Prod.mk.injEq] at h
          rw [← h.1]
          refine RegistryWF_modify _ _ _ (RegistryWF_modify _ _ _ ?_
            (applyBoost_frame c boost_priority false)) (fun t => ⟨rfl, rfl, rfl⟩)
          exact RegistryWF_register st st2 _ hw hnone h3 h4 h5 h6 h10
            (by simp [LLViewerFetchedTexture.key, h11, h12]) h13
  · simp only [hi, Bool.not_false, if_true, Option.some.injEq, Prod.mk.injEq] at h
    rw [← h.1]
    exact hw

/-- What a successful `deleteImage` of a texture did. -/
theorem deleteImage_spec (st st1 : LLViewerTextureList) (p : TexPtr)
    (h : st.deleteImage (some p) = some st1) :
    st.mInitialized = true
      ∧ uuid_map_erase_count st.mUUIDMap (st.mHeap p).key = 1
      ∧ ((st.mHeap p).mInImageList = true ∨ p ∈ st.mImageList)
      ∧ st1.mInitialized = true
      ∧ st1.mUUIDMap = uuid_map_erase st.mUUIDMap (st.mHeap p).key
      ∧ st1.mImageList = st.mImageList.erase p
      ∧ st1.sNumImages = st.sNumImages - 1
      ∧ st1.mNextPtr = st.mNextPtr
      ∧ st1.mCallbackList = (if (st.mHeap p).mHasCallbacks then st.mCallbackList.erase p
          else st.mCallbackList)
      ∧ (∀ q, q ≠ p → st1.mHeap q = st.mHeap q)
      ∧ (st1.mHeap p).key = (st.mHeap p).key
      ∧ (st1.mHeap p).mInImageList = false := by
  unfold deleteImage at h
  simp only at h
  by_cases hc : uuid_map_erase_count st.mUUIDMap (st.mHeap p).key = 1
  · simp only [hc, ne_eq, not_true_eq_false, if_false] at h
    unfold removeImageFromList at h
    by_cases hi : st.mInitialized = true
    · simp only [hi, Bool.not_true, Bool.false_eq_true, if_false] at h
      by_cases hf : (st.mHeap p).mInImageList = true
      · simp only [hf, if_true, Option.some.injEq] at h
        subst h
        refine ⟨hi, hc, Or.inl hf, rfl, rfl, rfl, rfl, rfl, rfl, ?_, ?_, ?_⟩
        · intro q hq
          simp [modify, Function.update_noteq hq]
        · simp [modify, LLViewerFetchedTexture.key]
        · simp [modify]
      · simp only [hf, Bool.false_eq_true, if_false] at h
        by_cases hm : p ∈ st.mImageList
        · simp only [hm, if_true, Option.some.injEq] at h
          subst h
          refine ⟨hi, hc, Or.inr hm, rfl, rfl, rfl, rfl, rfl, rfl, ?_, rfl, ?_⟩
          · intro q _
            rfl
          · simpa using hf
        · simp [hm] at h
    · simp [hi] at h
  · simp [hc] at h

theorem RegistryWF_deleteImage (st st1 : LLViewerTextureList) (image : Option TexPtr)
    (hw : RegistryWF st) (h : st.deleteImage image = some st1) : RegistryWF st1 := by
  cases image with
  | none =>
    simp only [deleteImage, Option.some.injEq] at h
    rw [← h]
    exact hw
  | some p =>
    obtain ⟨h1, h2, h3, h4, h5, h6, h7, h8, h9, h10, h11, h12⟩ := deleteImage_spec _ _ _ h
    have hp : p ∈ st.mImageList := by
      rcases h3 with h3 | h3
      · exact (hw.flag p).1 h3
      · exact h3
    have hfp := hw.list_sound p hp
    refine ⟨?_, ?_, ?_, ?_, ?_, ?_⟩
    · rw [h5]; exact uuid_map_sorted_erase _ _ hw.sorted
    · intro k q hq
      rw [h5, uuid_map_find_erase] at hq
      by_cases hk : k = (st.mHeap p).key
      · simp [hk] at hq
      · simp only [hk, if_false] at hq
        have hs := hw.map_sound k q hq
        have hne : q ≠ p := by
          intro he
          subst he
          exact hk hs.2.symm
        rw [h6, h10 q hne]
        exact ⟨Finset.mem_erase.2 ⟨hne, hs.1⟩, hs.2⟩
    · intro q hq
      rw [h6, Finset.mem_erase] at hq
      rw [h5, uuid_map_find_erase, h10 q hq.1]
      have hfq := hw.list_sound q hq.2
      have hk : (st.mHeap q).key ≠ (st.mHeap p).key := by
        intro he
        rw [he, hfp] at hfq
        simp only [Option.some.injEq] at hfq
        exact hq.1 hfq.symm
      simp [hk, hfq]
    · rw [h7, h5, hw.count]
      unfold uuid_map_erase_count at h2
      omega
    · intro q
      rw [h6, Finset.mem_erase]
      by_cases hq : q = p
      · subst hq
        simp [h12]
      · rw [h10 q hq, hw.flag q]
        simp [hq]
    · intro q hq
      rw [h6, Finset.mem_erase] at hq
      rw [h8]
      exact hw.allocated q hq.2

end LLViewerTextureList

theorem RegistryWF_runCalls (c : Env) (calls : List RegistryCall)
    (st st1 : LLViewerTextureList) (hw : RegistryWF st)
    (h : runCalls c st calls = some st1) : RegistryWF st1 := by
  induction calls generalizing st with
  | nil =>
    simp only [runCalls, Option.some.injEq] at h
    rw [← h]
    exact hw
  | cons call rest ih =>
    unfold runCalls at h
    split at h
    · exact absurd h (by simp)
    · rename_i st2 hcall
      refine ih st2 ?_ h
      cases call with
      | getImage a1 a2 a3 a4 a5 a6 a7 a8 =>
        unfold RegistryCall.apply at hcall
        cases hget : LLViewerTextureList.getImage c st a1 a2 a3 a4 a5 a6 a7 a8 with
        | none => simp [hget] at hcall
        | some x =>
          obtain ⟨st3, r⟩ := x
          simp only [hget, Option.map_some', Option.some.injEq] at hcall
          subst hcall
          exact LLViewerTextureList.RegistryWF_getImage _ _ _ _ _ _ _ _ _ _ _ _ hw hget
      | getImageFromUrl a1 a2 a3 a4 a5 a6 a7 a8 =>
        unfold RegistryCall.apply at hcall
        cases hget : LLViewerTextureList.getImageFromUrl c st a1 a2 a3 a4 a5 a6 a7 a8 with
        | none => simp [hget] at hcall
        | some x =>
          obtain ⟨st3, r⟩ := x
          simp only [hget, Option.map_some', Option.some.injEq] at hcall
          subst hcall
          exact LLViewerTextureList.RegistryWF_getImageFromUrl _ _ _ _ _ _ _ _ _ _ _ _ hw hget
      | deleteImage image =>
        exact LLViewerTextureList.RegistryWF_deleteImage _ _ _ hw hcall

theorem RegistryInvariant_of_WF (st : LLViewerTextureList) (hw : RegistryWF st) :
    RegistryInvariant st := by
  refine ⟨?_, ?_, ?_, ?_, ?_⟩
  · intro p
    constructor
    · intro hp
      exact ⟨_, uuid_map_mem_of_find _ _ _ (hw.list_sound p hp)⟩
    · rintro ⟨k, hk⟩
      exact (hw.map_sound k p (uuid_map_find_of_mem _ hw.sorted _ _ hk)).1
  · intro k p hk
    exact (hw.map_sound k p (uuid_map_find_of_mem _ hw.sorted _ _ hk)).2.symm
  · exact uuid_map_keys_nodup _ hw.sorted
  · intro p hp q hq hkey
    have h1 := hw.list_sound p hp
    have h2 := hw.list_sound q hq
    rw [hkey, h2] at h1
    simp only [Option.some.injEq] at h1
    exact h1.symm
  · exact hw.count

/-! ## Lemmas on the priority update -/

open LLViewerTextureList

/-- Removal of a registered texture from a well-formed list. -/
theorem deleteImage_registered (st : LLViewerTextureList) (p : TexPtr)
    (hinit : st.mInitialized = true) (hw : RegistryWF st) (hreg : p ∈ st.mImageList) :
    ∃ st1, st.deleteImage (some p) = some st1
      ∧ st1.findImage (st.mHeap p).mID (st.mHeap p).mTextureListType = none
      ∧ p ∉ st1.mImageList
      ∧ ((p ∈ st.mCallbackList → (st.mHeap p).mHasCallbacks = true) → p ∉ st1.mCallbackList)
      ∧ (∀ k, k ≠ (st.mHeap p).key → st1.findImageKey k = st.findImageKey k)
      ∧ (∀ kind, kind ≠ (st.mHeap p).mTextureListType →
          st1.findImage (st.mHeap p).mID kind = st.findImage (st.mHeap p).mID kind)
      ∧ (∀ q, q ≠ p → ((q ∈ st1.mImageList ↔ q ∈ st.mImageList)
          ∧ (q ∈ st1.mCallbackList ↔ q ∈ st.mCallbackList)
          ∧ st1.mHeap q = st.mHeap q)) := by
  have hfind := hw.list_sound p hreg
  have hcount := uuid_map_erase_count_of_sorted _ hw.sorted _ _ hfind
  have hflag := (hw.flag p).2 hreg
  refine ⟨({ st with
      mCallbackList := if (st.mHeap p).mHasCallbacks then st.mCallbackList.erase p
        else st.mCallbackList,
      mUUIDMap := uuid_map_erase st.mUUIDMap (st.mHeap p).key,
      sNumImages := st.sNumImages - 1,
      mImageList := st.mImageList.erase p } : LLViewerTextureList).modify p
        (fun t => { t with mInImageList := false }), ?_, ?_, ?_, ?_, ?_, ?_, ?_⟩
  · simp [deleteImage, removeImageFromList, hcount, hinit, hflag]
  · simp [findImage, findImageKey, uuid_map_find_erase, LLViewerFetchedTexture.key]
  · simp
  · intro hcb
    simp only [modify_mCallbackList]
    split_ifs with h
    · simp
    · intro hmem
      exact h (hcb hmem)
  · intro k hk
    simp [findImageKey, uuid_map_find_erase, hk]
  · intro kind hkind
    have hk : (⟨(st.mHeap p).mID, kind⟩ : LLTextureKey) ≠ (st.mHeap p).key := by
      intro he
      simp only [LLViewerFetchedTexture.key, LLTextureKey.mk.injEq, true_and] at he
      exact hkind he
    simp [findImage, findImageKey, uuid_map_find_erase, hk]
  · intro q hq
    refine ⟨?_, ?_, ?_⟩
    · simp [hq]
    · simp only [modify_mCallbackList]
      split_ifs <;> simp [hq]
    · simp [LLViewerTextureList.modify, Function.update_noteq hq]

theorem addTextureStats_same (c : Env) (t : LLViewerFetchedTexture) (v : ℚ) :
    SameRegistration (t.addTextureStats c v) t := by
  unfold LLViewerFetchedTexture.addTextureStats SameRegistration
  simp only
  split_ifs <;> simp

theorem SameRegistration_trans (t1 t2 t3 : LLViewerFetchedTexture)
    (h12 : SameRegistration t1 t2) (h23 : SameRegistration t2 t3) : SameRegistration t1 t3 := by
  unfold SameRegistration at *
  obtain ⟨a1, a2, a3, a4, a5, a6⟩ := h12
  obtain ⟨b1, b2, b3, b4, b5, b6⟩ := h23
  exact ⟨a1.trans b1, a2.trans b2, a3.trans b3, a4.trans b4, a5.trans b5, a6.trans b6⟩

theorem setCloseToCamera_same (scan : FaceScan) (t : LLViewerFetchedTexture) :
    SameRegistration (setCloseToCamera scan t) t :=
  ⟨rfl, rfl, rfl, rfl, rfl, rfl⟩

theorem boostHeavilyUsed_same (c : Env) (scan : FaceScan) (t : LLViewerFetchedTexture) :
    SameRegistration (boostHeavilyUsed c scan t) t := by
  unfold boostHeavilyUsed
  split_ifs <;> exact ⟨rfl, rfl, rfl, rfl, rfl, rfl⟩

theorem resetMaxVirtualSize_same (c : Env) (bias : ℚ) (scan : FaceScan)
    (t : LLViewerFetchedTexture) : SameRegistration (resetMaxVirtualSize c bias scan t) t := by
  unfold resetMaxVirtualSize
  simp only
  split_ifs <;> exact ⟨rfl, rfl, rfl, rfl, rfl, rfl⟩

theorem updateFaceStats_same (c : Env) (bias : ℚ) (t : LLViewerFetchedTexture) :
    SameRegistration (updateFaceStats c bias t) t := by
  unfold updateFaceStats
  split_ifs
  · exact SameRegistration_trans _ _ _ (addTextureStats_same c _ _)
      (SameRegistration_trans _ _ _ (resetMaxVirtualSize_same c _ _ _)
        (SameRegistration_trans _ _ _ (boostHeavilyUsed_same c _ _)
          (setCloseToCamera_same _ t)))
  · exact ⟨rfl, rfl, rfl, rfl, rfl, rfl⟩

theorem updateSpotLights_same (c : Env) (t : LLViewerFetchedTexture) :
    SameRegistration (updateSpotLights c t) t := by
  unfold updateSpotLights
  generalize t.mSpotLightPriority = l
  induction l generalizing t with
  | nil => exact ⟨rfl, rfl, rfl, rfl, rfl, rfl⟩
  | cons x rest ih =>
    simp only [List.foldl_cons]
    exact SameRegistration_trans _ _ _ (ih _) (addTextureStats_same c t x)

theorem prepared_same (c : Env) (st : LLViewerTextureList) (p : TexPtr) :
    SameRegistration
      ((st.modify p (fun t => updateSpotLights c
        (updateFaceStats c st.sDesiredDiscardBias t))).mHeap p) (st.mHeap p) := by
  rw [modify_mHeap_same]
  exact SameRegistration_trans _ _ _ (updateSpotLights_same c _) (updateFaceStats_same c _ _)

/-- With flushing enabled, a texture at the reference floor that has been idle
for more than the timeout is handed to `deleteImage`. -/
theorem updateImageDecodePriority_flush (c : Env) (st : LLViewerTextureList) (p : TexPtr)
    (hcube : st.gCubeSnapshot = false) (hrefs : (st.mHeap p).mNumRefs ≤ 3)
    (hidle : (st.mHeap p).mLastReferencedElapsed > 30) :
    updateImageDecodePriority c st p true
      = (st.modify p (fun t => updateSpotLights c
          (updateFaceStats c st.sDesiredDiscardBias t))).deleteImage (some p) := by
  obtain ⟨_, _, _, _, h5, h6⟩ := prepared_same c st p
  unfold updateImageDecodePriority
  simp only [hcube, Bool.false_eq_true, if_false, h5, h6, hrefs, hidle, and_self, if_true]

theorem finishDecodePriority_frame (c : Env) (st : LLViewerTextureList) (p : TexPtr) :
    (finishDecodePriority c st p).mUUIDMap = st.mUUIDMap
      ∧ (finishDecodePriority c st p).mImageList = st.mImageList
      ∧ (finishDecodePriority c st p).sNumImages = st.sNumImages := by
  unfold finishDecodePriority
  split_ifs <;> exact ⟨rfl, rfl, rfl⟩

/-- A texture above the reference floor, or idle for no longer than the timeout,
or updated without flushing, stays registered. -/
theorem updateImageDecodePriority_keep (c : Env) (st : LLViewerTextureList) (p : TexPtr)
    (flush_images : Bool) (hcube : st.gCubeSnapshot = false)
    (hlive : 3 < (st.mHeap p).mNumRefs ∨ (st.mHeap p).mLastReferencedElapsed ≤ 30
      ∨ flush_images = false) :
    ∃ st1, updateImageDecodePriority c st p flush_images = some st1
      ∧ st1.mUUIDMap = st.mUUIDMap ∧ st1.mImageList = st.mImageList
      ∧ st1.sNumImages = st.sNumImages := by
  obtain ⟨_, _, _, _, h5, h6⟩ := prepared_same c st p
  unfold updateImageDecodePriority
  simp only [hcube, Bool.false_eq_true, if_false, h5, h6]
  split_ifs with h1 h2 h3
  · exfalso
    rcases hlive with h | h | h
    · exact absurd h1.1 (not_le.2 h)
    · exact absurd h2 (not_lt.2 h)
    · rw [h] at h1
      exact absurd h1.2 (by simp)
  · exact ⟨_, rfl, (finishDecodePriority_frame c _ p).1, (finishDecodePriority_frame c _ p).2.1,
      (finishDecodePriority_frame c _ p).2.2⟩
  · exact ⟨_, rfl, rfl, rfl, rfl⟩
  · exact ⟨_, rfl, (finishDecodePriority_frame c _ p).1, (finishDecodePriority_frame c _ p).2.1,
      (finishDecodePriority_frame c _ p).2.2⟩

theorem sampleRegistry_run :
    runCalls sampleEnv emptyList sampleRegistryCalls = some sampleRegistry := by
  have hs : (runCalls sampleEnv emptyList sampleRegistryCalls).isSome = true := by decide
  unfold sampleRegistry
  cases h : runCalls sampleEnv emptyList sampleRegistryCalls with
  | none => simp [h] at hs
  | some x => rfl

theorem preloadedRegistry_run :
    prefetchPreloads sampleEnv some corruptRegistry = some preloadedRegistry := by
  have hs : (prefetchPreloads sampleEnv some corruptRegistry).isSome = true := by decide
  unfold preloadedRegistry
  cases h : prefetchPreloads sampleEnv some corruptRegistry with
  | none => simp [h] at hs
  | some x => rfl

theorem restartPreloaded_run :
    prefetchPreloads sampleEnv some restartRegistry = some restartPreloaded := by
  have hs : (prefetchPreloads sampleEnv some restartRegistry).isSome = true := by decide!
  unfold restartPreloaded
  cases h : prefetchPreloads sampleEnv some restartRegistry with
  | none => simp [h] at hs
  | some x => rfl

theorem sampleRegistry_wf : RegistryWF sampleRegistry :=
  RegistryWF_runCalls _ _ _ _ RegistryWF_emptyList sampleRegistry_run

theorem idleRegistry_wf : RegistryWF idleRegistry :=
  RegistryWF_modify _ _ _ (RegistryWF_modify _ _ _ sampleRegistry_wf
    (fun _ => ⟨rfl, rfl, rfl⟩)) (fun _ => ⟨rfl, rfl, rfl⟩)

theorem referencedRegistry_wf : RegistryWF referencedRegistry :=
  RegistryWF_modify _ _ _ sampleRegistry_wf (fun _ => ⟨rfl, rfl, rfl⟩)

/-! ## Lemmas on the bias scaler -/

theorem half_le_pow4_mono (x y : ℚ) (hxy : x ≤ y) (n : ℕ) (h : half_le_pow4 x n) :
    half_le_pow4 y n := by
  unfold half_le_pow4 at *
  rcases h with h | h
  · exact Or.inl h
  · by_cases hn : n = 0
    · exact Or.inl hn
    · right
      have hn1 : (1 : ℚ) ≤ n := by exact_mod_cast Nat.one_le_iff_ne_zero.2 hn
      have hA : (0 : ℚ) ≤ 2 * (n : ℚ) - 1 := by linarith
      have hdx : x.den ≠ 0 := x.den_pos.ne'
      have hB : (0 : ℚ) ≤ 2 ^ y.den * (4 : ℚ) ^ y.num := by positivity
      rw [← pow_le_pow_iff_left₀ (pow_nonneg hA _) hB hdx]
      have hle : x.num * (y.den : ℤ) ≤ y.num * (x.den : ℤ) := Rat.le_def.1 hxy
      calc ((2 * (n : ℚ) - 1) ^ y.den) ^ x.den
          = ((2 * (n : ℚ) - 1) ^ x.den) ^ y.den := by
            rw [← pow_mul, ← pow_mul, mul_comm y.den x.den]
        _ ≤ (2 ^ x.den * (4 : ℚ) ^ x.num) ^ y.den := pow_le_pow_left₀ (pow_nonneg hA _) h _
        _ = 2 ^ (x.den * y.den) * (4 : ℚ) ^ (x.num * (y.den : ℤ)) := by
            rw [mul_pow, ← pow_mul, zpow_mul, zpow_natCast]
        _ ≤ 2 ^ (x.den * y.den) * (4 : ℚ) ^ (y.num * (x.den : ℤ)) := by
            apply mul_le_mul_of_nonneg_left _ (by positivity)
            exact zpow_le_zpow_right₀ (by norm_num) hle
        _ = (2 ^ y.den * (4 : ℚ) ^ y.num) ^ x.den := by
            rw [mul_pow, ← pow_mul, zpow_mul, zpow_natCast, mul_comm x.den y.den]

theorem half_le_pow4_bound (y : ℚ) (n : ℕ) (h : half_le_pow4 y n) : n ≤ 4 ^ y.num.toNat := by
  unfold half_le_pow4 at h
  rcases h with h | h
  · subst h
    exact Nat.zero_le _
  · by_contra hlt
    push_neg at hlt
    have hdy : y.den ≠ 0 := y.den_pos.ne'
    have hM : (1 : ℚ) ≤ ((4 ^ y.num.toNat : ℕ) : ℚ) := by
      exact_mod_cast Nat.one_le_pow _ _ (by norm_num)
    have hn : ((4 ^ y.num.toNat : ℕ) : ℚ) + 1 ≤ n := by exact_mod_cast hlt
    have hpow : (4 : ℚ) ^ y.num ≤ ((4 ^ y.num.toNat : ℕ) : ℚ) := by
      push_cast
      rw [← zpow_natCast]
      exact zpow_le_zpow_right₀ (by norm_num) (Int.self_le_toNat _)
    have hbase : (1 : ℚ) ≤ (2 * (n : ℚ) - 1) / 2 := by linarith
    have h1 : ((2 * (n : ℚ) - 1) / 2) ^ y.den ≤ (4 : ℚ) ^ y.num := by
      rw [div_pow, div_le_iff₀ (by positivity)]
      linarith [h, mul_comm ((2 : ℚ) ^ y.den) ((4 : ℚ) ^ y.num)]
    have h2 : (2 * (n : ℚ) - 1) / 2 ≤ ((2 * (n : ℚ) - 1) / 2) ^ y.den :=
      le_self_pow₀ hbase hdy
    linarith

theorem llroundf_powf4_spec (x : ℚ) : half_le_pow4 x (llroundf_powf4 x) :=
  Nat.findGreatest_spec (Nat.zero_le _) (Or.inl rfl)

theorem llroundf_powf4_mono (x y : ℚ) (hxy : x ≤ y) : llroundf_powf4 x ≤ llroundf_powf4 y := by
  have h := half_le_pow4_mono x y hxy _ (llroundf_powf4_spec x)
  exact Nat.le_findGreatest (half_le_pow4_bound y _ h) h

theorem llroundf_powf4_natCast (k : ℕ) : llroundf_powf4 (k : ℚ) = 4 ^ k := by
  unfold llroundf_powf4
  simp only [Rat.num_natCast, Int.toNat_ofNat]
  apply Nat.findGreatest_eq
  right
  simp only [Rat.den_natCast, pow_one, Rat.num_natCast, zpow_natCast]
  push_cast
  have : (0 : ℚ) ≤ 4 ^ k := by positivity
  linarith

theorem llroundf_powf4_pos (x : ℚ) (hx : 0 ≤ x) : 1 ≤ llroundf_powf4 x := by
  have h := llroundf_powf4_mono 0 x hx
  have h0 : llroundf_powf4 (0 : ℚ) = 1 := by
    have := llroundf_powf4_natCast 0
    simpa using this
  omega

theorem llclamp_one_le (a b : ℚ) (hb : 1 ≤ b) : 1 ≤ llclamp a 1 b := by
  unfold llclamp
  split_ifs with h1 h2
  · exact le_refl _
  · exact hb
  · exact not_lt.1 h1

theorem llclamp_mono (a b1 b2 : ℚ) (hb : b1 ≤ b2) : llclamp a 1 b1 ≤ llclamp a 1 b2 := by
  unfold llclamp
  split_ifs <;> linarith

/-- For a global bias of at least 1 the rounded power is a positive integer. -/
theorem discardBias_round_pos (a b : ℚ) (hb : 1 ≤ b) :
    1 ≤ llroundf_powf4 (llclamp a 1 b - 1) :=
  llroundf_powf4_pos _ (by linarith [llclamp_one_le a b hb])

theorem finiteScaler_of_one_le (c : Env) (t : LLViewerFetchedTexture) (b : ℚ) (hb : 1 ≤ b) :
    finiteScaler c t b := by
  unfold finiteScaler
  have := discardBias_round_pos ((maxDiscardLevel c t : ℚ) - 2) b hb
  omega

/-- The size scaler does not grow with the global bias. -/
theorem discardBias_antitone (c : Env) (t : LLViewerFetchedTexture) (b1 b2 : ℚ)
    (h1 : finiteScaler c t b1) (h12 : b1 ≤ b2) :
    discardBias c t b2 ≤ discardBias c t b1 ∧ 0 < discardBias c t b2 := by
  unfold finiteScaler at h1
  unfold discardBias
  simp only
  generalize (maxDiscardLevel c t : ℚ) = md at h1 ⊢
  have hm := llroundf_powf4_mono _ _
    (sub_le_sub_right (llclamp_mono (md - 2) b1 b2 h12) 1)
  have hr1 : 1 ≤ llroundf_powf4 (llclamp (md - 2) 1 b1 - 1) := Nat.one_le_iff_ne_zero.2 h1
  have hr2 : 1 ≤ llroundf_powf4 (llclamp (md - 2) 1 b2 - 1) := le_trans hr1 hm
  have p1 : (0 : ℚ) < (llroundf_powf4 (llclamp (md - 2) 1 b1 - 1) : ℚ) := by
    exact_mod_cast hr1
  have p2 : (0 : ℚ) < (llroundf_powf4 (llclamp (md - 2) 1 b2 - 1) : ℚ) := by
    exact_mod_cast hr2
  have hq : (llroundf_powf4 (llclamp (md - 2) 1 b1 - 1) : ℚ)
      ≤ (llroundf_powf4 (llclamp (md - 2) 1 b2 - 1) : ℚ) := by exact_mod_cast hm
  exact ⟨one_div_le_one_div_of_le p1 hq, one_div_pos.2 p2⟩

/-- At global bias 1 the scaler is 1. -/
theorem discardBias_one (c : Env) (t : LLViewerFetchedTexture) : discardBias c t 1 = 1 := by
  unfold discardBias
  simp only
  have hc : llclamp ((maxDiscardLevel c t : ℚ) - 2) 1 1 = 1 := by
    unfold llclamp
    split_ifs <;> linarith
  have h0 : llroundf_powf4 (0 : ℚ) = 1 := by simpa using llroundf_powf4_natCast 0
  rw [hc, sub_self, h0]
  norm_num

/-- An image with at most three discard levels is not biased at all. -/
theorem discardBias_low_resolution (c : Env) (t : LLViewerFetchedTexture) (b : ℚ)
    (hmd : maxDiscardLevel c t ≤ 3) (hb : 1 ≤ b) : discardBias c t b = 1 := by
  unfold discardBias
  simp only
  have hq : (maxDiscardLevel c t : ℚ) ≤ 3 := by exact_mod_cast hmd
  have hc : llclamp ((maxDiscardLevel c t : ℚ) - 2) 1 b = 1 := by
    unfold llclamp
    split_ifs <;> linarith
  have h0 : llroundf_powf4 (0 : ℚ) = 1 := by simpa using llroundf_powf4_natCast 0
  rw [hc, sub_self, h0]
  norm_num

/-- An image with four discard levels or more is scaled by at most 1/4 at global
bias 4. -/
theorem discardBias_four (c : Env) (t : LLViewerFetchedTexture)
    (hmd : 4 ≤ maxDiscardLevel c t) :
    0 < discardBias c t 4 ∧ discardBias c t 4 ≤ 1 / 4 := by
  unfold discardBias
  simp only
  have hq : (4 : ℚ) ≤ (maxDiscardLevel c t : ℚ) := by exact_mod_cast hmd
  have hc : (2 : ℚ) ≤ llclamp ((maxDiscardLevel c t : ℚ) - 2) 1 4 := by
    unfold llclamp
    split_ifs <;> linarith
  have h1 : llroundf_powf4 ((1 : ℕ) : ℚ) = 4 := by simpa using llroundf_powf4_natCast 1
  have hm := llroundf_powf4_mono ((1 : ℕ) : ℚ)
    (llclamp ((maxDiscardLevel c t : ℚ) - 2) 1 4 - 1) (by push_cast; linarith)
  rw [h1] at hm
  have hr : (4 : ℚ) ≤ (llroundf_powf4 (llclamp ((maxDiscardLevel c t : ℚ) - 2) 1 4 - 1) : ℚ) := by
    exact_mod_cast hm
  constructor
  · exact one_div_pos.2 (by linarith)
  · exact one_div_le_one_div_of_le (by norm_num) hr

/-! ## Lemmas on the face loop -/

theorem foldl_scanFace_eq (c : Env) (bias : ℚ) (hpm : Bool) (l : List (Option LLFace))
    (acc : FaceScan) :
    l.foldl (scanFace c bias hpm) acc
      = (l.filterMap (fun face =>
          match face with
          | none => none
          | some f => if f.hasViewerObject then some f else none)).foldl
            (scanValidFace c bias hpm) acc := by
  induction l generalizing acc with
  | nil => rfl
  | cons x rest ih =>
    cases x with
    | none => simpa [scanFace] using ih acc
    | some f =>
      by_cases hv : f.hasViewerObject = true
      · simp [scanFace, hv, ih]
      · simp [scanFace, hv, ih]

theorem scanFaces_eq (c : Env) (bias : ℚ) (t : LLViewerFetchedTexture) :
    scanFaces c bias t = (validFaces t).foldl (scanValidFace c bias t.mHasParcelMedia) {} := by
  unfold scanFaces validFaces
  rw [← List.foldl_flatten, foldl_scanFace_eq]

/-- The unbiased maximum of the loop bounds every face from above, starting from
any accumulator. -/
theorem foldl_scanValidFace_upper (c : Env) (bias : ℚ) (hpm : Bool) (l : List LLFace)
    (acc : FaceScan) :
    acc.max_on_screen_vsize ≤ (l.foldl (scanValidFace c bias hpm) acc).max_on_screen_vsize
      ∧ ∀ f ∈ l, boostedVSize c f
          ≤ (l.foldl (scanValidFace c bias hpm) acc).max_on_screen_vsize := by
  induction l generalizing acc with
  | nil => simp
  | cons x rest ih =>
    simp only [List.foldl_cons, List.mem_cons, forall_eq_or_imp]
    have h := ih (scanValidFace c bias hpm acc x)
    have h1 : acc.max_on_screen_vsize ≤ (scanValidFace c bias hpm acc x).max_on_screen_vsize :=
      le_max_left _ _
    have h2 : boostedVSize c x ≤ (scanValidFace c bias hpm acc x).max_on_screen_vsize :=
      le_max_right _ _
    exact ⟨le_trans h1 h.1, le_trans h2 h.1, h.2⟩

/-- The unbiased maximum of the loop is the start value or the size of a face. -/
theorem foldl_scanValidFace_attained (c : Env) (bias : ℚ) (hpm : Bool) (l : List LLFace)
    (acc : FaceScan) :
    (l.foldl (scanValidFace c bias hpm) acc).max_on_screen_vsize = acc.max_on_screen_vsize
      ∨ ∃ f ∈ l, (l.foldl (scanValidFace c bias hpm) acc).max_on_screen_vsize
          = boostedVSize c f := by
  induction l generalizing acc with
  | nil => simp
  | cons x rest ih =>
    simp only [List.foldl_cons, List.mem_cons, exists_eq_or_imp]
    rcases ih (scanValidFace c bias hpm acc x) with h | ⟨f, hf, h⟩
    · rw [h]
      rcases max_choice acc.max_on_screen_vsize (boostedVSize c x) with hm | hm
      · left
        show max acc.max_on_screen_vsize (boostedVSize c x) = _
        rw [hm]
      · right
        left
        show max acc.max_on_screen_vsize (boostedVSize c x) = _
        rw [hm]
    · exact Or.inr (Or.inr ⟨f, hf, h⟩)

/-- The biased maximum is the unbiased maximum times the scaler, for a
non-negative scaler. -/
theorem foldl_scanValidFace_biased (c : Env) (bias : ℚ) (hpm : Bool) (hb : 0 ≤ bias)
    (l : List LLFace) (acc : FaceScan)
    (hacc : acc.max_vsize = acc.max_on_screen_vsize * bias) :
    (l.foldl (scanValidFace c bias hpm) acc).max_vsize
      = (l.foldl (scanValidFace c bias hpm) acc).max_on_screen_vsize * bias := by
  induction l generalizing acc with
  | nil => simpa using hacc
  | cons x rest ih =>
    simp only [List.foldl_cons]
    apply ih
    show max acc.max_vsize (boostedVSize c x * bias)
      = max acc.max_on_screen_vsize (boostedVSize c x) * bias
    rw [hacc, max_mul_of_nonneg _ _ hb]

/-- The unbiased maximum does not depend on the scaler. -/
theorem foldl_scanValidFace_unbiased (c : Env) (bias1 bias2 : ℚ) (hpm : Bool)
    (l : List LLFace) (acc1 acc2 : FaceScan)
    (hacc : acc1.max_on_screen_vsize = acc2.max_on_screen_vsize) :
    (l.foldl (scanValidFace c bias1 hpm) acc1).max_on_screen_vsize
      = (l.foldl (scanValidFace c bias2 hpm) acc2).max_on_screen_vsize := by
  induction l generalizing acc1 acc2 with
  | nil => simpa using hacc
  | cons x rest ih =>
    simp only [List.foldl_cons]
    apply ih
    show max acc1.max_on_screen_vsize (boostedVSize c x)
      = max acc2.max_on_screen_vsize (boostedVSize c x)
    rw [hacc]

theorem scanFaces_max_vsize (c : Env) (bias : ℚ) (hb : 0 ≤ bias)
    (t : LLViewerFetchedTexture) :
    (scanFaces c bias t).max_vsize = (scanFaces c bias t).max_on_screen_vsize * bias := by
  rw [scanFaces_eq]
  exact foldl_scanValidFace_biased c bias _ hb _ _ (by simp)

theorem scanFaces_unbiased (c : Env) (bias1 bias2 : ℚ) (t : LLViewerFetchedTexture) :
    (scanFaces c bias1 t).max_on_screen_vsize = (scanFaces c bias2 t).max_on_screen_vsize := by
  rw [scanFaces_eq, scanFaces_eq]
  exact foldl_scanValidFace_unbiased c bias1 bias2 _ _ _ _ rfl

theorem scanFaces_nonneg (c : Env) (bias : ℚ) (t : LLViewerFetchedTexture) :
    0 ≤ (scanFaces c bias t).max_on_screen_vsize := by
  rw [scanFaces_eq]
  exact (foldl_scanValidFace_upper c bias _ _ _).1

/-! ## Lemmas on shutdown -/

theorem area_pair_lt_trans (a b d : Int × TexPtr) (h1 : area_pair_lt a b)
    (h2 : area_pair_lt b d) : area_pair_lt a d := by
  unfold area_pair_lt at *
  unfold TexPtr at *
  omega

theorem area_pair_lt_of_not (a b : Int × TexPtr) (h1 : ¬ area_pair_lt a b) (h2 : a ≠ b) :
    area_pair_lt b a := by
  unfold area_pair_lt at *
  unfold TexPtr at *
  have h3 : a.1 ≠ b.1 ∨ a.2 ≠ b.2 := by
    by_contra hc
    push_neg at hc
    exact h2 (Prod.ext hc.1 hc.2)
  omega

theorem area_pair_lt_area_le (a b : Int × TexPtr) (h : area_pair_lt a b) : a.1 ≤ b.1 := by
  unfold area_pair_lt at h
  omega

theorem area_pair_lt_irrefl (a : Int × TexPtr) : ¬ area_pair_lt a a := by
  unfold area_pair_lt
  unfold TexPtr at *
  omega

theorem area_set_insert_mem (e x : Int × TexPtr) (l : List (Int × TexPtr)) :
    x ∈ area_set_insert e l ↔ x = e ∨ x ∈ l := by
  induction l with
  | nil => simp [area_set_insert]
  | cons y rest ih =>
    unfold area_set_insert
    split_ifs with h1 h2
    · simp
    · subst h2
      simp only [List.mem_cons]
      tauto
    · simp only [List.mem_cons, ih]
      tauto

theorem area_set_insert_sorted (e : Int × TexPtr) (l : List (Int × TexPtr))
    (hs : l.Pairwise area_pair_lt) : (area_set_insert e l).Pairwise area_pair_lt := by
  induction l with
  | nil => simp [area_set_insert]
  | cons y rest ih =>
    rw [List.pairwise_cons] at hs
    unfold area_set_insert
    split_ifs with h1 h2
    · refine List.pairwise_cons.2 ⟨?_, List.pairwise_cons.2 hs⟩
      intro z hz
      rcases List.mem_cons.1 hz with hz | hz
      · subst hz
        exact h1
      · exact area_pair_lt_trans _ _ _ h1 (hs.1 z hz)
    · exact List.pairwise_cons.2 hs
    · refine List.pairwise_cons.2 ⟨?_, ih hs.2⟩
      intro z hz
      rcases (area_set_insert_mem e z rest).1 hz with hz | hz
      · subst hz
        exact area_pair_lt_of_not _ _ h1 h2
      · exact hs.1 z hz

/-- The set built by the first loop of `shutdown`, for any list of images
visited and any start value. -/
theorem shutdown_fold_spec (c : Env) (st : LLViewerTextureList) (images : List TexPtr)
    (acc : List (Int × TexPtr)) (hs : acc.Pairwise area_pair_lt) :
    (images.foldl
      (fun acc image =>
        if savedOnShutdown c (st.mHeap image) then
          area_set_insert (shutdownPixelArea (st.mHeap image), image) acc
        else acc) acc).Pairwise area_pair_lt
    ∧ ∀ x, x ∈ images.foldl
      (fun acc image =>
        if savedOnShutdown c (st.mHeap image) then
          area_set_insert (shutdownPixelArea (st.mHeap image), image) acc
        else acc) acc
      ↔ x ∈ acc ∨ (x.2 ∈ images ∧ savedOnShutdown c (st.mHeap x.2) = true
          ∧ x.1 = shutdownPixelArea (st.mHeap x.2)) := by
  induction images generalizing acc with
  | nil => simp [hs]
  | cons image rest ih =>
    simp only [List.foldl_cons]
    by_cases hq : savedOnShutdown c (st.mHeap image) = true
    · simp only [hq, if_true]
      have h := ih _ (area_set_insert_sorted (shutdownPixelArea (st.mHeap image), image) acc hs)
      refine ⟨h.1, ?_⟩
      intro x
      rw [h.2 x, area_set_insert_mem]
      constructor
      · rintro (h1 | h1)
        · rcases h1 with h1 | h1
          · subst h1
            exact Or.inr ⟨List.mem_cons_self _ _, hq, rfl⟩
          · exact Or.inl h1
        · exact Or.inr ⟨List.mem_cons_of_mem _ h1.1, h1.2⟩
      · rintro (h1 | ⟨h1, h2, h3⟩)
        · exact Or.inl (Or.inr h1)
        · rcases List.mem_cons.1 h1 with h1 | h1
          · left
            left
            refine Prod.ext ?_ h1
            rw [h3, h1]
          · exact Or.inr ⟨h1, h2, h3⟩
    · simp only [hq, Bool.false_eq_true, if_false]
      have h := ih acc hs
      refine ⟨h.1, ?_⟩
      intro x
      rw [h.2 x]
      constructor
      · rintro (h1 | h1)
        · exact Or.inl h1
        · exact Or.inr ⟨List.mem_cons_of_mem _ h1.1, h1.2⟩
      · rintro (h1 | ⟨h1, h2, h3⟩)
        · exact Or.inl h1
        · rcases List.mem_cons.1 h1 with h1 | h1
          · rw [h1] at h2
            exact absurd h2 hq
          · exact Or.inr ⟨h1, h2, h3⟩

theorem shutdownAreaList_sorted (c : Env) (st : LLViewerTextureList) :
    (st.shutdownAreaList c).Pairwise area_pair_lt :=
  (shutdown_fold_spec c st _ [] List.Pairwise.nil).1

theorem shutdownAreaList_mem (c : Env) (st : LLViewerTextureList) (x : Int × TexPtr) :
    x ∈ st.shutdownAreaList c
      ↔ x.2 ∈ qualifyingImages c st ∧ x.1 = shutdownPixelArea (st.mHeap x.2) := by
  unfold shutdownAreaList
  rw [(shutdown_fold_spec c st _ [] List.Pairwise.nil).2 x]
  simp only [List.not_mem_nil, false_or, Finset.mem_sort, qualifyingImages, Finset.mem_filter]
  tauto

theorem shutdownAreaList_length (c : Env) (st : LLViewerTextureList) :
    (st.shutdownAreaList c).length = (qualifyingImages c st).card := by
  have hnd : (st.shutdownAreaList c).Nodup := by
    refine List.Pairwise.imp ?_ (shutdownAreaList_sorted c st)
    intro a b hab heq
    rw [heq] at hab
    exact area_pair_lt_irrefl _ hab
  have himg : (st.shutdownAreaList c).toFinset
      = (qualifyingImages c st).image
          (fun image => (shutdownPixelArea (st.mHeap image), image)) := by
    ext x
    simp only [List.mem_toFinset, shutdownAreaList_mem, Finset.mem_image]
    constructor
    · rintro ⟨h1, h2⟩
      exact ⟨x.2, h1, Prod.ext h2.symm rfl⟩
    · rintro ⟨p, hp, rfl⟩
      exact ⟨hp, rfl⟩
  rw [← List.toFinset_card_of_nodup hnd, himg]
  exact Finset.card_image_of_injective _ (fun a b hab => (Prod.ext_iff.1 hab).2)

theorem shutdownSelection_sorted (c : Env) (st : LLViewerTextureList) :
    (st.shutdownSelection c).Pairwise (fun a b => area_pair_lt b a) := by
  unfold shutdownSelection
  exact List.Pairwise.sublist (List.take_sublist _ _)
    (List.pairwise_reverse.2 (shutdownAreaList_sorted c st))

/-! ## Lemmas on the size fed to the statistics -/

theorem updateFaceStats_eq (c : Env) (bias : ℚ) (t : LLViewerFetchedTexture)
    (hrun : t.mBoostLevel < c.BOOST_HIGH) :
    updateFaceStats c bias t
      = (preparedForStats c bias t).addTextureStats c (fedVirtualSize c bias t) := by
  unfold updateFaceStats
  rw [if_pos hrun]
  rfl

theorem resetMaxVirtualSize_fields (c : Env) (bias : ℚ) (scan : FaceScan)
    (t : LLViewerFetchedTexture) :
    (resetMaxVirtualSize c bias scan t).mBoostLevel = t.mBoostLevel
      ∧ (resetMaxVirtualSize c bias scan t).mType = t.mType
      ∧ (resetMaxVirtualSize c bias scan t).mDiscardLevel = t.mDiscardLevel := by
  unfold resetMaxVirtualSize
  simp only
  split_ifs <;> exact ⟨rfl, rfl, rfl⟩

theorem boostHeavilyUsed_fields (c : Env) (scan : FaceScan) (t : LLViewerFetchedTexture) :
    (boostHeavilyUsed c scan t).mType = t.mType
      ∧ (boostHeavilyUsed c scan t).mDiscardLevel = t.mDiscardLevel
      ∧ (boostHeavilyUsed c scan t).mMaxVirtualSize = t.mMaxVirtualSize
      ∧ ((scan.face_count > 1024 ∨ scan.animated ≠ 0) →
          (boostHeavilyUsed c scan t).mBoostLevel = c.BOOST_HIGH)
      ∧ (¬ (scan.face_count > 1024 ∨ scan.animated ≠ 0) →
          (boostHeavilyUsed c scan t).mBoostLevel = t.mBoostLevel) := by
  unfold boostHeavilyUsed
  split_ifs with h
  · exact ⟨rfl, rfl, rfl, fun _ => rfl, fun h1 => absurd h h1⟩
  · exact ⟨rfl, rfl, rfl, fun h1 => absurd h1 h, fun _ => rfl⟩

theorem preparedForStats_fields (c : Env) (bias : ℚ) (t : LLViewerFetchedTexture) :
    (preparedForStats c bias t).mType = t.mType
      ∧ (preparedForStats c bias t).mDiscardLevel = t.mDiscardLevel
      ∧ (((scanFaces c (discardBias c t bias) t).face_count > 1024
            ∨ (scanFaces c (discardBias c t bias) t).animated ≠ 0) →
          (preparedForStats c bias t).mBoostLevel = c.BOOST_HIGH)
      ∧ (¬ ((scanFaces c (discardBias c t bias) t).face_count > 1024
            ∨ (scanFaces c (discardBias c t bias) t).animated ≠ 0) →
          (preparedForStats c bias t).mBoostLevel = t.mBoostLevel) := by
  unfold preparedForStats
  obtain ⟨r1, r2, r3⟩ := resetMaxVirtualSize_fields c bias
    (scanFaces c (discardBias c t bias) t)
    (boostHeavilyUsed c (scanFaces c (discardBias c t bias) t)
      (setCloseToCamera (scanFaces c (discardBias c t bias) t) t))
  obtain ⟨b1, b2, _, b4, b5⟩ := boostHeavilyUsed_fields c
    (scanFaces c (discardBias c t bias) t)
    (setCloseToCamera (scanFaces c (discardBias c t bias) t) t)
  refine ⟨by rw [r2, b1]; rfl, by rw [r3, b2]; rfl, fun h => by rw [r1, b4 h],
    fun h => by rw [r1, b5 h]; rfl⟩

theorem touchReferenced_elapsed (m : ℚ) (t : LLViewerFetchedTexture) :
    (touchReferenced m t).mLastReferencedElapsed = 0 := by
  unfold touchReferenced
  simp only
  split_ifs <;> rfl

theorem finishDecodePriority_elapsed (c : Env) (st : LLViewerTextureList) (p : TexPtr)
    (hproc : ∀ t, (c.processTextureStats t).mLastReferencedElapsed = t.mLastReferencedElapsed) :
    ((finishDecodePriority c st p).mHeap p).mLastReferencedElapsed
      = (st.mHeap p).mLastReferencedElapsed := by
  unfold finishDecodePriority
  split_ifs
  · rfl
  · rfl
  · rw [modify_mHeap_same, hproc]

/-! ## Lemmas on the call trace -/

@[simp] theorem log_mTrace (st : LLViewerTextureList) (e : TraceEvent) :
    (st.log e).mTrace = st.mTrace ++ [e] := rfl

@[simp] theorem log_mHeap (st : LLViewerTextureList) (e : TraceEvent) :
    (st.log e).mHeap = st.mHeap := rfl

@[simp] theorem log_mCreateTextureList (st : LLViewerTextureList) (e : TraceEvent) :
    (st.log e).mCreateTextureList = st.mCreateTextureList := rfl

@[simp] theorem log_mDownScaleQueue (st : LLViewerTextureList) (e : TraceEvent) :
    (st.log e).mDownScaleQueue = st.mDownScaleQueue := rfl

@[simp] theorem log_mFastCacheList (st : LLViewerTextureList) (e : TraceEvent) :
    (st.log e).mFastCacheList = st.mFastCacheList := rfl

@[simp] theorem log_mNextPtr (st : LLViewerTextureList) (e : TraceEvent) :
    (st.log e).mNextPtr = st.mNextPtr := rfl

@[simp] theorem log_mUUIDMap (st : LLViewerTextureList) (e : TraceEvent) :
    (st.log e).mUUIDMap = st.mUUIDMap := rfl

@[simp] theorem log_mLastUpdateKey (st : LLViewerTextureList) (e : TraceEvent) :
    (st.log e).mLastUpdateKey = st.mLastUpdateKey := rfl

@[simp] theorem log_gCubeSnapshot (st : LLViewerTextureList) (e : TraceEvent) :
    (st.log e).gCubeSnapshot = st.gCubeSnapshot := rfl

@[simp] theorem log_sDesiredDiscardBias (st : LLViewerTextureList) (e : TraceEvent) :
    (st.log e).sDesiredDiscardBias = st.sDesiredDiscardBias := rfl

@[simp] theorem modify_mTrace (st : LLViewerTextureList) (p : TexPtr)
    (f : LLViewerFetchedTexture → LLViewerFetchedTexture) :
    (st.modify p f).mTrace = st.mTrace := rfl

@[simp] theorem modify_mCreateTextureList (st : LLViewerTextureList) (p : TexPtr)
    (f : LLViewerFetchedTexture → LLViewerFetchedTexture) :
    (st.modify p f).mCreateTextureList = st.mCreateTextureList := rfl

@[simp] theorem modify_mDownScaleQueue (st : LLViewerTextureList) (p : TexPtr)
    (f : LLViewerFetchedTexture → LLViewerFetchedTexture) :
    (st.modify p f).mDownScaleQueue = st.mDownScaleQueue := rfl

@[simp] theorem modify_mLastUpdateKey (st : LLViewerTextureList) (p : TexPtr)
    (f : LLViewerFetchedTexture → LLViewerFetchedTexture) :
    (st.modify p f).mLastUpdateKey = st.mLastUpdateKey := rfl

@[simp] theorem modify_gCubeSnapshot (st : LLViewerTextureList) (p : TexPtr)
    (f : LLViewerFetchedTexture → LLViewerFetchedTexture) :
    (st.modify p f).gCubeSnapshot = st.gCubeSnapshot := rfl

@[simp] theorem modify_sDesiredDiscardBias (st : LLViewerTextureList) (p : TexPtr)
    (f : LLViewerFetchedTexture → LLViewerFetchedTexture) :
    (st.modify p f).sDesiredDiscardBias = st.sDesiredDiscardBias := rfl

theorem SameRegistry_refl (st : LLViewerTextureList) : SameRegistry st st := ⟨rfl, rfl, rfl⟩

theorem SameRegistry_trans (st2 st1 st : LLViewerTextureList) (h2 : SameRegistry st2 st1)
    (h1 : SameRegistry st1 st) : SameRegistry st2 st :=
  ⟨h2.1.trans h1.1, h2.2.1.trans h1.2.1, h2.2.2.trans h1.2.2⟩

theorem SameRegistry_log (st : LLViewerTextureList) (e : TraceEvent) :
    SameRegistry (st.log e) st := ⟨rfl, rfl, rfl⟩

theorem SameRegistry_modify (st : LLViewerTextureList) (p : TexPtr)
    (f : LLViewerFetchedTexture → LLViewerFetchedTexture) :
    SameRegistry (st.modify p f) st := ⟨rfl, rfl, rfl⟩

theorem CallsOf_nil (lo hi : Nat) : CallsOf lo hi [] :=
  ⟨fun e he => absurd he (List.not_mem_nil e), List.Pairwise.nil⟩

theorem CallsOf_single (lo hi : Nat) (e : TraceEvent)
    (hcall : ∀ s b, e ≠ TraceEvent.stageBegin s b) (hlo : lo ≤ e.stage.toNat)
    (hhi : e.stage.toNat ≤ hi) : CallsOf lo hi [e] := by
  refine ⟨fun e1 he1 => ?_, List.pairwise_singleton _ _⟩
  rw [List.mem_singleton] at he1
  subst he1
  exact ⟨hcall, hlo, hhi⟩

theorem CallsOf_append (a b b1 d : Nat) (ev1 ev2 : List TraceEvent)
    (h1 : CallsOf a b ev1) (h2 : CallsOf b1 d ev2) (hbb : b ≤ b1) (hab : a ≤ b1)
    (hbd : b ≤ d) : CallsOf a d (ev1 ++ ev2) := by
  refine ⟨fun e he => ?_, ?_⟩
  · rcases List.mem_append.1 he with he | he
    · obtain ⟨x, y, z⟩ := h1.1 e he
      exact ⟨x, y, le_trans z hbd⟩
    · obtain ⟨x, y, z⟩ := h2.1 e he
      exact ⟨x, le_trans hab y, z⟩
  · rw [List.pairwise_append]
    refine ⟨h1.2, h2.2, fun e1 he1 e2 he2 => ?_⟩
    exact le_trans (h1.1 e1 he1).2.2 (le_trans hbb (h2.1 e2 he2).2.1)

theorem TraceExt_refl (lo hi : Nat) (st : LLViewerTextureList) : TraceExt lo hi st st :=
  ⟨[], by simp, CallsOf_nil lo hi⟩

theorem TraceExt_of_eq (lo hi : Nat) (st st1 : LLViewerTextureList)
    (h : st1.mTrace = st.mTrace) : TraceExt lo hi st st1 :=
  ⟨[], by simp [h], CallsOf_nil lo hi⟩

theorem TraceExt_trans (a b b1 d : Nat) (st st1 st2 : LLViewerTextureList)
    (h1 : TraceExt a b st st1) (h2 : TraceExt b1 d st1 st2) (hbb : b ≤ b1) (hab : a ≤ b1)
    (hbd : b ≤ d) : TraceExt a d st st2 := by
  obtain ⟨ev1, e1, c1⟩ := h1
  obtain ⟨ev2, e2, c2⟩ := h2
  exact ⟨ev1 ++ ev2, by rw [e2, e1, List.append_assoc],
    CallsOf_append a b b1 d ev1 ev2 c1 c2 hbb hab hbd⟩

theorem TraceExt_log (k : Nat) (st : LLViewerTextureList) (e : TraceEvent)
    (hcall : ∀ s b, e ≠ TraceEvent.stageBegin s b) (hk : e.stage.toNat = k) :
    TraceExt k k st (st.log e) :=
  ⟨[e], rfl, CallsOf_single k k e hcall (le_of_eq hk.symm) (le_of_eq hk)⟩

/-! ## Lemmas on the create loop and the downscale loop -/

@[simp] theorem pushDownScale_mHeap (st : LLViewerTextureList) (p : TexPtr) :
    (st.pushDownScale p).mHeap = st.mHeap := rfl

@[simp] theorem popCreate_mHeap (st : LLViewerTextureList) :
    st.popCreate.mHeap = st.mHeap := rfl

@[simp] theorem popCreate_mCreateTextureList (st : LLViewerTextureList) :
    st.popCreate.mCreateTextureList = st.mCreateTextureList.tail := rfl

@[simp] theorem popCreate_mTrace (st : LLViewerTextureList) :
    st.popCreate.mTrace = st.mTrace := rfl

@[simp] theorem popDownScale_mHeap (st : LLViewerTextureList) :
    st.popDownScale.mHeap = st.mHeap := rfl

@[simp] theorem popDownScale_mDownScaleQueue (st : LLViewerTextureList) :
    st.popDownScale.mDownScaleQueue = st.mDownScaleQueue.tail := rfl

@[simp] theorem popDownScale_mCreateTextureList (st : LLViewerTextureList) :
    st.popDownScale.mCreateTextureList = st.mCreateTextureList := rfl

@[simp] theorem popDownScale_mTrace (st : LLViewerTextureList) :
    st.popDownScale.mTrace = st.mTrace := rfl

theorem scaleDown_frame (st : LLViewerTextureList) (p : TexPtr) :
    (st.scaleDown p).mTrace = st.mTrace ∧ SameRegistry (st.scaleDown p) st
      ∧ (st.scaleDown p).mCreateTextureList = st.mCreateTextureList
      ∧ ∀ q, ((st.scaleDown p).mHeap q).mCreatePending = (st.mHeap q).mCreatePending := by
  unfold scaleDown
  split_ifs with h
  · refine ⟨rfl, ⟨rfl, rfl, rfl⟩, rfl, fun q => ?_⟩
    rw [pushDownScale_mHeap]
    by_cases hq : q = p
    · subst hq
      rw [modify_mHeap_same]
    · rw [modify_mHeap_other _ _ _ _ hq]
  · exact ⟨rfl, SameRegistry_refl st, rfl, fun _ => rfl⟩

theorem uploadFront_frame (c : Env) (st : LLViewerTextureList) (p : TexPtr) :
    TraceExt 2 2 st (uploadFront c st p) ∧ SameRegistry (uploadFront c st p) st
      ∧ (uploadFront c st p).mCreateTextureList = st.mCreateTextureList
      ∧ (redundant_load (st.mHeap p) = true → uploadFront c st p = st) := by
  unfold uploadFront
  split_ifs with h
  · exact ⟨TraceExt_refl 2 2 st, SameRegistry_refl st, rfl, fun _ => rfl⟩
  · exact ⟨TraceExt_log 2 st _ (fun _ _ hh => by cases hh) rfl, ⟨rfl, rfl, rfl⟩, rfl,
      fun h1 => absurd h1 h⟩

theorem scaleDownFront_frame (c : Env) (st : LLViewerTextureList) (p : TexPtr) :
    ((scaleDownFront c st p).mTrace = st.mTrace
        ∨ (scaleDownFront c st p).mTrace = st.mTrace ++ [TraceEvent.scaleDownRequest p])
      ∧ SameRegistry (scaleDownFront c st p) st
      ∧ (scaleDownFront c st p).mCreateTextureList = st.mCreateTextureList
      ∧ ∀ q, ((scaleDownFront c st p).mHeap q).mCreatePending
          = (st.mHeap q).mCreatePending := by
  unfold scaleDownFront
  split_ifs with h
  · obtain ⟨h1, h2, h3, h4⟩ := scaleDown_frame (st.log (.scaleDownRequest p)) p
    exact ⟨Or.inr h1, h2, h3, h4⟩
  · exact ⟨Or.inl rfl, SameRegistry_refl st, rfl, fun _ => rfl⟩

theorem scaleDownFront_ext (c : Env) (st : LLViewerTextureList) (p : TexPtr) :
    TraceExt 2 2 st (scaleDownFront c st p) := by
  rcases (scaleDownFront_frame c st p).1 with h | h
  · exact TraceExt_of_eq 2 2 _ _ h
  · exact ⟨[.scaleDownRequest p], h,
      CallsOf_single 2 2 _ (fun _ _ hh => by cases hh) (le_refl 2) (le_refl 2)⟩

theorem createFront_some (c : Env) (st st1 : LLViewerTextureList) (p : TexPtr)
    (h : createFront c st p = some st1) : st1 = createFrontBody c st p := by
  unfold createFront at h
  by_cases hflag : (st.mHeap p).mCreatePending = false
  · rw [if_pos hflag] at h
    cases h
  · rw [if_neg hflag] at h
    exact (Option.some.inj h).symm

theorem finishUpload_frame (c : Env) (st : LLViewerTextureList) (p : TexPtr) :
    (finishUpload c st p).mTrace = st.mTrace ++ [TraceEvent.postCreateTexture p]
      ∧ SameRegistry (finishUpload c st p) st
      ∧ (finishUpload c st p).mCreateTextureList = st.mCreateTextureList.tail
      ∧ ((finishUpload c st p).mHeap p).mCreatePending = false := by
  unfold finishUpload
  refine ⟨rfl, ⟨rfl, rfl, rfl⟩, rfl, ?_⟩
  rw [popCreate_mHeap, modify_mHeap_same]

/-- What one turn of the create loop does. -/
theorem createFrontBody_frame (c : Env) (st : LLViewerTextureList) (p : TexPtr) :
    TraceExt 2 2 st (createFrontBody c st p) ∧ SameRegistry (createFrontBody c st p) st
      ∧ (createFrontBody c st p).mCreateTextureList = st.mCreateTextureList.tail
      ∧ ((createFrontBody c st p).mHeap p).mCreatePending = false := by
  obtain ⟨u1, u2, u3, _⟩ := uploadFront_frame c st p
  obtain ⟨m1, m2, m3, m4⟩ := finishUpload_frame c (uploadFront c st p) p
  obtain ⟨_, s2, s3, s4⟩ := scaleDownFront_frame c (finishUpload c (uploadFront c st p) p) p
  have s1 := scaleDownFront_ext c (finishUpload c (uploadFront c st p) p) p
  have hm : TraceExt 2 2 (uploadFront c st p) (finishUpload c (uploadFront c st p) p) :=
    ⟨[.postCreateTexture p], m1,
      CallsOf_single 2 2 _ (fun _ _ hh => by cases hh) (le_refl 2) (le_refl 2)⟩
  unfold createFrontBody
  refine ⟨?_, SameRegistry_trans _ _ _ s2 (SameRegistry_trans _ _ _ m2 u2), ?_, ?_⟩
  · exact TraceExt_trans 2 2 2 2 _ _ _ u1
      (TraceExt_trans 2 2 2 2 _ _ _ hm s1 (le_refl 2) (le_refl 2) (le_refl 2))
      (le_refl 2) (le_refl 2) (le_refl 2)
  · rw [s3, m3, u3]
  · rw [s4, m4]

theorem createTexturesLoop_frame (c : Env) (max_time : ℚ) (timer : Clock) :
    ∀ (fuel reads : Nat) (st st1 : LLViewerTextureList) (reads1 : Nat),
      createTexturesLoop c max_time timer fuel reads st = some (st1, reads1) →
      TraceExt 2 2 st st1 ∧ SameRegistry st1 st := by
  intro fuel
  induction fuel with
  | zero =>
    intro reads st st1 reads1 h
    simp only [createTexturesLoop, Option.some.injEq, Prod.mk.injEq] at h
    rw [← h.1]
    exact ⟨TraceExt_refl 2 2 st, SameRegistry_refl st⟩
  | succ fuel ih =>
    intro reads st st1 reads1 h
    unfold createTexturesLoop at h
    cases hq : st.mCreateTextureList with
    | nil =>
      simp only [hq, Option.some.injEq, Prod.mk.injEq] at h
      rw [← h.1]
      exact ⟨TraceExt_refl 2 2 st, SameRegistry_refl st⟩
    | cons imagep rest =>
      simp only [hq] at h
      cases hf : createFront c st imagep with
      | none => simp [hf] at h
      | some st2 =>
        simp only [hf] at h
        have hb := createFront_some c st st2 imagep hf
        subst hb
        obtain ⟨f1, f2, _, _⟩ := createFrontBody_frame c st imagep
        split_ifs at h with ht
        · simp only [Option.some.injEq, Prod.mk.injEq] at h
          rw [← h.1]
          exact ⟨f1, f2⟩
        · obtain ⟨i1, i2⟩ := ih _ _ _ _ h
          exact ⟨TraceExt_trans 2 2 2 2 _ _ _ f1 i1 (le_refl 2) (le_refl 2) (le_refl 2),
            SameRegistry_trans _ _ _ i2 f2⟩

theorem scaleDownImage_frame (c : Env) (st : LLViewerTextureList) (image : TexPtr) :
    TraceExt 3 3 st (scaleDownImage c st image) ∧ SameRegistry (scaleDownImage c st image) st
      ∧ (scaleDownImage c st image).mDownScaleQueue = st.mDownScaleQueue
      ∧ (scaleDownImage c st image).mCreateTextureList = st.mCreateTextureList
      ∧ (∀ q, q ≠ image → (scaleDownImage c st image).mHeap q = st.mHeap q)
      ∧ (scaleDownImage c st image).mTrace.filterMap TraceEvent.downScaled
          = st.mTrace.filterMap TraceEvent.downScaled := by
  unfold scaleDownImage
  cases (st.mHeap image).mGLTexturep with
  | none =>
    exact ⟨TraceExt_refl 3 3 st, SameRegistry_refl st, rfl, rfl, fun _ _ => rfl, rfl⟩
  | some img =>
    simp only
    split_ifs with h
    · refine ⟨TraceExt_log 3 st _ (fun _ _ hh => by cases hh) rfl, ⟨rfl, rfl, rfl⟩, rfl, rfl,
        fun q hq => ?_, ?_⟩
      · rw [modify_mHeap_other _ _ _ _ hq, log_mHeap]
      · rw [modify_mTrace, log_mTrace, List.filterMap_append]
        simp [TraceEvent.downScaled]
    · exact ⟨TraceExt_refl 3 3 st, SameRegistry_refl st, rfl, rfl, fun _ _ => rfl, rfl⟩

/-- What one turn of the downscale loop does. -/
theorem downScaleFrontBody_frame (c : Env) (st : LLViewerTextureList) (image : TexPtr) :
    TraceExt 3 3 st (downScaleFrontBody c st image)
      ∧ SameRegistry (downScaleFrontBody c st image) st
      ∧ (downScaleFrontBody c st image).mDownScaleQueue = st.mDownScaleQueue.tail
      ∧ (downScaleFrontBody c st image).mCreateTextureList = st.mCreateTextureList
      ∧ ((downScaleFrontBody c st image).mHeap image).mDownScalePending = false
      ∧ (∀ q, q ≠ image → (downScaleFrontBody c st image).mHeap q = st.mHeap q)
      ∧ (downScaleFrontBody c st image).mTrace.filterMap TraceEvent.downScaled
          = st.mTrace.filterMap TraceEvent.downScaled ++ [image] := by
  obtain ⟨g1, g2, g3, g4, g5, g6⟩ := scaleDownImage_frame c st image
  unfold downScaleFrontBody
  refine ⟨?_, ?_, ?_, ?_, ?_, ?_, ?_⟩
  · refine TraceExt_trans 3 3 3 3 _ _ _ g1 ?_ (le_refl 3) (le_refl 3) (le_refl 3)
    exact ⟨[.downScaleDone image], rfl,
      CallsOf_single 3 3 _ (fun _ _ hh => by cases hh) (le_refl 3) (le_refl 3)⟩
  · exact SameRegistry_trans _ _ _ ⟨rfl, rfl, rfl⟩ g2
  · rw [log_mDownScaleQueue, popDownScale_mDownScaleQueue, modify_mDownScaleQueue, g3]
  · rw [log_mCreateTextureList, popDownScale_mCreateTextureList, modify_mCreateTextureList, g4]
  · rw [log_mHeap, popDownScale_mHeap, modify_mHeap_same]
  · intro q hq
    rw [log_mHeap, popDownScale_mHeap, modify_mHeap_other _ _ _ _ hq, g5 q hq]
  · rw [log_mTrace, popDownScale_mTrace, modify_mTrace, List.filterMap_append, g6]
    simp [TraceEvent.downScaled]

theorem scaleDownImage_effect (c : Env) (st : LLViewerTextureList) (image : TexPtr) :
    (scaleDownImage c st image).mTrace
        = st.mTrace
          ++ (if (st.mHeap image).hasGLTexture = true then [TraceEvent.scaleDownGL image]
              else [])
      ∧ (scaleDownImage c st image).mHeap image = scaledDownGL c (st.mHeap image) := by
  cases hgl : (st.mHeap image).mGLTexturep with
  | none =>
    unfold scaleDownImage scaledDownGL LLViewerFetchedTexture.hasGLTexture
    rw [hgl]
    simp
  | some img =>
    unfold scaleDownImage scaledDownGL LLViewerFetchedTexture.hasGLTexture
    rw [hgl]
    simp only
    by_cases hname : img.mHasGLTexture = true
    · rw [if_pos hname, if_pos hname, if_pos hname]
      refine ⟨rfl, ?_⟩
      rw [modify_mHeap_same, log_mHeap]
    · rw [if_neg hname, if_neg hname, if_neg hname]
      exact ⟨by simp, rfl⟩

/-- The calls one turn of the downscale loop makes and what it does to the
texture. -/
theorem downScaleFrontBody_effect (c : Env) (st : LLViewerTextureList) (image : TexPtr) :
    (downScaleFrontBody c st image).mTrace = st.mTrace ++ downScaleCalls st image
      ∧ (downScaleFrontBody c st image).mHeap image = downScaledTexture c (st.mHeap image) := by
  obtain ⟨h1, h2⟩ := scaleDownImage_effect c st image
  refine ⟨?_, ?_⟩
  · unfold downScaleFrontBody downScaleCalls
    rw [log_mTrace, popDownScale_mTrace, modify_mTrace, h1, List.append_assoc]
  · unfold downScaleFrontBody downScaledTexture
    rw [log_mHeap, popDownScale_mHeap, modify_mHeap_same, h2]

theorem downScaleFront_some (c : Env) (st st1 : LLViewerTextureList) (image : TexPtr)
    (h : downScaleFront c st image = some st1) : st1 = downScaleFrontBody c st image := by
  unfold downScaleFront at h
  by_cases hflag : (st.mHeap image).mDownScalePending = false
  · rw [if_pos hflag] at h
    cases h
  · rw [if_neg hflag] at h
    exact (Option.some.inj h).symm

theorem downScaleFront_pending (c : Env) (st : LLViewerTextureList) (image : TexPtr)
    (h : (st.mHeap image).mDownScalePending = true) :
    downScaleFront c st image = some (downScaleFrontBody c st image) := by
  unfold downScaleFront
  rw [if_neg (by simp [h])]

theorem downScaleLoop_frame (c : Env) (max_time : ℚ) (timer : Clock) :
    ∀ (fuel reads : Nat) (min_count : Int) (st st1 : LLViewerTextureList) (reads1 : Nat),
      downScaleLoop c max_time timer fuel reads min_count st = some (st1, reads1) →
      TraceExt 3 3 st st1 ∧ SameRegistry st1 st := by
  intro fuel
  induction fuel with
  | zero =>
    intro reads min_count st st1 reads1 h
    simp only [downScaleLoop, Option.some.injEq, Prod.mk.injEq] at h
    rw [← h.1]
    exact ⟨TraceExt_refl 3 3 st, SameRegistry_refl st⟩
  | succ fuel ih =>
    intro reads min_count st st1 reads1 h
    unfold downScaleLoop at h
    cases hq : st.mDownScaleQueue with
    | nil =>
      simp only [hq, Option.some.injEq, Prod.mk.injEq] at h
      rw [← h.1]
      exact ⟨TraceExt_refl 3 3 st, SameRegistry_refl st⟩
    | cons image rest =>
      simp only [hq] at h
      cases hf : downScaleFront c st image with
      | none => simp [hf] at h
      | some st2 =>
        simp only [hf] at h
        have hb := downScaleFront_some c st st2 image hf
        subst hb
        obtain ⟨f1, f2, _⟩ := downScaleFrontBody_frame c st image
        split_ifs at h with ht hm
        · simp only [Option.some.injEq, Prod.mk.injEq] at h
          rw [← h.1]
          exact ⟨f1, f2⟩
        · obtain ⟨i1, i2⟩ := ih _ _ _ _ _ h
          exact ⟨TraceExt_trans 3 3 3 3 _ _ _ f1 i1 (le_refl 3) (le_refl 3) (le_refl 3),
            SameRegistry_trans _ _ _ i2 f2⟩
        · obtain ⟨i1, i2⟩ := ih _ _ _ _ _ h
          exact ⟨TraceExt_trans 3 3 3 3 _ _ _ f1 i1 (le_refl 3) (le_refl 3) (le_refl 3),
            SameRegistry_trans _ _ _ i2 f2⟩

theorem flatMap_congr_mem {α β : Type} (l : List α) (f g : α → List β)
    (h : ∀ a ∈ l, f a = g a) : l.flatMap f = l.flatMap g := by
  induction l with
  | nil => rfl
  | cons x rest ih =>
    rw [List.flatMap_cons, List.flatMap_cons, h x (List.mem_cons_self _ _),
      ih (fun a ha => h a (List.mem_cons_of_mem _ ha))]

/-- The downscale loop on a queue of distinct textures that all carry the
pending flag: it returns, it handles a front part of the queue of at least
`min_count` entries unless the queue is shorter, in queue order, and every
texture handled has left the queue with its flag cleared. -/
theorem downScaleLoop_spec (c : Env) (max_time : ℚ) (timer : Clock) :
    ∀ (fuel reads : Nat) (min_count : Int) (st : LLViewerTextureList),
      st.mDownScaleQueue.length ≤ fuel → st.mDownScaleQueue.Nodup →
      (∀ p ∈ st.mDownScaleQueue, (st.mHeap p).mDownScalePending = true) →
      ∃ st1 reads1 n,
        downScaleLoop c max_time timer fuel reads min_count st = some (st1, reads1)
          ∧ n ≤ st.mDownScaleQueue.length
          ∧ min (st.mDownScaleQueue.length : Int) min_count ≤ (n : Int)
          ∧ st1.mDownScaleQueue = st.mDownScaleQueue.drop n
          ∧ st1.mCreateTextureList = st.mCreateTextureList
          ∧ st1.mTrace.filterMap TraceEvent.downScaled
              = st.mTrace.filterMap TraceEvent.downScaled ++ st.mDownScaleQueue.take n
          ∧ (∀ p ∈ st.mDownScaleQueue.take n, (st1.mHeap p).mDownScalePending = false)
          ∧ (∀ q, q ∉ st.mDownScaleQueue.take n → st1.mHeap q = st.mHeap q)
          ∧ st1.mTrace = st.mTrace ++ (st.mDownScaleQueue.take n).flatMap (downScaleCalls st)
          ∧ (∀ p ∈ st.mDownScaleQueue.take n,
              st1.mHeap p = downScaledTexture c (st.mHeap p)) := by
  intro fuel
  induction fuel with
  | zero =>
    intro reads min_count st hlen _ _
    have hnil : st.mDownScaleQueue = [] := List.length_eq_zero.1 (Nat.le_zero.1 hlen)
    refine ⟨st, reads, 0, rfl, Nat.zero_le _, ?_, by simp, rfl, by simp, by simp, fun _ _ => rfl,
      by simp, by simp⟩
    rw [hnil]
    exact min_le_left _ _
  | succ fuel ih =>
    intro reads min_count st hlen hnodup hflag
    unfold downScaleLoop
    cases hq : st.mDownScaleQueue with
    | nil =>
      refine ⟨st, reads, 0, rfl, Nat.zero_le _, ?_, by simp [hq], rfl, by simp, by simp,
        fun _ _ => rfl, by simp, by simp⟩
      exact min_le_left _ _
    | cons image rest =>
      rw [hq] at hlen hnodup hflag
      have himg : image ∉ rest := (List.nodup_cons.1 hnodup).1
      have hrest : rest.Nodup := (List.nodup_cons.1 hnodup).2
      simp only [downScaleFront_pending c st image (hflag image (List.mem_cons_self _ _))]
      obtain ⟨_, _, f3, f4, f5, f6, f7⟩ := downScaleFrontBody_frame c st image
      obtain ⟨f8, f9⟩ := downScaleFrontBody_effect c st image
      rw [hq] at f3
      simp only [List.tail_cons] at f3
      have hflag2 : ∀ p ∈ (downScaleFrontBody c st image).mDownScaleQueue,
          ((downScaleFrontBody c st image).mHeap p).mDownScalePending = true := by
        intro p hp
        rw [f3] at hp
        have hne : p ≠ image := fun h => himg (h ▸ hp)
        rw [f6 p hne]
        exact hflag p (List.mem_cons_of_mem _ hp)
      have hlen2 : (downScaleFrontBody c st image).mDownScaleQueue.length ≤ fuel := by
        rw [f3]
        simp only [List.length_cons] at hlen
        omega
      have step : ∀ (m : Int), min_count - 1 ≤ m →
          ∃ st1 reads1 n,
            downScaleLoop c max_time timer fuel (reads + 1) m (downScaleFrontBody c st image)
                = some (st1, reads1)
              ∧ n ≤ (image :: rest).length
              ∧ min (((image :: rest).length : Nat) : Int) min_count ≤ (n : Int)
              ∧ st1.mDownScaleQueue = (image :: rest).drop n
              ∧ st1.mCreateTextureList = st.mCreateTextureList
              ∧ st1.mTrace.filterMap TraceEvent.downScaled
                  = st.mTrace.filterMap TraceEvent.downScaled ++ (image :: rest).take n
              ∧ (∀ p ∈ (image :: rest).take n, (st1.mHeap p).mDownScalePending = false)
              ∧ (∀ q, q ∉ (image :: rest).take n → st1.mHeap q = st.mHeap q)
              ∧ st1.mTrace = st.mTrace ++ ((image :: rest).take n).flatMap (downScaleCalls st)
              ∧ (∀ p ∈ (image :: rest).take n,
                  st1.mHeap p = downScaledTexture c (st.mHeap p)) := by
        intro m hm
        obtain ⟨st1, reads1, n, e1, e2, e3, e4, e5, e6, e7, e8, e9, e10⟩ :=
          ih (reads + 1) m (downScaleFrontBody c st image) hlen2 (by rw [f3]; exact hrest) hflag2
        rw [f3] at e2 e3 e4 e6 e7 e8 e9 e10
        have hother : ∀ p ∈ rest.take n, p ≠ image :=
          fun p hp h => himg (h ▸ List.mem_of_mem_take hp)
        refine ⟨st1, reads1, n + 1, e1, by simp only [List.length_cons]; omega, ?_, ?_, ?_, ?_,
          ?_, ?_, ?_, ?_⟩
        · simp only [List.length_cons, Nat.cast_add, Nat.cast_one]
          rcases min_le_iff.1 e3 with h | h
          · exact le_trans (min_le_left _ _) (by omega)
          · exact le_trans (min_le_right _ _) (by omega)
        · rw [e4]
          rfl
        · rw [e5, f4]
        · rw [e6, f7, List.append_assoc]
          rfl
        · intro p hp
          rw [List.take_succ_cons, List.mem_cons] at hp
          rcases hp with hp | hp
          · subst hp
            rw [e8 p (fun h => himg (List.mem_of_mem_take h))]
            exact f5
          · exact e7 p hp
        · intro q hq1
          rw [List.take_succ_cons, List.mem_cons, not_or] at hq1
          rw [e8 q hq1.2, f6 q hq1.1]
        · rw [e9, f8, List.take_succ_cons, List.flatMap_cons, List.append_assoc,
            flatMap_congr_mem (rest.take n) (downScaleCalls (downScaleFrontBody c st image))
              (downScaleCalls st)
              (fun p hp => by unfold downScaleCalls; rw [f6 p (hother p hp)])]
        · intro p hp
          rw [List.take_succ_cons, List.mem_cons] at hp
          rcases hp with hp | hp
          · subst hp
            rw [e8 p (fun h => himg (List.mem_of_mem_take h))]
            exact f9
          · rw [e10 p hp, f6 p (hother p hp)]
      by_cases ht : timer reads > max_time
      · rw [if_pos ht]
        by_cases hm : min_count - 1 ≤ 0
        · rw [if_pos hm]
          refine ⟨_, _, 1, rfl, by simp, ?_, ?_, f4, ?_, ?_, ?_, ?_, ?_⟩
          · exact le_trans (min_le_right _ _) (by push_cast; omega)
          · rw [f3]
            rfl
          · rw [f7]
            rfl
          · intro p hp
            simp only [List.take_succ_cons, List.take_zero, List.mem_singleton] at hp
            subst hp
            exact f5
          · intro q hq1
            simp only [List.take_succ_cons, List.take_zero, List.mem_singleton] at hq1
            exact f6 q hq1
          · rw [f8]
            simp
          · intro p hp
            simp only [List.take_succ_cons, List.take_zero, List.mem_singleton] at hp
            subst hp
            exact f9
        · rw [if_neg hm]
          exact step (min_count - 1) (le_refl _)
      · rw [if_neg ht]
        exact step min_count (by omega)

/-! ## Lemmas on the stages of `updateImages` -/

theorem SameControl_refl (st : LLViewerTextureList) : SameControl st st :=
  ⟨rfl, rfl, rfl, rfl, rfl, rfl, rfl, rfl, rfl⟩

theorem SameControl_trans (st2 st1 st : LLViewerTextureList) (h2 : SameControl st2 st1)
    (h1 : SameControl st1 st) : SameControl st2 st :=
  ⟨h2.trace.trans h1.trace, h2.fast.trans h1.fast, h2.next.trans h1.next,
    h2.create.trans h1.create, h2.down.trans h1.down, h2.cursor.trans h1.cursor,
    h2.cube.trans h1.cube, h2.bias.trans h1.bias, h2.updated.trans h1.updated⟩

theorem SameControl_modify (st : LLViewerTextureList) (p : TexPtr)
    (f : LLViewerFetchedTexture → LLViewerFetchedTexture) : SameControl (st.modify p f) st :=
  ⟨rfl, rfl, rfl, rfl, rfl, rfl, rfl, rfl, rfl⟩

theorem removeImageFromList_quiet (st st1 : LLViewerTextureList) (p : TexPtr)
    (h : st.removeImageFromList p = some st1) : SameControl st1 st := by
  unfold removeImageFromList at h
  by_cases hi : st.mInitialized = true
  · simp only [hi, Bool.not_true, Bool.false_eq_true, if_false] at h
    by_cases hf : (st.mHeap p).mInImageList = true
    · simp only [hf, if_true, Option.some.injEq] at h
      subst h
      exact ⟨rfl, rfl, rfl, rfl, rfl, rfl, rfl, rfl, rfl⟩
    · simp only [hf, Bool.false_eq_true, if_false] at h
      by_cases hm : p ∈ st.mImageList
      · simp only [hm, if_true, Option.some.injEq] at h
        subst h
        exact ⟨rfl, rfl, rfl, rfl, rfl, rfl, rfl, rfl, rfl⟩
      · simp [hm] at h
  · simp [hi] at h

theorem deleteImage_quiet (st st1 : LLViewerTextureList) (image : Option TexPtr)
    (h : st.deleteImage image = some st1) : SameControl st1 st := by
  cases image with
  | none =>
    simp only [deleteImage, Option.some.injEq] at h
    subst h
    exact SameControl_refl st
  | some p =>
    unfold deleteImage at h
    simp only at h
    by_cases hc : uuid_map_erase_count st.mUUIDMap (st.mHeap p).key = 1
    · simp only [hc, ne_eq, not_true_eq_false, if_false] at h
      have hq := removeImageFromList_quiet _ _ _ h
      exact ⟨hq.trace, hq.fast, hq.next, hq.create, hq.down, hq.cursor, hq.cube, hq.bias,
        hq.updated⟩
    · simp [hc] at h

theorem finishDecodePriority_quiet (c : Env) (st : LLViewerTextureList) (p : TexPtr) :
    SameControl (finishDecodePriority c st p) st := by
  unfold finishDecodePriority
  split_ifs
  · exact SameControl_refl st
  · exact SameControl_refl st
  · exact SameControl_modify st p _

theorem updateImageDecodePriority_quiet (c : Env) (st st1 : LLViewerTextureList) (p : TexPtr)
    (flush_images : Bool) (h : updateImageDecodePriority c st p flush_images = some st1) :
    SameControl st1 st := by
  unfold updateImageDecodePriority at h
  by_cases hcube : st.gCubeSnapshot = true
  · simp [hcube] at h
  · simp only [hcube, Bool.false_eq_true, if_false] at h
    split_ifs at h with h1 h2 h3
    · exact SameControl_trans _ _ _ (deleteImage_quiet _ _ _ h) (SameControl_modify st p _)
    · simp only [Option.some.injEq] at h
      subst h
      exact SameControl_trans _ _ _ (finishDecodePriority_quiet c _ p) (SameControl_modify st p _)
    · simp only [Option.some.injEq] at h
      subst h
      exact SameControl_trans _ _ _ (SameControl_modify _ p _) (SameControl_modify st p _)
    · simp only [Option.some.injEq] at h
      subst h
      exact SameControl_trans _ _ _ (finishDecodePriority_quiet c _ p)
        (SameControl_trans _ _ _ (SameControl_modify _ p _) (SameControl_modify st p _))

theorem visit_frame (st : LLViewerTextureList) (p : TexPtr) :
    (st.visit p).mTrace = st.mTrace ++ [TraceEvent.fetchVisit p]
      ∧ (st.visit p).mHeap = st.mHeap ∧ (st.visit p).mUUIDMap = st.mUUIDMap
      ∧ (st.visit p).gCubeSnapshot = st.gCubeSnapshot
      ∧ (st.visit p).mLastUpdateKey = (st.mHeap p).key
      ∧ (st.visit p).mFastCacheList = st.mFastCacheList
      ∧ (st.visit p).mNextPtr = st.mNextPtr
      ∧ (st.visit p).mCreateTextureList = st.mCreateTextureList
      ∧ (st.visit p).mDownScaleQueue = st.mDownScaleQueue :=
  ⟨rfl, rfl, rfl, rfl, rfl, rfl, rfl, rfl, rfl⟩

theorem fetchEntry_frame (c : Env) (st st1 : LLViewerTextureList) (p : TexPtr)
    (h : fetchEntry c st p = some st1) :
    TraceExt 1 1 st st1 ∧ st1.mFastCacheList = st.mFastCacheList
      ∧ st1.mNextPtr = st.mNextPtr ∧ st1.mCreateTextureList = st.mCreateTextureList
      ∧ st1.mDownScaleQueue = st.mDownScaleQueue := by
  obtain ⟨v1, _, _, _, _, v6, v7, v8, v9⟩ := visit_frame st p
  unfold fetchEntry at h
  split_ifs at h with hrefs
  · cases hu : updateImageDecodePriority c
        ((st.visit p).log (.updateImageDecodePriority p)) p true with
    | none => simp [hu] at h
    | some st2 =>
      simp only [hu, Option.some.injEq] at h
      subst h
      have hq := updateImageDecodePriority_quiet c _ _ p true hu
      refine ⟨⟨[.fetchVisit p, .updateImageDecodePriority p, .updateFetch p], ?_, ?_⟩,
        ?_, ?_, ?_, ?_⟩
      · rw [modify_mTrace, log_mTrace, hq.trace, log_mTrace, v1]
        simp
      · refine ⟨fun e he => ?_, ?_⟩
        · simp only [List.mem_cons, List.mem_singleton, List.not_mem_nil, or_false] at he
          rcases he with he | he | he <;> subst he <;>
            exact ⟨(fun _ _ hh => by cases hh), le_refl _, le_refl _⟩
        · simp [TraceEvent.stage]
      · rw [modify_mFastCacheList, log_mFastCacheList, hq.fast, log_mFastCacheList, v6]
      · rw [modify_mNextPtr, log_mNextPtr, hq.next, log_mNextPtr, v7]
      · rw [modify_mCreateTextureList, log_mCreateTextureList, hq.create,
          log_mCreateTextureList, v8]
      · rw [modify_mDownScaleQueue, log_mDownScaleQueue, hq.down, log_mDownScaleQueue, v9]
  · simp only [Option.some.injEq] at h
    subst h
    exact ⟨⟨[.fetchVisit p], v1,
      CallsOf_single 1 1 _ (fun _ _ hh => by cases hh) (le_refl 1) (le_refl 1)⟩, v6, v7, v8, v9⟩

theorem fetchEntries_frame (c : Env) (max_time : ℚ) (timer : Clock) :
    ∀ (entries : List TexPtr) (reads : Nat) (st st1 : LLViewerTextureList) (reads1 : Nat),
      fetchEntries c max_time timer entries reads st = some (st1, reads1) →
      TraceExt 1 1 st st1 ∧ st1.mFastCacheList = st.mFastCacheList
        ∧ st1.mNextPtr = st.mNextPtr ∧ st1.mCreateTextureList = st.mCreateTextureList
        ∧ st1.mDownScaleQueue = st.mDownScaleQueue := by
  intro entries
  induction entries with
  | nil =>
    intro reads st st1 reads1 h
    simp only [fetchEntries, Option.some.injEq, Prod.mk.injEq] at h
    rw [← h.1]
    exact ⟨TraceExt_refl 1 1 st, rfl, rfl, rfl, rfl⟩
  | cons p rest ih =>
    intro reads st st1 reads1 h
    unfold fetchEntries at h
    cases hf : fetchEntry c st p with
    | none => simp [hf] at h
    | some st2 =>
      simp only [hf] at h
      obtain ⟨f1, f2, f3, f4, f5⟩ := fetchEntry_frame c st st2 p hf
      split_ifs at h with ht
      · simp only [Option.some.injEq, Prod.mk.injEq] at h
        rw [← h.1]
        exact ⟨f1, f2, f3, f4, f5⟩
      · obtain ⟨i1, i2, i3, i4, i5⟩ := ih _ _ _ _ h
        exact ⟨TraceExt_trans 1 1 1 1 _ _ _ f1 i1 (le_refl 1) (le_refl 1) (le_refl 1),
          i2.trans f2, i3.trans f3, i4.trans f4, i5.trans f5⟩

theorem updateImagesFetchTextures_frame (c : Env) (st : LLViewerTextureList) (max_time : ℚ)
    (timer : Clock) (r : LLViewerTextureList × ℚ)
    (h : updateImagesFetchTextures c st max_time timer = some r) :
    TraceExt 1 1 st r.1 ∧ r.1.mFastCacheList = st.mFastCacheList
      ∧ r.1.mNextPtr = st.mNextPtr ∧ r.1.mCreateTextureList = st.mCreateTextureList
      ∧ r.1.mDownScaleQueue = st.mDownScaleQueue := by
  unfold updateImagesFetchTextures at h
  cases hs : fetchSelection c st with
  | none => simp [hs] at h
  | some entries =>
    simp only [hs] at h
    cases hf : fetchEntries c max_time timer entries 0
        { st with sBiasTexturesUpdated := (fetchUpdateCount c st).2 } with
    | none => simp [hf] at h
    | some r2 =>
      obtain ⟨st2, reads⟩ := r2
      simp only [hf, Option.some.injEq] at h
      subst h
      obtain ⟨⟨ev, e1, e2⟩, k2, k3, k4, k5⟩ :=
        fetchEntries_frame c max_time timer entries 0 _ st2 reads hf
      exact ⟨⟨ev, e1, e2⟩, k2, k3, k4, k5⟩

theorem loadFastCacheEntries_frame (c : Env) (max_time : ℚ) (timer : Clock) :
    ∀ (images : List TexPtr) (reads : Nat) (st : LLViewerTextureList),
      TraceExt 0 0 st (loadFastCacheEntries c max_time timer images reads st).1
        ∧ SameRegistry (loadFastCacheEntries c max_time timer images reads st).1 st
        ∧ (loadFastCacheEntries c max_time timer images reads st).1.mFastCacheList
            = st.mFastCacheList
        ∧ (loadFastCacheEntries c max_time timer images reads st).1.mNextPtr = st.mNextPtr := by
  intro images
  induction images with
  | nil =>
    intro reads st
    exact ⟨TraceExt_refl 0 0 st, SameRegistry_refl st, rfl, rfl⟩
  | cons p rest ih =>
    intro reads st
    have hstep : TraceExt 0 0 st
        ({ (st.log (.loadFromFastCache p)).modify p c.loadFromFastCache with
            sNumFastCacheReads :=
              ((st.log (.loadFromFastCache p)).modify p c.loadFromFastCache).sNumFastCacheReads
                + 1 } : LLViewerTextureList) :=
      ⟨[.loadFromFastCache p], rfl,
        CallsOf_single 0 0 _ (fun _ _ hh => by cases hh) (le_refl 0) (le_refl 0)⟩
    unfold loadFastCacheEntries
    simp only
    split_ifs with ht
    · exact ⟨hstep, ⟨rfl, rfl, rfl⟩, rfl, rfl⟩
    · obtain ⟨i1, i2, i3, i4⟩ := ih (reads + 1)
        ({ (st.log (.loadFromFastCache p)).modify p c.loadFromFastCache with
            sNumFastCacheReads :=
              ((st.log (.loadFromFastCache p)).modify p c.loadFromFastCache).sNumFastCacheReads
                + 1 } : LLViewerTextureList)
      exact ⟨TraceExt_trans 0 0 0 0 _ _ _ hstep i1 (le_refl 0) (le_refl 0) (le_refl 0),
        SameRegistry_trans _ _ _ i2 ⟨rfl, rfl, rfl⟩, i3, i4⟩

theorem updateImagesLoadingFastCache_frame (c : Env) (st : LLViewerTextureList)
    (max_time : ℚ) (timer : Clock) :
    TraceExt 0 0 st (updateImagesLoadingFastCache c st max_time timer).1
      ∧ SameRegistry (updateImagesLoadingFastCache c st max_time timer).1 st
      ∧ (updateImagesLoadingFastCache c st max_time timer).1.mFastCacheList
          ⊆ st.mFastCacheList
      ∧ (updateImagesLoadingFastCache c st max_time timer).1.mNextPtr = st.mNextPtr := by
  unfold updateImagesLoadingFastCache
  split_ifs with h1 h2
  · exact ⟨TraceExt_refl 0 0 st, SameRegistry_refl st, Finset.Subset.refl _, rfl⟩
  · exact ⟨TraceExt_refl 0 0 st, SameRegistry_refl st, Finset.Subset.refl _, rfl⟩
  · obtain ⟨i1, i2, i3, i4⟩ := loadFastCacheEntries_frame c max_time timer
      (st.mFastCacheList.sort (· ≤ ·)) 0 st
    refine ⟨i1, i2, ?_, i4⟩
    show _ \ _ ⊆ _
    rw [i3]
    exact Finset.sdiff_subset

theorem updateImagesCreateTextures_frame (c : Env) (st : LLViewerTextureList) (max_time : ℚ)
    (timer : Clock) (r : LLViewerTextureList × ℚ)
    (h : updateImagesCreateTextures c st max_time timer = some r) :
    TraceExt 2 3 st r.1 ∧ SameRegistry r.1 st := by
  unfold updateImagesCreateTextures at h
  by_cases hd : st.mIsDisabled = true
  · rw [if_pos hd] at h
    simp only [Option.some.injEq] at h
    subst h
    exact ⟨TraceExt_refl 2 3 st, SameRegistry_refl st⟩
  · rw [if_neg hd] at h
    cases hl : createTexturesLoop c max_time timer st.mCreateTextureList.length 0 st with
    | none => simp [hl] at h
    | some r1 =>
      obtain ⟨st1, reads1⟩ := r1
      simp only [hl] at h
      obtain ⟨c1, c2⟩ := createTexturesLoop_frame c max_time timer _ _ _ _ _ hl
      cases hdr : drainDownScaleQueue c st1 max_time timer reads1 with
      | none => simp [hdr] at h
      | some r2 =>
        obtain ⟨st2, reads2⟩ := r2
        simp only [hdr, Option.some.injEq] at h
        subst h
        unfold drainDownScaleQueue at hdr
        split_ifs at hdr with hq
        · obtain ⟨d1, d2⟩ := downScaleLoop_frame c max_time timer _ _ _ _ _ _ hdr
          exact ⟨TraceExt_trans 2 2 3 3 _ _ _ c1 d1 (by decide) (by decide) (by decide),
            SameRegistry_trans _ _ _ d2 c2⟩
        · simp only [Option.some.injEq, Prod.mk.injEq] at hdr
          rw [← hdr.1]
          exact ⟨TraceExt_trans 2 2 3 3 _ _ _ c1 (TraceExt_refl 3 3 st1) (by decide) (by decide)
            (by decide), c2⟩

theorem foldl_modify_frame (f : LLViewerFetchedTexture → LLViewerFetchedTexture) :
    ∀ (l : List TexPtr) (st : LLViewerTextureList),
      (l.foldl (fun s imagep => s.modify imagep f) st).mTrace = st.mTrace
        ∧ SameRegistry (l.foldl (fun s imagep => s.modify imagep f) st) st := by
  intro l
  induction l with
  | nil => exact fun st => ⟨rfl, SameRegistry_refl st⟩
  | cons p rest ih =>
    intro st
    simp only [List.foldl_cons]
    exact ⟨(ih _).1, SameRegistry_trans _ _ _ (ih _).2 (SameRegistry_modify st p f)⟩

theorem doLoadedCallbacksAll_frame (c : Env) :
    ∀ (l : List TexPtr) (didone : Bool) (st : LLViewerTextureList),
      (doLoadedCallbacksAll c l didone st).mTrace = st.mTrace
        ∧ SameRegistry (doLoadedCallbacksAll c l didone st) st := by
  intro l
  induction l with
  | nil => exact fun _ st => ⟨rfl, SameRegistry_refl st⟩
  | cons p rest ih =>
    intro didone st
    unfold doLoadedCallbacksAll
    split_ifs
    · exact ⟨(ih _ _).1, SameRegistry_trans _ _ _ (ih _ _).2 (SameRegistry_modify st p _)⟩
    · exact ih _ _

theorem updateImagesUpdateStats_frame (c : Env) (st : LLViewerTextureList) :
    (updateImagesUpdateStats c st).mTrace = st.mTrace
      ∧ SameRegistry (updateImagesUpdateStats c st) st := by
  unfold updateImagesUpdateStats
  split_ifs
  · exact foldl_modify_frame c.resetTextureStats _ _
  · exact ⟨rfl, SameRegistry_refl st⟩

theorem clearFetchingRequests_frame (c : Env) (st : LLViewerTextureList) :
    (clearFetchingRequests c st).mTrace = st.mTrace
      ∧ SameRegistry (clearFetchingRequests c st) st := by
  unfold clearFetchingRequests
  split_ifs
  · exact ⟨rfl, SameRegistry_refl st⟩
  · exact foldl_modify_frame c.forceToDeleteRequest _ _

/-- The trace and the registry of a run of the three stages. -/
theorem runStages_spec (c : Env) (st st1 : LLViewerTextureList) (max_time : ℚ)
    (fast_timer fetch_timer create_timer : Clock)
    (h : runStages c st max_time fast_timer fetch_timer create_timer = some st1) :
    ∃ (used_fast used_fetch : ℚ) (A B C : List TraceEvent) (stIn stOut : LLViewerTextureList),
      st1.mTrace = st.mTrace ++ (TraceEvent.stageBegin .fastCache max_time :: A)
          ++ (TraceEvent.stageBegin .fetch (fetchBudget max_time used_fast) :: B)
          ++ (TraceEvent.stageBegin .create (createBudget max_time used_fast used_fetch) :: C)
        ∧ CallsOf 0 0 A ∧ CallsOf 1 1 B ∧ CallsOf 2 3 C
        ∧ SameRegistry stIn st
        ∧ updateImagesFetchTextures c stIn (fetchBudget max_time used_fast) fetch_timer
            = some (stOut, used_fetch)
        ∧ SameRegistry st1 stOut := by
  unfold runStages at h
  simp only at h
  obtain ⟨⟨A, a1, a2⟩, a3, _, _⟩ := updateImagesLoadingFastCache_frame c
    (st.log (.stageBegin .fastCache max_time)) max_time fast_timer
  generalize updateImagesLoadingFastCache c (st.log (.stageBegin .fastCache max_time))
    max_time fast_timer = r1 at h a1 a3
  cases hf : updateImagesFetchTextures c
      (r1.1.log (.stageBegin .fetch (fetchBudget max_time r1.2)))
      (fetchBudget max_time r1.2) fetch_timer with
  | none => simp [hf] at h
  | some r2 =>
    simp only [hf] at h
    obtain ⟨⟨B, b1, b2⟩, _⟩ := updateImagesFetchTextures_frame c _ _ _ r2 hf
    cases hc : updateImagesCreateTextures c
        (r2.1.log (.stageBegin .create (createBudget max_time r1.2 r2.2)))
        (createBudget max_time r1.2 r2.2) create_timer with
    | none => simp [hc] at h
    | some r3 =>
      simp only [hc, Option.some.injEq] at h
      obtain ⟨⟨C, c1, c2⟩, c3⟩ := updateImagesCreateTextures_frame c _ _ _ r3 hc
      obtain ⟨u1, u2⟩ := updateImagesUpdateStats_frame c
        (doLoadedCallbacksAll c (r3.1.mCallbackList.sort (· ≤ ·)) false r3.1)
      obtain ⟨d1, d2⟩ := doLoadedCallbacksAll_frame c (r3.1.mCallbackList.sort (· ≤ ·))
        false r3.1
      refine ⟨r1.2, r2.2, A, B, C, r1.1.log (.stageBegin .fetch (fetchBudget max_time r1.2)),
        r2.1, ?_, a2, b2, c2, SameRegistry_trans _ _ _ (SameRegistry_log _ _)
          (SameRegistry_trans _ _ _ a3 (SameRegistry_log _ _)), hf, ?_⟩
      · rw [← h, u1, d1, c1, log_mTrace, b1, log_mTrace, a1, log_mTrace]
        simp
      · rw [← h]
        exact SameRegistry_trans _ _ _ u2 (SameRegistry_trans _ _ _ d2
          (SameRegistry_trans _ _ _ c3 (SameRegistry_log _ _)))

theorem updateImages_eq_runStages (c : Env) (st : LLViewerTextureList) (max_time : ℚ)
    (fast_timer fetch_timer create_timer : Clock)
    (hrun : st.gTeleportDisplay = false
      ∨ (st.cleared = true ∧ st.teleportArriving = true)) :
    updateImages c st max_time fast_timer fetch_timer create_timer
      = runStages c (if st.gTeleportDisplay = true then st else { st with cleared := false })
          max_time fast_timer fetch_timer create_timer := by
  unfold updateImages
  rcases hrun with h | ⟨h1, h2⟩
  · simp [h]
  · simp [h1, h2]

theorem stageStart_frame (st : LLViewerTextureList) :
    (if st.gTeleportDisplay = true then st
        else ({ st with cleared := false } : LLViewerTextureList)).mTrace = st.mTrace
      ∧ SameRegistry (if st.gTeleportDisplay = true then st
        else ({ st with cleared := false } : LLViewerTextureList)) st := by
  split_ifs
  · exact ⟨rfl, SameRegistry_refl st⟩
  · exact ⟨rfl, ⟨rfl, rfl, rfl⟩⟩

theorem tickRegistry_run :
    (updateImages sampleEnv tickRegistry 1 slowClock slowClock slowClock).isSome = true := by
  decide!

/-! ## Lemmas on the fetch cursor -/

theorem SameIdentity_refl (t : LLViewerFetchedTexture) : SameIdentity t t :=
  ⟨rfl, rfl, rfl, rfl⟩

theorem SameIdentity_trans (t1 t2 t3 : LLViewerFetchedTexture)
    (h12 : SameIdentity t1 t2) (h23 : SameIdentity t2 t3) : SameIdentity t1 t3 :=
  ⟨h12.1.trans h23.1, h12.2.1.trans h23.2.1, h12.2.2.1.trans h23.2.2.1,
    h12.2.2.2.trans h23.2.2.2⟩

theorem addTextureStats_identity (c : Env) (t : LLViewerFetchedTexture) (v : ℚ) :
    SameIdentity (t.addTextureStats c v) t := by
  unfold LLViewerFetchedTexture.addTextureStats
  simp only
  split_ifs <;> exact ⟨rfl, rfl, rfl, rfl⟩

theorem updateFaceStats_identity (c : Env) (bias : ℚ) (t : LLViewerFetchedTexture) :
    SameIdentity (updateFaceStats c bias t) t := by
  unfold updateFaceStats
  split_ifs
  · refine SameIdentity_trans _ _ _ (addTextureStats_identity c _ _) ?_
    refine SameIdentity_trans _ (boostHeavilyUsed c (scanFaces c (discardBias c t bias) t)
      (setCloseToCamera (scanFaces c (discardBias c t bias) t) t)) _ ?_ ?_
    · unfold resetMaxVirtualSize
      simp only
      split_ifs <;> exact ⟨rfl, rfl, rfl, rfl⟩
    · unfold boostHeavilyUsed
      split_ifs <;> exact ⟨rfl, rfl, rfl, rfl⟩
  · exact SameIdentity_refl t

theorem updateSpotLights_identity (c : Env) (t : LLViewerFetchedTexture) :
    SameIdentity (updateSpotLights c t) t := by
  unfold updateSpotLights
  generalize t.mSpotLightPriority = l
  induction l generalizing t with
  | nil => exact SameIdentity_refl t
  | cons x rest ih =>
    simp only [List.foldl_cons]
    exact SameIdentity_trans _ _ _ (ih _) (addTextureStats_identity c t x)

theorem touchReferenced_identity (m : ℚ) (t : LLViewerFetchedTexture) :
    SameIdentity (touchReferenced m t) t := by
  unfold touchReferenced
  simp only
  split_ifs <;> exact ⟨rfl, rfl, rfl, rfl⟩

theorem finishDecodePriority_heap (c : Env) (st : LLViewerTextureList) (p : TexPtr)
    (hproc : ∀ t, SameIdentity (c.processTextureStats t) t) :
    (∀ q, q ≠ p → (finishDecodePriority c st p).mHeap q = st.mHeap q)
      ∧ SameIdentity ((finishDecodePriority c st p).mHeap p) (st.mHeap p) := by
  unfold finishDecodePriority
  split_ifs
  · exact ⟨fun _ _ => rfl, SameIdentity_refl _⟩
  · exact ⟨fun _ _ => rfl, SameIdentity_refl _⟩
  · refine ⟨fun q hq => modify_mHeap_other _ _ _ _ hq, ?_⟩
    rw [modify_mHeap_same]
    exact hproc _

/-- A texture held by more than three references comes out of
`updateImageDecodePriority` registered as before and with the same identity, and
no other texture is touched. -/
theorem updateImageDecodePriority_referenced (c : Env) (st : LLViewerTextureList)
    (p : TexPtr) (flush_images : Bool) (hcube : st.gCubeSnapshot = false)
    (hrefs : 3 < (st.mHeap p).mNumRefs)
    (hproc : ∀ t, SameIdentity (c.processTextureStats t) t) :
    ∃ st1, updateImageDecodePriority c st p flush_images = some st1
      ∧ SameRegistry st1 st ∧ SameControl st1 st
      ∧ (∀ q, q ≠ p → st1.mHeap q = st.mHeap q)
      ∧ SameIdentity (st1.mHeap p) (st.mHeap p) := by
  obtain ⟨_, _, _, _, h5, _⟩ := prepared_same c st p
  have hprep : SameIdentity
      ((st.modify p (fun t => updateSpotLights c
        (updateFaceStats c st.sDesiredDiscardBias t))).mHeap p) (st.mHeap p) := by
    rw [modify_mHeap_same]
    exact SameIdentity_trans _ _ _ (updateSpotLights_identity c _)
      (updateFaceStats_identity c _ _)
  have htouch : SameIdentity
      (((st.modify p (fun t => updateSpotLights c
        (updateFaceStats c st.sDesiredDiscardBias t))).modify p (touchReferenced 20)).mHeap p)
      (st.mHeap p) := by
    rw [modify_mHeap_same]
    exact SameIdentity_trans _ _ _ (touchReferenced_identity _ _) hprep
  have hother : ∀ q, q ≠ p →
      ((st.modify p (fun t => updateSpotLights c
        (updateFaceStats c st.sDesiredDiscardBias t))).modify p (touchReferenced 20)).mHeap q
        = st.mHeap q := by
    intro q hq
    rw [modify_mHeap_other _ _ _ _ hq, modify_mHeap_other _ _ _ _ hq]
  unfold updateImageDecodePriority
  simp only [hcube, Bool.false_eq_true, if_false, h5]
  rw [if_neg (fun h => absurd h.1 (not_le.2 hrefs))]
  split_ifs
  · exact ⟨_, rfl, ⟨rfl, rfl, rfl⟩,
      SameControl_trans _ _ _ (SameControl_modify _ p _) (SameControl_modify st p _),
      hother, htouch⟩
  · obtain ⟨f1, f2⟩ := finishDecodePriority_heap c
      ((st.modify p (fun t => updateSpotLights c
        (updateFaceStats c st.sDesiredDiscardBias t))).modify p (touchReferenced 20)) p hproc
    obtain ⟨g1, g2, g3⟩ := finishDecodePriority_frame c
      ((st.modify p (fun t => updateSpotLights c
        (updateFaceStats c st.sDesiredDiscardBias t))).modify p (touchReferenced 20)) p
    exact ⟨_, rfl, ⟨g1, g2, g3⟩,
      SameControl_trans _ _ _ (finishDecodePriority_quiet c _ p)
        (SameControl_trans _ _ _ (SameControl_modify _ p _) (SameControl_modify st p _)),
      fun q hq => (f1 q hq).trans (hother q hq), SameIdentity_trans _ _ _ f2 htouch⟩

/-- One turn of the update loop on a registered texture of a stable list: the
list stays stable, the cursor is the key of the texture and the trace grows by
the three calls on it. -/
theorem fetchEntry_stable (c : Env) (m : uuid_map_t) (st : LLViewerTextureList)
    (e : LLTextureKey × TexPtr) (hs : FetchStable m st) (he : e ∈ m)
    (hproc : ∀ t, SameIdentity (c.processTextureStats t) t)
    (hfetch : ∀ t, SameIdentity (c.updateFetch t) t) :
    ∃ st1, fetchEntry c st e.2 = some st1 ∧ FetchStable m st1
      ∧ st1.mLastUpdateKey = e.1
      ∧ st1.mTrace = st.mTrace ++ [TraceEvent.fetchVisit e.2,
          TraceEvent.updateImageDecodePriority e.2, TraceEvent.updateFetch e.2] := by
  obtain ⟨hk, _, hr⟩ := hs.live e he
  obtain ⟨v1, v2, v3, v4, v5, _⟩ := visit_frame st e.2
  obtain ⟨st2, u1, u2, u3, u4, u5⟩ := updateImageDecodePriority_referenced c
    ((st.visit e.2).log (.updateImageDecodePriority e.2)) e.2 true
    (by rw [log_gCubeSnapshot, v4]; exact hs.cube)
    (by rw [log_mHeap, v2]; exact hr) hproc
  rw [log_mHeap, v2] at u4 u5
  unfold fetchEntry
  rw [if_pos (by rw [v2]; omega)]
  simp only [u1]
  refine ⟨_, rfl, ⟨?_, ?_, ?_⟩, ?_, ?_⟩
  · rw [modify_mUUIDMap, log_mUUIDMap, u2.1, log_mUUIDMap, v3]
    exact hs.map
  · rw [modify_gCubeSnapshot, log_gCubeSnapshot, u3.cube, log_gCubeSnapshot, v4]
    exact hs.cube
  · intro e1 he1
    obtain ⟨k1, k2, k3⟩ := hs.live e1 he1
    by_cases hq : e1.2 = e.2
    · rw [hq, modify_mHeap_same]
      obtain ⟨i1, i2, i3, i4⟩ := SameIdentity_trans _ _ _ (hfetch _) u5
      rw [hq] at k1 k2 k3
      refine ⟨?_, ?_, ?_⟩
      · rw [← k1]
        unfold LLViewerFetchedTexture.key
        rw [log_mHeap, i1, i2]
      · rw [log_mHeap, i4]
        exact k2
      · rw [log_mHeap, i3]
        exact k3
    · rw [modify_mHeap_other _ _ _ _ hq, log_mHeap, u4 _ hq]
      exact ⟨k1, k2, k3⟩
  · rw [modify_mLastUpdateKey, log_mLastUpdateKey, u3.cursor, log_mLastUpdateKey, v5]
    exact hk
  · rw [modify_mTrace, log_mTrace, u3.trace, log_mTrace, v1]
    simp

/-- One turn of the update loop on a registered texture of a stable list takes
the branch of a texture with more than one reference: the cursor assignment is
followed by `updateImageDecodePriority`, which returns, and by `updateFetch`. -/
theorem fetchEntry_calls (c : Env) (m : uuid_map_t) (st : LLViewerTextureList)
    (e : LLTextureKey × TexPtr) (hs : FetchStable m st) (he : e ∈ m)
    (hproc : ∀ t, SameIdentity (c.processTextureStats t) t) :
    ∃ st2, updateImageDecodePriority c
          ((st.visit e.2).log (.updateImageDecodePriority e.2)) e.2 true = some st2
      ∧ fetchEntry c st e.2
          = some ((st2.log (.updateFetch e.2)).modify e.2 c.updateFetch) := by
  obtain ⟨_, _, hr⟩ := hs.live e he
  obtain ⟨_, v2, _, v4, _, _⟩ := visit_frame st e.2
  obtain ⟨st2, u1, _, _, _, _⟩ := updateImageDecodePriority_referenced c
    ((st.visit e.2).log (.updateImageDecodePriority e.2)) e.2 true
    (by rw [log_gCubeSnapshot, v4]; exact hs.cube)
    (by rw [log_mHeap, v2]; exact hr) hproc
  refine ⟨st2, u1, ?_⟩
  unfold fetchEntry
  rw [if_pos (by rw [v2]; omega)]
  simp only [u1]

theorem take_succ_mem_rotate {α : Type} (L : List α) (k T : Nat) (hk : 1 ≤ k)
    (hkl : k ≤ L.length) (e : α) (he : e ∈ L.take (T + 1)) :
    e ∈ L.take k ∨ e ∈ (L.rotate k).take T := by
  by_cases hkt : k ≤ T + 1
  · have hsplit : T + 1 = k + (T + 1 - k) := by omega
    rw [hsplit, List.take_add, List.mem_append] at he
    rcases he with he | he
    · exact Or.inl he
    · right
      rw [List.rotate_eq_drop_append_take hkl, List.take_append_eq_append_take,
        List.mem_append]
      exact Or.inl (List.take_subset_take_left _ (by omega) he)
  · exact Or.inl (List.take_subset_take_left _ (by omega) he)

theorem rotate_succ_mod {α : Type} (m : List α) (a : Nat) :
    m.rotate (a % m.length + 1) = m.rotate (a + 1) := by
  rw [← List.rotate_rotate, List.rotate_mod, List.rotate_rotate]

theorem uuid_map_upper_bound_le (m : uuid_map_t) (key : LLTextureKey) :
    uuid_map_upper_bound m key ≤ m.length := by
  induction m with
  | nil => exact le_refl 0
  | cons x rest ih =>
    obtain ⟨k, p⟩ := x
    unfold uuid_map_upper_bound
    split_ifs
    · exact Nat.zero_le _
    · simp only [List.length_cons]
      omega

theorem uuid_map_upper_bound_zero (m : uuid_map_t) (key : LLTextureKey)
    (h : ∀ e ∈ m, key.lt e.1 = true) : uuid_map_upper_bound m key = 0 := by
  cases m with
  | nil => rfl
  | cons x rest =>
    obtain ⟨k, p⟩ := x
    unfold uuid_map_upper_bound
    rw [if_pos (h (k, p) (List.mem_cons_self _ _))]

/-- In a sorted map, `upper_bound` of the key of an entry is the position after
that entry. -/
theorem uuid_map_upper_bound_getElem (m : uuid_map_t) (hs : uuid_map_sorted m) :
    ∀ (j : Nat) (hj : j < m.length), uuid_map_upper_bound m (m[j]).1 = j + 1 := by
  induction m with
  | nil => intro j hj; simp at hj
  | cons x rest ih =>
    obtain ⟨k, p⟩ := x
    unfold uuid_map_sorted at hs ih
    rw [List.pairwise_cons] at hs
    intro j hj
    cases j with
    | zero =>
      simp only [List.getElem_cons_zero]
      unfold uuid_map_upper_bound
      have hirr : k.lt k = false := by
        cases h : k.lt k
        · rfl
        · rw [LLTextureKey.lt_iff_rank] at h
          exact absurd h (lt_irrefl _)
      rw [hirr]
      simp only [Bool.false_eq_true, if_false]
      rw [uuid_map_upper_bound_zero rest k (fun e he => hs.1 e he)]
    | succ j =>
      simp only [List.getElem_cons_succ]
      have hj1 : j < rest.length := by simpa using hj
      have hlt := hs.1 rest[j] (List.getElem_mem _)
      have hnot : (rest[j]).1.lt k = false := by
        cases h : (rest[j]).1.lt k
        · rfl
        · rw [LLTextureKey.lt_iff_rank] at h hlt
          exact absurd h (lt_asymm hlt)
      unfold uuid_map_upper_bound
      rw [hnot]
      simp only [Bool.false_eq_true, if_false]
      rw [ih hs.2 j hj1]

/-- The copy loop takes the next `update_count` entries of the map in cyclic
order, when every texture has a GL image object. -/
theorem copyEntries_rotate (st : LLViewerTextureList)
    (hgl : ∀ e ∈ st.mUUIDMap, (st.mHeap e.2).mGLTexturep.isSome = true) :
    ∀ (update_count iter : Nat) (entries : List TexPtr),
      update_count ≤ st.mUUIDMap.length → iter ≤ st.mUUIDMap.length →
      copyEntries st update_count iter entries
        = some (entries ++ ((st.mUUIDMap.rotate iter).take update_count).map Prod.snd) := by
  intro update_count
  induction update_count with
  | zero =>
    intro iter entries _ _
    simp [copyEntries]
  | succ N ih =>
    intro iter entries hN hiter
    have hlt : (if iter = st.mUUIDMap.length then 0 else iter) < st.mUUIDMap.length := by
      split_ifs with h
      · omega
      · omega
    have hrot : st.mUUIDMap.rotate iter
        = st.mUUIDMap.rotate (if iter = st.mUUIDMap.length then 0 else iter) := by
      split_ifs with h
      · rw [h, List.rotate_length, List.rotate_zero]
      · rfl
    unfold copyEntries
    simp only
    generalize (if iter = st.mUUIDMap.length then 0 else iter) = iter1 at hlt hrot ⊢
    have hhead := List.head?_rotate hlt
    rw [List.getElem?_eq_getElem hlt] at hhead
    have hlen : (st.mUUIDMap.rotate iter1).length = st.mUUIDMap.length :=
      List.length_rotate _ _
    have hnext : st.mUUIDMap.rotate (iter1 + 1) = (st.mUUIDMap.rotate iter1).rotate 1 := by
      rw [List.rotate_rotate]
    simp only [List.getElem?_eq_getElem hlt, List.get_eq_getElem]
    rw [if_pos (hgl _ (List.getElem_mem hlt)), ih (iter1 + 1) _ (by omega) (by omega), hrot,
      hnext]
    cases hL : st.mUUIDMap.rotate iter1 with
    | nil =>
      rw [hL] at hlen
      simp only [List.length_nil] at hlen
      omega
    | cons a L1 =>
      rw [hL] at hhead hlen
      simp only [List.head?_cons, Option.some.injEq] at hhead
      simp only [List.length_cons] at hlen
      rw [List.rotate_cons_succ, List.rotate_zero, List.take_append_of_le_length (by omega),
        List.take_succ_cons, List.map_cons, hhead]
      simp

theorem floorLog2Loop_eq_log2 (fuel n : Nat) (h : n ≤ fuel) :
    floorLog2Loop fuel n = Nat.log2 n := by
  induction fuel generalizing n with
  | zero =>
    have h0 : n = 0 := by omega
    subst h0
    simp [floorLog2Loop, Nat.log2]
  | succ k ih =>
    rw [floorLog2Loop, Nat.log2]
    by_cases h2 : n < 2
    · rw [if_pos h2, if_neg (by omega)]
    · rw [if_neg h2, if_pos (by omega), ih _ (by omega)]

theorem floorLog2_eq_log2 (n : Nat) : floorLog2 n = Nat.log2 n :=
  floorLog2Loop_eq_log2 n n (le_refl n)

theorem roundHalfEven_ge_floor (x : ℚ) : ⌊x⌋ ≤ roundHalfEven x := by
  unfold roundHalfEven
  split_ifs <;> omega

theorem F32_round_nonneg (x : ℚ) (h : 0 ≤ x) : 0 ≤ F32_round x := by
  unfold F32_round
  by_cases h0 : x = 0
  · rw [if_pos h0]
  · rw [if_neg h0, if_neg (not_lt.2 h), one_mul]
    have hu : (0 : ℚ) < 2 ^ (binaryExponent |x| - 23) := zpow_pos (by norm_num) _
    have hq : (0 : ℚ) ≤ |x| / 2 ^ (binaryExponent |x| - 23) := div_nonneg (abs_nonneg x) hu.le
    have hf : (0 : Int) ≤ roundHalfEven (|x| / 2 ^ (binaryExponent |x| - 23)) :=
      le_trans (Int.floor_nonneg.2 hq) (roundHalfEven_ge_floor _)
    exact mul_nonneg (by exact_mod_cast hf) hu.le

/-- Rounding to `F32` does not take a number from 1 on below 1. -/
theorem F32_round_one_le (x : ℚ) (h : 1 ≤ x) : 1 ≤ F32_round x := by
  have hx0 : x ≠ 0 := by linarith
  have hpos : (0 : ℚ) ≤ x := by linarith
  have hfl : ⌊x⌋₊ ≠ 0 := Nat.pos_iff_ne_zero.1 (Nat.floor_pos.2 h)
  have hP : ((2 ^ Nat.log2 ⌊x⌋₊ : Nat) : ℚ) ≤ x :=
    le_trans (by exact_mod_cast Nat.log2_self_le hfl) (Nat.floor_le hpos)
  have hP1 : (1 : ℚ) ≤ ((2 ^ Nat.log2 ⌊x⌋₊ : Nat) : ℚ) := by
    exact_mod_cast Nat.one_le_two_pow
  have hu : (2 : ℚ) ^ ((Nat.log2 ⌊x⌋₊ : Int) - 23)
      = ((2 ^ Nat.log2 ⌊x⌋₊ : Nat) : ℚ) / 8388608 := by
    rw [zpow_sub₀ (by norm_num), zpow_natCast]
    norm_num
  unfold F32_round
  rw [if_neg hx0, if_neg (not_lt.2 hpos), one_mul, abs_of_nonneg hpos]
  unfold binaryExponent
  rw [if_pos h, floorLog2_eq_log2, hu]
  generalize ((2 ^ Nat.log2 ⌊x⌋₊ : Nat) : ℚ) = P at hP hP1 ⊢
  have hPpos : (0 : ℚ) < P := by linarith
  have hy : ((8388608 : Int) : ℚ) ≤ x / (P / 8388608) := by
    rw [le_div_iff₀ (by positivity)]
    push_cast
    linarith
  have hr : (8388608 : Int) ≤ roundHalfEven (x / (P / 8388608)) :=
    le_trans (Int.le_floor.2 hy) (roundHalfEven_ge_floor _)
  have hr1 : (8388608 : ℚ) ≤ (roundHalfEven (x / (P / 8388608)) : ℚ) := by exact_mod_cast hr
  have hmul : (8388608 : ℚ) * (P / 8388608)
      ≤ (roundHalfEven (x / (P / 8388608)) : ℚ) * (P / 8388608) :=
    mul_le_mul_of_nonneg_right hr1 (by positivity)
  have e : (8388608 : ℚ) * (P / 8388608) = P := by field_simp
  linarith

theorem F32_mul_one_le (n : Nat) (b : ℚ) (hn : 1 ≤ n) (hb : 1 < b) :
    1 ≤ F32_mul (F32_of_U32 n) b := by
  unfold F32_mul F32_of_U32
  have h1 : (1 : ℚ) ≤ F32_round (n : ℚ) := F32_round_one_le _ (by exact_mod_cast hn)
  exact F32_round_one_le _ (by nlinarith)

theorem F32_mul_nonneg (n : Nat) (b : ℚ) (hb : 0 ≤ b) : 0 ≤ F32_mul (F32_of_U32 n) b := by
  unfold F32_mul F32_of_U32
  exact F32_round_nonneg _ (mul_nonneg (F32_round_nonneg _ (Nat.cast_nonneg n)) hb)

theorem S32_of_F32_pos (x : ℚ) (h : 1 ≤ x) : 1 ≤ S32_of_F32 x := by
  have hd : (0 : ℚ) < x.den := by exact_mod_cast x.den_pos
  have h2 : (1 : ℚ) ≤ (x.num : ℚ) / x.den := by rw [Rat.num_div_den]; exact h
  rw [le_div_iff₀ hd] at h2
  have h3 : (x.den : Int) ≤ x.num := by exact_mod_cast (by linarith : (x.den : ℚ) ≤ x.num)
  have hdpos : (0 : Int) < x.den := by exact_mod_cast x.den_pos
  unfold S32_of_F32
  rw [Int.tdiv_eq_ediv (by omega) (by omega)]
  exact Int.le_ediv_of_mul_le hdpos (by omega)

/-- The number of entries a call looks at is at least one and at most the size
of the map, when the map is not empty and the minimum count is positive. -/
theorem fetchUpdateCount_bounds (c : Env) (st : LLViewerTextureList)
    (hne : 1 ≤ st.mUUIDMap.length) (hsz : st.mUUIDMap.length < 4294967296)
    (hmin : 0 < c.MIN_UPDATE_COUNT ∧ c.MIN_UPDATE_COUNT < 4294967296) :
    1 ≤ (fetchUpdateCount c st).1 ∧ (fetchUpdateCount c st).1 ≤ st.mUUIDMap.length := by
  have hu : 1 ≤ U32_of_S32 c.MIN_UPDATE_COUNT := by
    unfold U32_of_S32
    rw [Int.emod_eq_of_lt (by omega) hmin.2]
    omega
  have hcount : 1 ≤ max (U32_of_S32 c.MIN_UPDATE_COUNT) (st.mUUIDMap.length / 20) :=
    le_trans hu (le_max_left _ _)
  unfold fetchUpdateCount
  simp only
  rw [Nat.mod_eq_of_lt hsz]
  split_ifs with hb
  · refine ⟨le_min ?_ hne, min_le_right _ _⟩
    have := S32_of_F32_pos _ (F32_mul_one_le _ _ hcount hb.1)
    omega
  · exact ⟨le_min hcount hne, min_le_right _ _⟩

theorem FetchServed_self (p : TexPtr) :
    FetchServed [TraceEvent.fetchVisit p, TraceEvent.updateImageDecodePriority p,
      TraceEvent.updateFetch p] p :=
  List.infix_refl _

theorem FetchServed_left (ev1 ev2 : List TraceEvent) (p : TexPtr) (h : FetchServed ev1 p) :
    FetchServed (ev1 ++ ev2) p :=
  List.IsInfix.trans h (List.prefix_append ev1 ev2).isInfix

theorem FetchServed_right (ev1 ev2 : List TraceEvent) (p : TexPtr) (h : FetchServed ev2 p) :
    FetchServed (ev1 ++ ev2) p :=
  List.IsInfix.trans h (List.suffix_append ev1 ev2).isInfix

/-- The update loop on registered textures of a stable list: it returns, the
list stays stable, the loop handles a front part of the entries that is not
empty unless there is no entry, and it leaves the cursor on the key of the last
entry handled. -/
theorem fetchEntries_stable (c : Env) (m : uuid_map_t) (max_time : ℚ) (timer : Clock)
    (hproc : ∀ t, SameIdentity (c.processTextureStats t) t)
    (hfetch : ∀ t, SameIdentity (c.updateFetch t) t) :
    ∀ (es : List (LLTextureKey × TexPtr)) (reads : Nat) (st : LLViewerTextureList),
      (∀ e ∈ es, e ∈ m) → FetchStable m st →
      ∃ st1 reads1 k,
        fetchEntries c max_time timer (es.map Prod.snd) reads st = some (st1, reads1)
          ∧ FetchStable m st1 ∧ k ≤ es.length ∧ (es ≠ [] → 1 ≤ k)
          ∧ (∃ ev, st1.mTrace = st.mTrace ++ ev
              ∧ ∀ e ∈ es.take k, FetchServed ev e.2)
          ∧ (∀ e, 1 ≤ k → es[k - 1]? = some e → st1.mLastUpdateKey = e.1)
          ∧ (k = 0 → st1.mLastUpdateKey = st.mLastUpdateKey) := by
  intro es
  induction es with
  | nil =>
    intro reads st _ hs
    exact ⟨st, reads, 0, rfl, hs, le_refl _, fun h => absurd rfl h, ⟨[], by simp, by simp⟩,
      fun _ h => absurd h (by omega), fun _ => rfl⟩
  | cons e rest ih =>
    intro reads st hmem hs
    obtain ⟨st2, f1, f2, f3, f4⟩ := fetchEntry_stable c m st e hs
      (hmem e (List.mem_cons_self _ _)) hproc hfetch
    simp only [List.map_cons]
    unfold fetchEntries
    simp only [f1]
    by_cases ht : timer reads > max_time
    · rw [if_pos ht]
      refine ⟨st2, reads + 1, 1, rfl, f2, by simp, fun _ => le_refl 1, ⟨_, f4, ?_⟩, ?_, ?_⟩
      · intro e1 he1
        simp only [List.take_succ_cons, List.take_zero, List.mem_singleton] at he1
        subst he1
        exact FetchServed_self _
      · intro e1 _ he1
        simp only [Nat.sub_self, List.getElem?_cons_zero, Option.some.injEq] at he1
        rw [← he1]
        exact f3
      · intro h0
        omega
    · rw [if_neg ht]
      obtain ⟨st1, reads1, k, g1, g2, g3, g4, ⟨ev, g5, g6⟩, g7, g8⟩ :=
        ih (reads + 1) st2 (fun e1 he1 => hmem e1 (List.mem_cons_of_mem _ he1)) f2
      refine ⟨st1, reads1, k + 1, g1, g2, by simp only [List.length_cons]; omega,
        fun _ => by omega, ⟨_, by rw [g5, f4, List.append_assoc], ?_⟩, ?_, ?_⟩
      · intro e1 he1
        rw [List.take_succ_cons, List.mem_cons] at he1
        rcases he1 with he1 | he1
        · subst he1
          exact FetchServed_left _ _ _ (FetchServed_self _)
        · exact FetchServed_right _ _ _ (g6 e1 he1)
      · intro e1 _ he1
        simp only [Nat.add_sub_cancel] at he1
        cases k with
        | zero =>
          simp only [List.getElem?_cons_zero, Option.some.injEq] at he1
          rw [g8 rfl, ← he1]
          exact f3
        | succ k1 =>
          simp only [List.getElem?_cons_succ] at he1
          exact g7 e1 (by omega) (by simpa using he1)
      · intro h0
        omega

/-- One call of `updateImagesFetchTextures` on a stable list: it returns, the
list stays stable, it visits the next `k >= 1` entries of the map after the
cursor in cyclic order, and the next call starts `k` positions further. -/
theorem updateImagesFetchTextures_stable (c : Env) (m : uuid_map_t)
    (st : LLViewerTextureList) (max_time : ℚ) (timer : Clock)
    (hsorted : uuid_map_sorted m) (hne : 1 ≤ m.length) (hsz : m.length < 4294967296)
    (hs : FetchStable m st)
    (hmin : 0 < c.MIN_UPDATE_COUNT ∧ c.MIN_UPDATE_COUNT < 4294967296)
    (hproc : ∀ t, SameIdentity (c.processTextureStats t) t)
    (hfetch : ∀ t, SameIdentity (c.updateFetch t) t) :
    ∃ r k, updateImagesFetchTextures c st max_time timer = some r
      ∧ FetchStable m r.1 ∧ 1 ≤ k ∧ k ≤ m.length
      ∧ (∃ ev, r.1.mTrace = st.mTrace ++ ev
          ∧ ∀ e ∈ (m.rotate (uuid_map_upper_bound m st.mLastUpdateKey)).take k,
              FetchServed ev e.2)
      ∧ m.rotate (uuid_map_upper_bound m r.1.mLastUpdateKey)
          = (m.rotate (uuid_map_upper_bound m st.mLastUpdateKey)).rotate k := by
  have hmap := hs.map
  have hcount := fetchUpdateCount_bounds c st (by rw [hmap]; exact hne)
    (by rw [hmap]; exact hsz) hmin
  rw [hmap] at hcount
  have hsel : fetchSelection c st
      = some (((m.rotate (uuid_map_upper_bound m st.mLastUpdateKey)).take
          (fetchUpdateCount c st).1).map Prod.snd) := by
    unfold fetchSelection
    rw [copyEntries_rotate st (by rw [hmap]; exact fun e he => (hs.live e he).2.1) _ _ _
      (by rw [hmap]; exact hcount.2) (by rw [hmap]; exact uuid_map_upper_bound_le _ _), hmap]
    simp
  have hlenrot : (m.rotate (uuid_map_upper_bound m st.mLastUpdateKey)).length = m.length :=
    List.length_rotate _ _
  have hs1 : FetchStable m
      ({ st with sBiasTexturesUpdated := (fetchUpdateCount c st).2 } : LLViewerTextureList) :=
    ⟨hs.map, hs.cube, hs.live⟩
  obtain ⟨st1, reads1, k, g1, g2, g3, g4, ⟨ev, g5, g6⟩, g7, _⟩ :=
    fetchEntries_stable c m max_time timer hproc hfetch
      ((m.rotate (uuid_map_upper_bound m st.mLastUpdateKey)).take (fetchUpdateCount c st).1) 0
      _ (fun e he => List.mem_rotate.1 (List.mem_of_mem_take he)) hs1
  have hlen : ((m.rotate (uuid_map_upper_bound m st.mLastUpdateKey)).take
      (fetchUpdateCount c st).1).length = (fetchUpdateCount c st).1 := by
    rw [List.length_take, hlenrot]
    exact min_eq_left hcount.2
  rw [hlen] at g3
  have hk1 : 1 ≤ k := g4 (by
    intro h
    rw [h] at hlen
    simp only [List.length_nil] at hlen
    omega)
  have hkm : k ≤ m.length := le_trans g3 hcount.2
  refine ⟨(st1, timer reads1), k, ?_, g2, hk1, hkm, ⟨ev, g5, ?_⟩, ?_⟩
  · unfold updateImagesFetchTextures
    simp only [hsel, g1]
  · intro e he
    apply g6
    rw [List.take_take, min_eq_left g3]
    exact he
  · have hidx : k - 1 < (m.rotate (uuid_map_upper_bound m st.mLastUpdateKey)).length := by
      rw [hlenrot]
      omega
    have hget : ((m.rotate (uuid_map_upper_bound m st.mLastUpdateKey)).take
        (fetchUpdateCount c st).1)[k - 1]?
          = some ((m.rotate (uuid_map_upper_bound m st.mLastUpdateKey))[k - 1]) := by
      rw [List.getElem?_take, if_pos (by omega), List.getElem?_eq_getElem hidx]
    have hcur := g7 _ hk1 hget
    rw [List.getElem_rotate] at hcur
    show m.rotate (uuid_map_upper_bound m st1.mLastUpdateKey) = _
    rw [hcur, uuid_map_upper_bound_getElem m hsorted _ (Nat.mod_lt _ (by omega)),
      rotate_succ_mod, List.rotate_rotate]
    congr 1
    omega

/-- Successive calls on a stable list: after `T` calls the first `T` entries of
the map after the cursor, in cyclic order, have been visited. -/
theorem fetchTicks_stable (c : Env) (m : uuid_map_t) (hsorted : uuid_map_sorted m)
    (hne : 1 ≤ m.length) (hsz : m.length < 4294967296)
    (hmin : 0 < c.MIN_UPDATE_COUNT ∧ c.MIN_UPDATE_COUNT < 4294967296)
    (hproc : ∀ t, SameIdentity (c.processTextureStats t) t)
    (hfetch : ∀ t, SameIdentity (c.updateFetch t) t) :
    ∀ (ticks : List (ℚ × Clock)) (st : LLViewerTextureList), FetchStable m st →
      ∃ st1, fetchTicks c st ticks = some st1 ∧ FetchStable m st1
        ∧ ∃ ev, st1.mTrace = st.mTrace ++ ev
          ∧ ∀ e ∈ (m.rotate (uuid_map_upper_bound m st.mLastUpdateKey)).take ticks.length,
              FetchServed ev e.2 := by
  intro ticks
  induction ticks with
  | nil =>
    intro st hs
    exact ⟨st, rfl, hs, [], by simp, by simp⟩
  | cons tick rest ih =>
    intro st hs
    obtain ⟨r, k, t1, t2, t3, t4, ⟨ev1, t5, t6⟩, t7⟩ :=
      updateImagesFetchTextures_stable c m st tick.1 tick.2 hsorted hne hsz hs hmin hproc
        hfetch
    obtain ⟨st1, i1, i2, ev2, i3, i4⟩ := ih r.1 t2
    refine ⟨st1, ?_, i2, ev1 ++ ev2, by rw [i3, t5, List.append_assoc], ?_⟩
    · unfold fetchTicks
      simp only [t1]
      exact i1
    · intro e he
      simp only [List.length_cons] at he
      rcases take_succ_mem_rotate _ k rest.length t3
          (by rw [List.length_rotate]; exact t4) e he with h | h
      · exact FetchServed_left _ _ _ (t6 e h)
      · rw [← t7] at h
        exact FetchServed_right _ _ _ (i4 e h)

theorem FetchStable_of_WF (st : LLViewerTextureList) (hwf : RegistryWF st)
    (hcube : st.gCubeSnapshot = false)
    (hlive : ∀ p ∈ st.mImageList,
      (st.mHeap p).mGLTexturep.isSome = true ∧ 3 < (st.mHeap p).mNumRefs) :
    FetchStable st.mUUIDMap st := by
  refine ⟨rfl, hcube, fun e he => ?_⟩
  obtain ⟨k, p⟩ := e
  obtain ⟨h1, h2⟩ := hwf.map_sound k p (uuid_map_find_of_mem _ hwf.sorted k p he)
  exact ⟨h2, hlive p h1⟩

theorem busyRegistry0_run : runCalls sampleEnv emptyList busyCalls = some busyRegistry0 := by
  have hs : (runCalls sampleEnv emptyList busyCalls).isSome = true := by decide
  unfold busyRegistry0
  cases h : runCalls sampleEnv emptyList busyCalls with
  | none => simp [h] at hs
  | some x => rfl

theorem busyRegistry_wf : RegistryWF busyRegistry :=
  RegistryWF_modify _ _ _
    (RegistryWF_modify _ _ _
      (RegistryWF_modify _ _ _
        (RegistryWF_runCalls _ _ _ _ RegistryWF_emptyList busyRegistry0_run)
        (fun _ => ⟨rfl, rfl, rfl⟩))
      (fun _ => ⟨rfl, rfl, rfl⟩))
    (fun _ => ⟨rfl, rfl, rfl⟩)

/-! ## Lemmas on the fast cache list -/

theorem FastCacheStep_refl (st : LLViewerTextureList) : FastCacheStep st st :=
  ⟨le_refl _, fun _ hp => Or.inl hp⟩

theorem FastCacheStep_of_eq (st st1 : LLViewerTextureList)
    (hfast : st1.mFastCacheList = st.mFastCacheList) (hnext : st.mNextPtr ≤ st1.mNextPtr) :
    FastCacheStep st st1 :=
  ⟨hnext, fun _ hp => Or.inl (hfast ▸ hp)⟩

theorem FastCacheStep_trans (st st1 st2 : LLViewerTextureList) (h1 : FastCacheStep st st1)
    (h2 : FastCacheStep st1 st2) : FastCacheStep st st2 := by
  refine ⟨le_trans h1.1 h2.1, fun p hp => ?_⟩
  rcases h2.2 p hp with h | h
  · exact h1.2 p h
  · exact Or.inr (le_trans h1.1 h)

/-- The fast cache list after `createImage`: the new object enters it exactly
when the fast cache is enabled and the texture is not sculpted. -/
theorem createImage_fastCache (c : Env) (st st1 : LLViewerTextureList) (image_id : LLUUID)
    (f_type : Int) (usemipmaps : Bool) (boost_priority texture_type : Int)
    (internal_format primary_format : Int) (host : LLHost) (p : TexPtr)
    (h : createImage c st image_id f_type usemipmaps boost_priority texture_type
      internal_format primary_format host = some (st1, p)) :
    p = st.mNextPtr ∧ st1.mNextPtr = st.mNextPtr + 1
      ∧ st1.mFastCacheList
        = if c.fast_cache_fetching_enabled = true ∧ boost_priority ≠ c.BOOST_SCULPTED then
            insert p st.mFastCacheList
          else st.mFastCacheList := by
  have hspec := createImage_spec c st st1 image_id f_type usemipmaps boost_priority
    texture_type internal_format primary_format host p h
  refine ⟨hspec.1, hspec.2.2.2.2.2.2.1, ?_⟩
  unfold createImage at h
  by_cases hty : texture_type ≠ FETCHED_TEXTURE ∧ texture_type ≠ LOD_TEXTURE
  · rw [if_pos hty] at h
    exact absurd h (by simp)
  · rw [if_neg hty] at h
    simp only at h
    split at h
    · exact absurd h (by simp)
    · rename_i st2 hadd
      have hn := newImage_frame c image_id f_type usemipmaps boost_priority texture_type
        internal_format primary_format host
      have hs := alloc_addImage_spec _ _ _ _ hn.2 hadd
      obtain ⟨_, _, _, _, _, _, _, h8, _⟩ := hs
      simp only [Option.some.injEq, Prod.mk.injEq] at h
      obtain ⟨hst, hpp⟩ := h
      subst hpp
      subst hst
      by_cases hfc : c.fast_cache_fetching_enabled = true ∧ boost_priority ≠ c.BOOST_SCULPTED
      · rw [if_pos hfc, if_pos hfc]
        simp [insertFastCache, h8]
      · rw [if_neg hfc, if_neg hfc]
        simp [h8]

theorem getImageNonNull_fastStep (c : Env) (st st1 : LLViewerTextureList)
    (image_id : LLUUID) (f_type : Int) (usemipmaps : Bool)
    (boost_priority texture_type : Int) (internal_format primary_format : Int)
    (host : LLHost) (r : Option TexPtr)
    (h : getImageNonNull c st image_id f_type usemipmaps boost_priority texture_type
      internal_format primary_format host = some (st1, r)) :
    FastCacheStep st st1 := by
  unfold getImageNonNull at h
  split at h
  · simp only [Option.some.injEq, Prod.mk.injEq] at h
    rw [← h.1]
    exact FastCacheStep_of_eq _ _ rfl (le_refl _)
  · split at h
    · exact absurd h (by simp)
    · rename_i hnone st2 p hcreate
      obtain ⟨k1, k2, k3⟩ := createImage_fastCache _ _ _ _ _ _ _ _ _ _ _ _ hcreate
      simp only [Option.some.injEq, Prod.mk.injEq] at h
      rw [← h.1]
      refine ⟨by rw [modify_mNextPtr, k2]; exact Nat.le_succ _, fun q hq => ?_⟩
      rw [modify_mFastCacheList, k3] at hq
      split_ifs at hq
      · rcases Finset.mem_insert.1 hq with hq | hq
        · exact Or.inr (by rw [hq, k1])
        · exact Or.inl hq
      · exact Or.inl hq

theorem getImageFromUrl_fastStep (c : Env) (st st1 : LLViewerTextureList)
    (url : String) (f_type : Int) (usemipmaps : Bool)
    (boost_priority texture_type : Int) (internal_format primary_format : Int)
    (force_id : LLUUID) (r : Option TexPtr)
    (h : getImageFromUrl c st url f_type usemipmaps boost_priority texture_type
      internal_format primary_format force_id = some (st1, r)) :
    FastCacheStep st st1 := by
  unfold getImageFromUrl at h
  by_cases hi : st.mInitialized = true
  · simp only [hi, Bool.not_true, Bool.false_eq_true, if_false] at h
    split at h
    · simp only [Option.some.injEq, Prod.mk.injEq] at h
      rw [← h.1]
      exact FastCacheStep_of_eq _ _ rfl (le_refl _)
    · by_cases hty : texture_type ≠ FETCHED_TEXTURE ∧ texture_type ≠ LOD_TEXTURE
      · rw [if_pos hty] at h
        exact absurd h (by simp)
      · rw [if_neg hty] at h
        split at h
        · exact absurd h (by simp)
        · rename_i st2 hadd
          have hn := newImageFromUrl_frame url
            (if force_id ≠ 0 then force_id else c.generate url) f_type usemipmaps texture_type
            internal_format primary_format
          have hs := alloc_addImage_spec _ _ _ _ hn.2 hadd
          obtain ⟨_, _, _, _, _, h6, _, h8, _⟩ := hs
          simp only [Option.some.injEq, Prod.mk.injEq] at h
          rw [← h.1]
          exact FastCacheStep_of_eq _ _ (by simp [h8]) (by simp [h6])
  · simp only [hi, Bool.not_false, if_true, Option.some.injEq, Prod.mk.injEq] at h
    rw [← h.1]
    exact FastCacheStep_refl st

theorem FastCacheCall_apply_fastStep (c : Env) (st st1 : LLViewerTextureList)
    (call : FastCacheCall) (h : call.apply c st = some st1) : FastCacheStep st st1 := by
  cases call with
  | registry rc =>
    cases rc with
    | getImage image_id f_type usemipmaps boost_priority texture_type internal_format
        primary_format host =>
      simp only [FastCacheCall.apply, RegistryCall.apply] at h
      cases hget : getImage c st image_id f_type usemipmaps boost_priority texture_type
          internal_format primary_format host with
      | none => simp [hget] at h
      | some x =>
        obtain ⟨st2, r⟩ := x
        simp only [hget, Option.map_some', Option.some.injEq] at h
        subst h
        unfold getImage at hget
        split_ifs at hget with h1 h2 h3
        · simp only [Option.some.injEq, Prod.mk.injEq] at hget
          rw [← hget.1]
          exact FastCacheStep_refl st
        · exact getImageNonNull_fastStep _ _ _ _ _ _ _ _ _ _ _ _ hget
        · exact getImageNonNull_fastStep _ _ _ _ _ _ _ _ _ _ _ _ hget
    | getImageFromUrl url f_type usemipmaps boost_priority texture_type internal_format
        primary_format force_id =>
      simp only [FastCacheCall.apply, RegistryCall.apply] at h
      cases hget : getImageFromUrl c st url f_type usemipmaps boost_priority texture_type
          internal_format primary_format force_id with
      | none => simp [hget] at h
      | some x =>
        obtain ⟨st2, r⟩ := x
        simp only [hget, Option.map_some', Option.some.injEq] at h
        subst h
        exact getImageFromUrl_fastStep _ _ _ _ _ _ _ _ _ _ _ _ hget
    | deleteImage image =>
      simp only [FastCacheCall.apply, RegistryCall.apply] at h
      have hq := deleteImage_quiet _ _ _ h
      exact FastCacheStep_of_eq _ _ hq.fast (le_of_eq hq.next.symm)
  | drain max_time timer =>
    simp only [FastCacheCall.apply, Option.some.injEq] at h
    subst h
    obtain ⟨_, _, f3, f4⟩ := updateImagesLoadingFastCache_frame c st max_time timer
    exact ⟨le_of_eq f4.symm, fun p hp => Or.inl (f3 hp)⟩

theorem runFastCacheCalls_fastStep (c : Env) :
    ∀ (calls : List FastCacheCall) (st st1 : LLViewerTextureList),
      runFastCacheCalls c st calls = some st1 → FastCacheStep st st1 := by
  intro calls
  induction calls with
  | nil =>
    intro st st1 h
    simp only [runFastCacheCalls, Option.some.injEq] at h
    subst h
    exact FastCacheStep_refl st
  | cons call rest ih =>
    intro st st1 h
    unfold runFastCacheCalls at h
    cases hc : call.apply c st with
    | none => simp [hc] at h
    | some st2 =>
      simp only [hc] at h
      exact FastCacheStep_trans _ _ _ (FastCacheCall_apply_fastStep c st st2 call hc) (ih _ _ h)

theorem laterCalls_run :
    (runFastCacheCalls sampleEnv drainedRegistry laterCalls).isSome = true := by
  decide!

/-- On a list without registered textures a call of `updateImagesFetchTextures`
returns and leaves the map and the trace as they are. -/
theorem updateImagesFetchTextures_empty (c : Env) (st : LLViewerTextureList) (max_time : ℚ)
    (timer : Clock) (hnil : st.mUUIDMap = []) :
    ∃ r, updateImagesFetchTextures c st max_time timer = some r ∧ r.1.mUUIDMap = []
      ∧ r.1.mTrace = st.mTrace := by
  have hcount : (fetchUpdateCount c st).1 = 0 := by
    unfold fetchUpdateCount
    simp only [hnil, List.length_nil]
    split_ifs <;> simp
  refine ⟨({ st with sBiasTexturesUpdated := (fetchUpdateCount c st).2 }, timer 0), ?_, hnil,
    rfl⟩
  unfold updateImagesFetchTextures fetchSelection
  rw [hcount]
  simp [copyEntries, fetchEntries]

theorem fetchTicks_empty (c : Env) :
    ∀ (ticks : List (ℚ × Clock)) (st : LLViewerTextureList), st.mUUIDMap = [] →
      ∃ st1, fetchTicks c st ticks = some st1 ∧ st1.mUUIDMap = [] ∧ st1.mTrace = st.mTrace := by
  intro ticks
  induction ticks with
  | nil => exact fun st h => ⟨st, rfl, h, rfl⟩
  | cons tick rest ih =>
    intro st h
    obtain ⟨r, r1, r2, r3⟩ := updateImagesFetchTextures_empty c st tick.1 tick.2 h
    obtain ⟨st1, i1, i2, i3⟩ := ih r.1 r2
    refine ⟨st1, ?_, i2, i3.trans r3⟩
    unfold fetchTicks
    simp only [r1]
    exact i1

/-! ## Lemmas on the texture scale -/

theorem scanFace_textureScale (c : Env) (bias : ℚ) (hpm : Bool) (s u : ℚ) (acc : FaceScan)
    (face : Option LLFace) :
    scanFace c bias hpm acc (face.map (fun f => { f with mScaleS := s, mScaleT := u }))
      = scanFace c bias hpm acc face := by
  cases face with
  | none => rfl
  | some f => rfl

theorem selectVSize_congr (c : Env) (bias : ℚ) (scan : FaceScan)
    (t1 t2 : LLViewerFetchedTexture) (h1 : t1.mType = t2.mType)
    (h2 : t1.mDiscardLevel = t2.mDiscardLevel) (h3 : t1.mBoostLevel = t2.mBoostLevel) :
    selectVSize c bias scan t1 = selectVSize c bias scan t2 := by
  unfold selectVSize
  rw [h1, h2, h3]

theorem scanFaces_withTextureScale (c : Env) (bias : ℚ) (t : LLViewerFetchedTexture)
    (s u : ℚ) : scanFaces c bias (t.withTextureScale s u) = scanFaces c bias t := by
  unfold scanFaces LLViewerFetchedTexture.withTextureScale
  simp only [List.foldl_map, scanFace_textureScale]

/-! ## Lemmas on heavily used textures and on the saved raw image -/

theorem foldl_scanValidFace_count (c : Env) (bias : ℚ) (hpm : Bool) (l : List LLFace)
    (acc : FaceScan) :
    (l.foldl (scanValidFace c bias hpm) acc).face_count = acc.face_count + l.length := by
  induction l generalizing acc with
  | nil => simp
  | cons x rest ih =>
    simp only [List.foldl_cons, List.length_cons]
    rw [ih]
    show acc.face_count + 1 + rest.length = acc.face_count + (rest.length + 1)
    omega

theorem scanFaces_face_count (c : Env) (bias : ℚ) (t : LLViewerFetchedTexture) :
    (scanFaces c bias t).face_count = (validFaces t).length := by
  rw [scanFaces_eq, foldl_scanValidFace_count]
  exact Nat.zero_add _

theorem addTextureStats_boost (c : Env) (t : LLViewerFetchedTexture) (v : ℚ) :
    (t.addTextureStats c v).mBoostLevel = t.mBoostLevel := by
  unfold LLViewerFetchedTexture.addTextureStats
  simp only
  split_ifs <;> rfl

theorem selectVSize_boosted (c : Env) (bias : ℚ) (scan : FaceScan)
    (t : LLViewerFetchedTexture) (h : t.mBoostLevel ≥ c.BOOST_HIGH) :
    selectVSize c bias scan t = scan.max_on_screen_vsize := by
  unfold selectVSize
  simp only
  split_ifs with h1 h2
  · rfl
  · rfl
  · exact absurd (Or.inl h) h2

theorem resetMaxVirtualSize_of_boosted (c : Env) (bias : ℚ) (scan : FaceScan)
    (t : LLViewerFetchedTexture) (h : t.mBoostLevel ≠ c.BOOST_NONE) :
    resetMaxVirtualSize c bias scan t = t := by
  unfold resetMaxVirtualSize
  simp only
  rw [if_neg (fun hh => h hh.2)]

theorem SameSavedRaw_refl (t : LLViewerFetchedTexture) : SameSavedRaw t t := ⟨rfl, rfl⟩

theorem SameSavedRaw_trans (t1 t2 t3 : LLViewerFetchedTexture) (h12 : SameSavedRaw t1 t2)
    (h23 : SameSavedRaw t2 t3) : SameSavedRaw t1 t3 :=
  ⟨h12.1.trans h23.1, h12.2.trans h23.2⟩

theorem addTextureStats_savedRaw (c : Env) (t : LLViewerFetchedTexture) (v : ℚ) :
    SameSavedRaw (t.addTextureStats c v) t := by
  unfold LLViewerFetchedTexture.addTextureStats
  simp only
  split_ifs <;> exact ⟨rfl, rfl⟩

theorem updateFaceStats_savedRaw (c : Env) (bias : ℚ) (t : LLViewerFetchedTexture) :
    SameSavedRaw (updateFaceStats c bias t) t := by
  unfold updateFaceStats
  split_ifs
  · refine SameSavedRaw_trans _ _ _ (addTextureStats_savedRaw c _ _) ?_
    refine SameSavedRaw_trans _ (boostHeavilyUsed c (scanFaces c (discardBias c t bias) t)
      (setCloseToCamera (scanFaces c (discardBias c t bias) t) t)) _ ?_ ?_
    · unfold resetMaxVirtualSize
      simp only
      split_ifs <;> exact ⟨rfl, rfl⟩
    · unfold boostHeavilyUsed
      split_ifs <;> exact ⟨rfl, rfl⟩
  · exact SameSavedRaw_refl t

theorem updateSpotLights_savedRaw (c : Env) (t : LLViewerFetchedTexture) :
    SameSavedRaw (updateSpotLights c t) t := by
  unfold updateSpotLights
  generalize t.mSpotLightPriority = l
  induction l generalizing t with
  | nil => exact SameSavedRaw_refl t
  | cons x rest ih =>
    simp only [List.foldl_cons]
    exact SameSavedRaw_trans _ _ _ (ih _) (addTextureStats_savedRaw c t x)

theorem prepared_savedRaw (c : Env) (st : LLViewerTextureList) (p : TexPtr) :
    SameSavedRaw
      ((st.modify p (fun t => updateSpotLights c
        (updateFaceStats c st.sDesiredDiscardBias t))).mHeap p) (st.mHeap p) := by
  rw [modify_mHeap_same]
  exact SameSavedRaw_trans _ _ _ (updateSpotLights_savedRaw c _) (updateFaceStats_savedRaw c _ _)

theorem touchReferenced_savedRaw (m : ℚ) (t : LLViewerFetchedTexture) :
    (touchReferenced m t).mHasSavedRawImage
      = (t.mHasSavedRawImage && decide (t.mSavedRawElapsed ≤ m)) := by
  unfold touchReferenced
  simp only
  by_cases h1 : t.mHasSavedRawImage = true
  · by_cases h2 : t.mSavedRawElapsed > m
    · rw [if_pos ⟨h1, h2⟩]
      simp [not_le.2 h2]
    · rw [if_neg (fun h => h2 h.2)]
      simp [h1, not_lt.1 h2]
  · rw [if_neg (fun h => h1 h.1)]
    simp [h1]

theorem finishDecodePriority_savedRaw (c : Env) (st : LLViewerTextureList) (p : TexPtr)
    (hproc : ∀ t, (c.processTextureStats t).mHasSavedRawImage = t.mHasSavedRawImage) :
    ((finishDecodePriority c st p).mHeap p).mHasSavedRawImage
      = (st.mHeap p).mHasSavedRawImage := by
  unfold finishDecodePriority
  split_ifs
  · rfl
  · rfl
  · rw [modify_mHeap_same, hproc]

/-- The first block of the update on a texture below `BOOST_HIGH` with more than
1024 valid faces. -/
theorem updateFaceStats_crowded (c : Env) (bias : ℚ)
    (t : LLViewerFetchedTexture) (hrun : t.mBoostLevel < c.BOOST_HIGH)
    (hmany : 1024 < (validFaces t).length) :
    (scanFaces c (discardBias c t bias) t).face_count = (validFaces t).length
      ∧ (∀ f ∈ validFaces t,
          boostedVSize c f ≤ (scanFaces c (discardBias c t bias) t).max_on_screen_vsize)
      ∧ ((scanFaces c (discardBias c t bias) t).max_on_screen_vsize = 0
          ∨ ∃ f ∈ validFaces t,
              (scanFaces c (discardBias c t bias) t).max_on_screen_vsize = boostedVSize c f)
      ∧ fedVirtualSize c bias t = (scanFaces c (discardBias c t bias) t).max_on_screen_vsize
      ∧ updateFaceStats c bias t
          = (preparedForStats c bias t).addTextureStats c
              (scanFaces c (discardBias c t bias) t).max_on_screen_vsize
      ∧ (updateFaceStats c bias t).mBoostLevel = c.BOOST_HIGH
      ∧ updateFaceStats c bias (updateFaceStats c bias t) = updateFaceStats c bias t := by
  have hcount := scanFaces_face_count c (discardBias c t bias) t
  have hbig : (scanFaces c (discardBias c t bias) t).face_count > 1024
      ∨ (scanFaces c (discardBias c t bias) t).animated ≠ 0 := Or.inl (by rw [hcount]; exact hmany)
  have hprep : (preparedForStats c bias t).mBoostLevel = c.BOOST_HIGH :=
    (preparedForStats_fields c bias t).2.2.1 hbig
  have hfed : fedVirtualSize c bias t
      = (scanFaces c (discardBias c t bias) t).max_on_screen_vsize :=
    selectVSize_boosted c bias _ _ (ge_of_eq hprep)
  have hupd := updateFaceStats_eq c bias t hrun
  have hboost : (updateFaceStats c bias t).mBoostLevel = c.BOOST_HIGH := by
    rw [hupd, addTextureStats_boost, hprep]
  refine ⟨hcount, ?_, ?_, hfed, ?_, hboost, ?_⟩
  · intro f hf
    rw [scanFaces_eq]
    exact (foldl_scanValidFace_upper c _ _ _ _).2 f hf
  · rw [scanFaces_eq]
    exact foldl_scanValidFace_attained c _ _ _ _
  · rw [hupd, hfed]
  · generalize updateFaceStats c bias t = t1 at hboost
    unfold updateFaceStats
    rw [if_neg (by rw [hboost]; exact lt_irrefl _)]

theorem filterMap_replicate_some {α β : Type} (g : α → Option β) (a : α) (b : β)
    (h : g a = some b) (n : Nat) :
    (List.replicate n a).filterMap g = List.replicate n b := by
  induction n with
  | zero => rfl
  | succ k ih => rw [List.replicate_succ, List.filterMap_cons_some h, ih, List.replicate_succ]

theorem validFaces_crowdedTexture (last : ℚ) :
    validFaces (crowdedTexture last)
      = List.replicate 1024 { mVSize := 100, mInFrustum := true }
          ++ [{ mVSize := last, mInFrustum := true }] := by
  unfold validFaces crowdedTexture
  simp only [List.flatten_cons, List.flatten_nil, List.append_nil, List.filterMap_append]
  have h := filterMap_replicate_some
    (fun face : Option LLFace =>
      match face with
      | none => none
      | some f => if f.hasViewerObject then some f else none)
    (some { mVSize := 100, mInFrustum := true }) { mVSize := 100, mInFrustum := true } rfl 1024
  rw [h]
  rfl

theorem validFaces_crowdedTexture_length (last : ℚ) :
    (validFaces (crowdedTexture last)).length = 1025 := by
  rw [validFaces_crowdedTexture, List.length_append, List.length_replicate]
  rfl

/-- What the update stores for the sample texture on 1025 faces: the footprint of
its last face, when that is at least the footprint 100 of the other faces. -/
theorem crowdedTexture_stored (last : ℚ) (h1 : 100 ≤ last) (h2 : last ≤ 67108864) :
    (updateFaceStats sampleEnv 1 (crowdedTexture last)).mMaxVirtualSize = last := by
  have hrun : (crowdedTexture last).mBoostLevel < sampleEnv.BOOST_HIGH := by
    show (0 : Int) < 10
    decide
  have hmany : 1024 < (validFaces (crowdedTexture last)).length := by
    rw [validFaces_crowdedTexture_length]
    decide
  obtain ⟨_, hup, hatt, _, hupd, _, _⟩ :=
    updateFaceStats_crowded sampleEnv 1 (crowdedTexture last) hrun hmany
  have hscan : (scanFaces sampleEnv (discardBias sampleEnv (crowdedTexture last) 1)
      (crowdedTexture last)).max_on_screen_vsize = last := by
    have hlast : boostedVSize sampleEnv { mVSize := last, mInFrustum := true } = last := by
      simp [boostedVSize]
    have hhundred : boostedVSize sampleEnv { mVSize := 100, mInFrustum := true } = 100 := by
      simp [boostedVSize]
    have hge := hup { mVSize := last, mInFrustum := true }
      (by rw [validFaces_crowdedTexture]
          exact List.mem_append.2 (Or.inr (List.mem_singleton.2 rfl)))
    rw [hlast] at hge
    rcases hatt with h0 | ⟨f, hf, hM⟩
    · rw [h0] at hge
      linarith
    · rw [validFaces_crowdedTexture, List.mem_append, List.mem_replicate,
        List.mem_singleton] at hf
      rcases hf with ⟨_, hf⟩ | hf
      · rw [hf, hhundred] at hM
        rw [hM] at hge ⊢
        linarith
      · rw [hf, hlast] at hM
        exact hM
  have hbig : (scanFaces sampleEnv (discardBias sampleEnv (crowdedTexture last) 1)
        (crowdedTexture last)).face_count > 1024
      ∨ (scanFaces sampleEnv (discardBias sampleEnv (crowdedTexture last) 1)
        (crowdedTexture last)).animated ≠ 0 := by
    left
    rw [scanFaces_face_count]
    exact hmany
  have hprep : (preparedForStats sampleEnv 1 (crowdedTexture last)).mMaxVirtualSize = 0 := by
    unfold preparedForStats
    have hb := boostHeavilyUsed_fields sampleEnv
      (scanFaces sampleEnv (discardBias sampleEnv (crowdedTexture last) 1) (crowdedTexture last))
      (setCloseToCamera
        (scanFaces sampleEnv (discardBias sampleEnv (crowdedTexture last) 1)
          (crowdedTexture last)) (crowdedTexture last))
    rw [resetMaxVirtualSize_of_boosted _ _ _ _ (by rw [hb.2.2.2.1 hbig]; decide), hb.2.2.1]
    rfl
  rw [hupd, hscan]
  unfold LLViewerFetchedTexture.addTextureStats
  simp only
  rw [hprep, min_eq_left (show last ≤ sampleEnv.sMaxVirtualSize from h2),
    if_pos (show last > 0 by linarith)]

/-! ## Lemmas on the scale-down request of the create loop -/

/-- What `scaleDown` does to a texture with a GL image: the texture is flagged,
and it is appended to the downscale queue unless it was flagged already. -/
theorem scaleDown_queue (st : LLViewerTextureList) (p : TexPtr)
    (hgl : (st.mHeap p).hasGLTexture = true) :
    ((st.scaleDown p).mHeap p).mDownScalePending = true
      ∧ (st.scaleDown p).mDownScaleQueue
          = if (st.mHeap p).mDownScalePending = true then st.mDownScaleQueue
            else st.mDownScaleQueue ++ [p] := by
  unfold scaleDown
  by_cases hp : (st.mHeap p).mDownScalePending = false
  · rw [if_pos ⟨hgl, hp⟩, if_neg (by simp [hp])]
    refine ⟨?_, rfl⟩
    rw [pushDownScale_mHeap, modify_mHeap_same]
  · have hp1 : (st.mHeap p).mDownScalePending = true := by simpa using hp
    rw [if_neg (fun h => hp h.2), if_pos hp1]
    exact ⟨hp1, rfl⟩

theorem needsScaleDown_iff (c : Env) (t : LLViewerFetchedTexture) :
    needsScaleDown c t = true ↔
      (t.hasGLTexture = true ∧ t.mDiscardLevel < t.mDesiredDiscardLevel
        ∧ t.mDesiredDiscardLevel ≤ c.MAX_DISCARD_LEVEL ∧ t.mBoostLevel = c.BOOST_NONE
        ∧ t.mType = LOD_TEXTURE ∧ t.mHasParcelMedia = false
        ∧ t.mIsViewerMediaTexture = false) := by
  unfold needsScaleDown
  simp only [Bool.and_eq_true, decide_eq_true_eq, Bool.not_eq_true', and_assoc]

/-! ## Lemmas on the selection of the fetch stage -/

theorem S32_of_F32_floor (x : ℚ) (h : 0 ≤ x) : (S32_of_F32 x).toNat = ⌊x⌋₊ := by
  have hd : (0 : Int) ≤ x.den := Int.natCast_nonneg _
  unfold S32_of_F32
  rw [Int.tdiv_eq_ediv (Rat.num_nonneg.2 h) hd, ← Rat.floor_def']
  exact Int.floor_toNat x

theorem fetchUpdateCount_le (c : Env) (st : LLViewerTextureList) :
    (fetchUpdateCount c st).1 ≤ st.mUUIDMap.length := by
  unfold fetchUpdateCount
  simp only
  split_ifs
  · exact le_trans (min_le_right _ _) (Nat.mod_le _ _)
  · exact le_trans (min_le_right _ _) (Nat.mod_le _ _)

/-- The count of the code is the count of the amended wording, when the setting
is in the range of a `U32`, the map has fewer than `2 ^ 31` entries and the
product fits an `S32`. -/
theorem fetchUpdateCount_eq_rounded (c : Env) (st : LLViewerTextureList)
    (hmin : 0 ≤ c.MIN_UPDATE_COUNT) (hmax : c.MIN_UPDATE_COUNT < 4294967296)
    (hsz : st.mUUIDMap.length < 2147483648)
    (hprod : F32_mul (F32_of_U32 (max c.MIN_UPDATE_COUNT.toNat (st.mUUIDMap.length / 20)))
      st.sDesiredDiscardBias < 2147483648) :
    fetchUpdateCount c st
      = selectionCountRounded c.MIN_UPDATE_COUNT.toNat st.mUUIDMap.length
          st.sDesiredDiscardBias st.sBiasTexturesUpdated := by
  have hu : U32_of_S32 c.MIN_UPDATE_COUNT = c.MIN_UPDATE_COUNT.toNat := by
    unfold U32_of_S32
    rw [Int.emod_eq_of_lt hmin hmax]
  unfold fetchUpdateCount selectionCountRounded
  simp only
  rw [hu, Nat.mod_eq_of_lt (by omega : st.mUUIDMap.length < 4294967296)]
  by_cases hb : st.sDesiredDiscardBias > 1 ∧ st.sBiasTexturesUpdated < st.mUUIDMap.length
  · have hnn := F32_mul_nonneg (max c.MIN_UPDATE_COUNT.toNat (st.mUUIDMap.length / 20))
      st.sDesiredDiscardBias (by linarith [hb.1])
    have hfl : ⌊F32_mul (F32_of_U32 (max c.MIN_UPDATE_COUNT.toNat (st.mUUIDMap.length / 20)))
        st.sDesiredDiscardBias⌋₊ < 2147483648 :=
      (Nat.floor_lt hnn).2 (by exact_mod_cast hprod)
    rw [if_pos hb, if_pos hb, S32_of_F32_floor _ hnn, Nat.min_comm,
      Nat.mod_eq_of_lt (by omega)]
  · rw [if_neg hb, if_neg hb, Nat.min_comm]

/-- The copy loop walks over the next `update_count` entries of the map in cyclic
order and keeps those that have a GL image object; it never reads the entry at
`end()`. -/
theorem copyEntries_filter (st : LLViewerTextureList) :
    ∀ (update_count iter : Nat) (entries : List TexPtr),
      update_count ≤ st.mUUIDMap.length → iter ≤ st.mUUIDMap.length →
      copyEntries st update_count iter entries
        = some (entries ++ (((st.mUUIDMap.rotate iter).take update_count).filter
            (fun e => (st.mHeap e.2).mGLTexturep.isSome)).map Prod.snd) := by
  intro update_count
  induction update_count with
  | zero =>
    intro iter entries _ _
    simp [copyEntries]
  | succ N ih =>
    intro iter entries hN hiter
    have hlt : (if iter = st.mUUIDMap.length then 0 else iter) < st.mUUIDMap.length := by
      split_ifs with h
      · omega
      · omega
    have hrot : st.mUUIDMap.rotate iter
        = st.mUUIDMap.rotate (if iter = st.mUUIDMap.length then 0 else iter) := by
      split_ifs with h
      · rw [h, List.rotate_length, List.rotate_zero]
      · rfl
    unfold copyEntries
    simp only
    generalize (if iter = st.mUUIDMap.length then 0 else iter) = iter1 at hlt hrot ⊢
    have hhead := List.head?_rotate hlt
    rw [List.getElem?_eq_getElem hlt] at hhead
    have hlen : (st.mUUIDMap.rotate iter1).length = st.mUUIDMap.length :=
      List.length_rotate _ _
    have hnext : st.mUUIDMap.rotate (iter1 + 1) = (st.mUUIDMap.rotate iter1).rotate 1 := by
      rw [List.rotate_rotate]
    simp only [List.getElem?_eq_getElem hlt, List.get_eq_getElem]
    rw [ih (iter1 + 1) _ (by omega) (by omega), hrot, hnext]
    cases hL : st.mUUIDMap.rotate iter1 with
    | nil =>
      rw [hL] at hlen
      simp only [List.length_nil] at hlen
      omega
    | cons a L1 =>
      rw [hL] at hhead hlen
      simp only [List.head?_cons, Option.some.injEq] at hhead
      simp only [List.length_cons] at hlen
      rw [List.rotate_cons_succ, List.rotate_zero, List.take_append_of_le_length (by omega),
        List.take_succ_cons, hhead]
      by_cases hp : (st.mHeap (st.mUUIDMap[iter1]).2).mGLTexturep.isSome = true
      · simp [hp, List.filter_cons]
      · simp [hp, List.filter_cons]

theorem fetchSelection_spec (c : Env) (st : LLViewerTextureList) :
    fetchSelection c st
      = some ((((st.mUUIDMap.rotate (uuid_map_upper_bound st.mUUIDMap st.mLastUpdateKey)).take
          (fetchUpdateCount c st).1).filter
            (fun e => (st.mHeap e.2).mGLTexturep.isSome)).map Prod.snd) := by
  unfold fetchSelection
  rw [copyEntries_filter st _ _ [] (fetchUpdateCount_le c st) (uuid_map_upper_bound_le _ _)]
  rfl

/-! ## Lemmas on the drain of the fast cache list -/

/-- The loop over the fast cache list loads a front part of the entries, at least
one when there is one, and stops before the end only when the timer is past the
budget. -/
theorem loadFastCacheEntries_spec (c : Env) (max_time : ℚ) (timer : Clock) :
    ∀ (images : List TexPtr) (reads : Nat) (st : LLViewerTextureList),
      ∃ k, k ≤ images.length ∧ (images ≠ [] → 1 ≤ k)
        ∧ (loadFastCacheEntries c max_time timer images reads st).2 = reads + k
        ∧ (loadFastCacheEntries c max_time timer images reads st).1.mTrace
            = st.mTrace ++ (images.take k).map TraceEvent.loadFromFastCache
        ∧ (loadFastCacheEntries c max_time timer images reads st).1.sNumFastCacheReads
            = st.sNumFastCacheReads + k
        ∧ (∀ j, k = j + 1 → k < images.length → timer (reads + j) > max_time) := by
  intro images
  induction images with
  | nil =>
    intro reads st
    exact ⟨0, le_refl 0, fun h => absurd rfl h, rfl, by simp [loadFastCacheEntries], rfl,
      fun j hj => by omega⟩
  | cons p rest ih =>
    intro reads st
    unfold loadFastCacheEntries
    simp only
    split_ifs with ht
    · refine ⟨1, by simp, fun _ => le_refl 1, rfl, rfl, rfl, fun j hj _ => ?_⟩
      have hj0 : j = 0 := by omega
      rw [hj0]
      exact ht
    · obtain ⟨k, k1, k2, k3, k4, k5, k6⟩ := ih (reads + 1)
        ({ (st.log (.loadFromFastCache p)).modify p c.loadFromFastCache with
            sNumFastCacheReads :=
              ((st.log (.loadFromFastCache p)).modify p c.loadFromFastCache).sNumFastCacheReads
                + 1 } : LLViewerTextureList)
      refine ⟨k + 1, by simp only [List.length_cons]; omega, fun _ => by omega, ?_, ?_, ?_, ?_⟩
      · rw [k3]
        omega
      · rw [k4, List.take_succ_cons, List.map_cons]
        show (st.mTrace ++ [TraceEvent.loadFromFastCache p]) ++ _ = _
        rw [List.append_assoc]
        rfl
      · rw [k5]
        show st.sNumFastCacheReads + 1 + k = st.sNumFastCacheReads + (k + 1)
        omega
      · intro j hj hlt
        simp only [List.length_cons] at hlt
        have hk : k < rest.length := by omega
        have hpos : 1 ≤ k := k2 (fun h => by rw [h] at hk; simp at hk)
        have h := k6 (k - 1) (by omega) hk
        have hidx : reads + 1 + (k - 1) = reads + j := by omega
        rw [hidx] at h
        exact h

/-! ## Claims -/

/-- C1: in an initialised list, for a non-null id and two sets of creation
parameters whose boost priorities select the same list type, a `getImage` call
that follows a successful `getImage` call for the same id returns the very same
texture object, whatever host, fetch type, class and formats the second call
asks for, and it leaves the UUID map, the image list, the image count and the
allocation pointer as they were: nothing is created or registered. -/
theorem getImage_twice_same_instance (c : Env) (st st1 : LLViewerTextureList)
    (image_id : LLUUID) (f_type1 f_type2 : Int) (usemipmaps1 usemipmaps2 : Bool)
    (boost1 boost2 texture_type1 texture_type2 : Int)
    (internal1 internal2 primary1 primary2 : Int) (host1 host2 : LLHost)
    (r : Option TexPtr)
    (hinit : st.mInitialized = true) (hid : image_id ≠ 0)
    (hkind : get_element_type c boost1 = get_element_type c boost2)
    (hfirst : getImage c st image_id f_type1 usemipmaps1 boost1 texture_type1 internal1
      primary1 host1 = some (st1, r)) :
    ∃ p st2, r = some p
      ∧ getImage c st1 image_id f_type2 usemipmaps2 boost2 texture_type2 internal2
          primary2 host2 = some (st2, some p)
      ∧ st2.mUUIDMap = st1.mUUIDMap ∧ st2.mImageList = st1.mImageList
      ∧ st2.sNumImages = st1.sNumImages ∧ st2.mNextPtr = st1.mNextPtr := by
  unfold getImage at hfirst
  simp only [hinit, Bool.not_true, Bool.false_eq_true, if_false, hid] at hfirst
  obtain ⟨p, hr, hinit1, hfind⟩ := getImageNonNull_spec _ _ _ _ _ _ _ _ _ _ _ _ hinit hfirst
  rw [hkind] at hfind
  refine ⟨p, st1.modify p (fun t => { t with mGLTextureCreated := true }), hr, ?_,
    rfl, rfl, rfl, rfl⟩
  unfold getImage
  simp only [hinit1, Bool.not_true, Bool.false_eq_true, if_false, hid]
  exact getImageNonNull_found _ _ _ _ _ _ _ _ _ _ _ hfind

/-- C1, instance: with the sample environment, texture 5 is created in the empty
list as a plain fetched texture and then asked for again as a LOD texture from a
host, with another fetch type and explicit formats. -/
theorem getImage_twice_same_instance_witness :
    ∃ st1 r, getImage sampleEnv emptyList 5 0 true 0 FETCHED_TEXTURE 0 0 {} = some (st1, r)
      ∧ ∃ p st2, r = some p
        ∧ getImage sampleEnv st1 5 2 false 10 LOD_TEXTURE 6 7 ⟨9, 80⟩ = some (st2, some p)
        ∧ st2.mUUIDMap = st1.mUUIDMap ∧ st2.mImageList = st1.mImageList
        ∧ st2.sNumImages = st1.sNumImages ∧ st2.mNextPtr = st1.mNextPtr :=
  have hs : (getImage sampleEnv emptyList 5 0 true 0 FETCHED_TEXTURE 0 0 {}).isSome = true :=
    by rfl
  have h1 : getImage sampleEnv emptyList 5 0 true 0 FETCHED_TEXTURE 0 0 {}
      = some (((getImage sampleEnv emptyList 5 0 true 0 FETCHED_TEXTURE 0 0 {}).get hs).1,
          ((getImage sampleEnv emptyList 5 0 true 0 FETCHED_TEXTURE 0 0 {}).get hs).2) :=
    by simp
  ⟨_, _, h1, getImage_twice_same_instance sampleEnv emptyList _ 5 0 2 true false 0 10
    FETCHED_TEXTURE LOD_TEXTURE 0 6 0 7 {} ⟨9, 80⟩ _ (by rfl) (by decide) (by decide) h1⟩

/-- C2: starting from the initialised empty list, after every sequence of
`getImage`, `getImageFromUrl` and `deleteImage` calls (none of which trips a
contract check of the code) the registry invariant holds: the image list and the
UUID map hold the same textures, each stored under the key made of its own id
and list type, there is one texture per key, and `sNumImages` is the number of
map entries. -/
theorem registry_invariant_after_calls (c : Env) (calls : List RegistryCall)
    (st : LLViewerTextureList) (h : runCalls c emptyList calls = some st) :
    RegistryInvariant st :=
  RegistryInvariant_of_WF st (RegistryWF_runCalls c calls emptyList st
    LLViewerTextureList.RegistryWF_emptyList h)

/-- C2, instance: the sample sequence runs to the end and leaves a list that
satisfies the registry invariant. -/
theorem registry_invariant_after_calls_witness :
    ∃ st, runCalls sampleEnv emptyList sampleCalls = some st ∧ RegistryInvariant st :=
  have hs : (runCalls sampleEnv emptyList sampleCalls).isSome = true := by decide
  have h1 : runCalls sampleEnv emptyList sampleCalls
      = some ((runCalls sampleEnv emptyList sampleCalls).get hs) := by simp
  ⟨_, h1, registry_invariant_after_calls sampleEnv sampleCalls _ h1⟩

/-- C3: for a texture `p` registered in a well-formed, initialised list whose
callback list holds only textures that have callbacks, `deleteImage(p)` succeeds
and erases `p` from all indexes: `findImage` of its id and list type returns
null, `p` is neither in the image list nor in the callback list; every other
key of the UUID map, in particular the same id under the other list type, every
other member of the image list and of the callback list, and every other
texture object are as before. -/
theorem deleteImage_erases_from_all_indexes (st : LLViewerTextureList) (p : TexPtr)
    (hinit : st.mInitialized = true) (hw : RegistryWF st) (hreg : p ∈ st.mImageList)
    (hcb : p ∈ st.mCallbackList → (st.mHeap p).mHasCallbacks = true) :
    ∃ st1, st.deleteImage (some p) = some st1
      ∧ st1.findImage (st.mHeap p).mID (st.mHeap p).mTextureListType = none
      ∧ p ∉ st1.mImageList ∧ p ∉ st1.mCallbackList
      ∧ (∀ k, k ≠ (st.mHeap p).key → st1.findImageKey k = st.findImageKey k)
      ∧ (∀ kind, kind ≠ (st.mHeap p).mTextureListType →
          st1.findImage (st.mHeap p).mID kind = st.findImage (st.mHeap p).mID kind)
      ∧ (∀ q, q ≠ p → ((q ∈ st1.mImageList ↔ q ∈ st.mImageList)
          ∧ (q ∈ st1.mCallbackList ↔ q ∈ st.mCallbackList)
          ∧ st1.mHeap q = st.mHeap q)) := by
  obtain ⟨st1, h1, h2, h3, h4, h5, h6, h7⟩ := deleteImage_registered st p hinit hw hreg
  exact ⟨st1, h1, h2, h3, h4 hcb, h5, h6, h7⟩

/-- C3, instance: object 0 of the sample list (texture 5) is deleted. -/
theorem deleteImage_erases_from_all_indexes_witness :
    sampleRegistry.mInitialized = true ∧ RegistryWF sampleRegistry
      ∧ 0 ∈ sampleRegistry.mImageList
      ∧ ∃ st1, sampleRegistry.deleteImage (some 0) = some st1
        ∧ st1.findImage (sampleRegistry.mHeap 0).mID
            (sampleRegistry.mHeap 0).mTextureListType = none
        ∧ 0 ∉ st1.mImageList ∧ 0 ∉ st1.mCallbackList :=
  ⟨by decide, sampleRegistry_wf, by decide,
    (deleteImage_erases_from_all_indexes sampleRegistry 0 (by decide) sampleRegistry_wf
      (by decide) (fun h => absurd h (by decide))).imp
      (fun _ h => ⟨h.1, h.2.1, h.2.2.1, h.2.2.2.1⟩)⟩

/-- C4: a registered texture whose reference count is at the floor of three
(image list, UUID map, update loop) and whose last-referenced timer shows more
than the 30 seconds of the lazy flush is gone after `updateImageDecodePriority`
with flushing enabled: the call succeeds, `findImage` of its id and list type
returns null and it is no longer in the image list. -/
theorem idle_image_absent_after_sweep (c : Env) (st : LLViewerTextureList) (p : TexPtr)
    (hinit : st.mInitialized = true) (hw : RegistryWF st) (hreg : p ∈ st.mImageList)
    (hcube : st.gCubeSnapshot = false) (hrefs : (st.mHeap p).mNumRefs ≤ 3)
    (hidle : (st.mHeap p).mLastReferencedElapsed > 30) :
    ∃ st1, updateImageDecodePriority c st p true = some st1
      ∧ st1.findImage (st.mHeap p).mID (st.mHeap p).mTextureListType = none
      ∧ p ∉ st1.mImageList := by
  rw [updateImageDecodePriority_flush c st p hcube hrefs hidle]
  have hsame := prepared_same c st p
  have hw2 : RegistryWF (st.modify p (fun t => updateSpotLights c
      (updateFaceStats c st.sDesiredDiscardBias t))) :=
    RegistryWF_modify st p _ hw (fun t =>
      have h := SameRegistration_trans _ _ _ (updateSpotLights_same c _)
        (updateFaceStats_same c st.sDesiredDiscardBias t)
      ⟨h.1, h.2.1, h.2.2.1⟩)
  obtain ⟨st1, h1, h2, h3, _⟩ := deleteImage_registered
    (st.modify p (fun t => updateSpotLights c (updateFaceStats c st.sDesiredDiscardBias t)))
    p hinit hw2 hreg
  rw [hsame.1, hsame.2.1] at h2
  exact ⟨st1, h1, h2, h3⟩

/-- C4, instance: texture 5 of the idle sample list, an unboosted LOD texture
without faces, three references, idle for 40 seconds. -/
theorem idle_image_absent_after_sweep_witness :
    idleRegistry.mInitialized = true ∧ 0 ∈ idleRegistry.mImageList
      ∧ (idleRegistry.mHeap 0).mNumRefs ≤ 3
      ∧ (idleRegistry.mHeap 0).mLastReferencedElapsed > 30
      ∧ ∃ st1, updateImageDecodePriority sampleEnv idleRegistry 0 true = some st1
        ∧ st1.findImage (idleRegistry.mHeap 0).mID
            (idleRegistry.mHeap 0).mTextureListType = none
        ∧ 0 ∉ st1.mImageList :=
  have hidle : (idleRegistry.mHeap 0).mLastReferencedElapsed > 30 := by
    show (40 : ℚ) > 30
    norm_num
  ⟨by decide, by decide, by decide, hidle,
    idle_image_absent_after_sweep sampleEnv idleRegistry 0 (by decide) idleRegistry_wf
      (by decide) (by decide) (by decide) hidle⟩

/-- C5, as stated, fails: object 1 of the idle sample list is of class `BOOST_UI`
and flagged never-delete, it is registered under (7, standard), and after one
`updateImageDecodePriority` with flushing enabled it is neither in the UUID map
nor in the image list. -/
theorem exempt_image_evicted :
    (idleRegistry.mHeap 1).mBoostLevel = sampleEnv.BOOST_UI
      ∧ (idleRegistry.mHeap 1).mTextureState = LLGLTextureState.NO_DELETE
      ∧ idleRegistry.findImage 7 ETexListType.TEX_LIST_STANDARD = some 1
      ∧ (updateImageDecodePriority sampleEnv idleRegistry 1 true).map
          (fun st1 => (st1.findImage 7 ETexListType.TEX_LIST_STANDARD,
            decide (1 ∈ st1.mImageList))) = some (none, false) := by
  have hidle : (idleRegistry.mHeap 1).mLastReferencedElapsed > 30 := by
    show (40 : ℚ) > 30
    norm_num
  refine ⟨by decide, by decide, by decide, ?_⟩
  rw [updateImageDecodePriority_flush sampleEnv idleRegistry 1 (by decide) (by decide) hidle]
  decide

/-- C5, amended: a texture of an exempt class (`BOOST_UI`, or flagged
never-delete) is not removed by `updateImageDecodePriority` as long as its
reference count is above the floor of three, or its idle time is at most the 30
seconds of the lazy flush, or flushing is disabled: the call succeeds and leaves
the UUID map, the image list and the image count as they were. -/
theorem exempt_image_kept_while_referenced (c : Env) (st : LLViewerTextureList)
    (p : TexPtr) (flush_images : Bool)
    (_hexempt : (st.mHeap p).mBoostLevel = c.BOOST_UI
      ∨ (st.mHeap p).mTextureState = LLGLTextureState.NO_DELETE)
    (hcube : st.gCubeSnapshot = false)
    (hlive : 3 < (st.mHeap p).mNumRefs ∨ (st.mHeap p).mLastReferencedElapsed ≤ 30
      ∨ flush_images = false) :
    ∃ st1, updateImageDecodePriority c st p flush_images = some st1
      ∧ st1.mUUIDMap = st.mUUIDMap ∧ st1.mImageList = st.mImageList
      ∧ st1.sNumImages = st.sNumImages :=
  updateImageDecodePriority_keep c st p flush_images hcube hlive

/-- C5, amended, instance: the `BOOST_UI` texture of the sample list, idle for 40
seconds and held by four references, survives a flushing update. -/
theorem exempt_image_kept_while_referenced_witness :
    ((referencedRegistry.mHeap 1).mBoostLevel = sampleEnv.BOOST_UI
        ∨ (referencedRegistry.mHeap 1).mTextureState = LLGLTextureState.NO_DELETE)
      ∧ 3 < (referencedRegistry.mHeap 1).mNumRefs
      ∧ ∃ st1, updateImageDecodePriority sampleEnv referencedRegistry 1 true = some st1
        ∧ st1.mUUIDMap = referencedRegistry.mUUIDMap
        ∧ st1.mImageList = referencedRegistry.mImageList
        ∧ st1.sNumImages = referencedRegistry.sNumImages :=
  ⟨Or.inl (by decide), by decide,
    exempt_image_kept_while_referenced sampleEnv referencedRegistry 1 true
      (Or.inl (by decide)) (by decide) (Or.inl (by decide))⟩

/-- C6: the raw (unbiased) virtual size the face loop of
`updateImageDecodePriority` computes is the maximum, not the sum, of the boosted
sizes of the faces that count: it bounds every face from above and, unless it is
the start value zero, it is the size of one of the faces.  With two faces in view
of sizes 100 and 400 and no boost the loop yields 400 and the texture's virtual
size becomes 400. -/
theorem raw_vsize_is_max_over_faces (c : Env) (bias : ℚ) (t : LLViewerFetchedTexture) :
    (∀ f ∈ validFaces t, boostedVSize c f ≤ (scanFaces c bias t).max_on_screen_vsize)
      ∧ ((scanFaces c bias t).max_on_screen_vsize = 0
        ∨ ∃ f ∈ validFaces t, (scanFaces c bias t).max_on_screen_vsize = boostedVSize c f)
      ∧ (scanFaces sampleEnv (discardBias sampleEnv twoFaceTexture 1)
          twoFaceTexture).max_on_screen_vsize = 400
      ∧ (updateFaceStats sampleEnv 1 twoFaceTexture).mMaxVirtualSize = 400 := by
  have hscan : (scanFaces sampleEnv (discardBias sampleEnv twoFaceTexture 1)
      twoFaceTexture).max_on_screen_vsize = 400 := by
    norm_num [scanFaces, scanFace, scanValidFace, boostedVSize, twoFaceTexture]
  have hcount : (scanFaces sampleEnv (discardBias sampleEnv twoFaceTexture 1)
      twoFaceTexture).on_screen_count = 2 := by
    simp [scanFaces, scanFace, scanValidFace, twoFaceTexture, S32_of_F32]
  have hfaces : (scanFaces sampleEnv (discardBias sampleEnv twoFaceTexture 1)
      twoFaceTexture).face_count = 2 := by
    simp [scanFaces, scanFace, scanValidFace, twoFaceTexture]
  have hanim : (scanFaces sampleEnv (discardBias sampleEnv twoFaceTexture 1)
      twoFaceTexture).animated = 0 := by
    simp [scanFaces, scanFace, scanValidFace, twoFaceTexture]
  refine ⟨?_, ?_, hscan, ?_⟩
  · rw [scanFaces_eq]
    exact (foldl_scanValidFace_upper c bias _ _ _).2
  · rw [scanFaces_eq]
    exact foldl_scanValidFace_attained c bias _ _ _
  · have hb : twoFaceTexture.mBoostLevel < sampleEnv.BOOST_HIGH := by decide
    unfold updateFaceStats
    rw [if_pos hb]
    simp only
    have h2 : boostHeavilyUsed sampleEnv
        (scanFaces sampleEnv (discardBias sampleEnv twoFaceTexture 1) twoFaceTexture)
        (setCloseToCamera
          (scanFaces sampleEnv (discardBias sampleEnv twoFaceTexture 1) twoFaceTexture)
          twoFaceTexture)
        = setCloseToCamera
          (scanFaces sampleEnv (discardBias sampleEnv twoFaceTexture 1) twoFaceTexture)
          twoFaceTexture := by
      unfold boostHeavilyUsed
      rw [hfaces, hanim]
      simp
    have h3 : ∀ t : LLViewerFetchedTexture, t.mType = FETCHED_TEXTURE →
        resetMaxVirtualSize sampleEnv 1
          (scanFaces sampleEnv (discardBias sampleEnv twoFaceTexture 1) twoFaceTexture) t
          = t := by
      intro t ht
      unfold resetMaxVirtualSize
      simp [ht, FETCHED_TEXTURE, LOD_TEXTURE]
    rw [h2, h3 _ rfl]
    unfold selectVSize LLViewerFetchedTexture.addTextureStats
    simp only [hcount, hscan]
    simp [setCloseToCamera, twoFaceTexture, FETCHED_TEXTURE, sampleEnv]
    norm_num

/-- C7: for fixed faces and a fixed maximum discard level, the biased virtual
size `max_vsize` that the face loop of `updateImageDecodePriority` computes does
not grow when the global bias `sDesiredDiscardBias` is raised, wherever the size
scaler at the lower bias is a finite number (its divisor is not zero), which
covers every bias from 1 on.  This holds for every texture the loop runs on,
whether its faces are in view or not. -/
theorem biased_vsize_antitone_in_bias (c : Env) (t : LLViewerFetchedTexture) (b1 b2 : ℚ)
    (hfin : finiteScaler c t b1) (h12 : b1 ≤ b2) :
    (scanFaces c (discardBias c t b2) t).max_vsize
      ≤ (scanFaces c (discardBias c t b1) t).max_vsize := by
  obtain ⟨hle, hpos2⟩ := discardBias_antitone c t b1 b2 hfin h12
  have hpos1 : 0 ≤ discardBias c t b1 := le_trans hpos2.le hle
  rw [scanFaces_max_vsize c _ hpos2.le t, scanFaces_max_vsize c _ hpos1 t,
    scanFaces_unbiased c (discardBias c t b2) (discardBias c t b1) t]
  exact mul_le_mul_of_nonneg_left hle (scanFaces_nonneg c _ t)

/-- C7, instance: the off-screen texture with five discard levels, at bias 1 and
at bias 4. -/
theorem biased_vsize_antitone_in_bias_witness :
    finiteScaler sampleEnv (offScreenTexture 5) 1 ∧ (1 : ℚ) ≤ 4
      ∧ (scanFaces sampleEnv (discardBias sampleEnv (offScreenTexture 5) 4)
          (offScreenTexture 5)).max_vsize
        ≤ (scanFaces sampleEnv (discardBias sampleEnv (offScreenTexture 5) 1)
          (offScreenTexture 5)).max_vsize :=
  ⟨finiteScaler_of_one_le sampleEnv (offScreenTexture 5) 1 (le_refl 1), by norm_num,
    biased_vsize_antitone_in_bias sampleEnv (offScreenTexture 5) 1 4
      (finiteScaler_of_one_le sampleEnv (offScreenTexture 5) 1 (le_refl 1)) (by norm_num)⟩

theorem offScreenTexture_unbiased (maxDiscard : Int) (bias : ℚ) :
    (scanFaces sampleEnv bias (offScreenTexture maxDiscard)).max_on_screen_vsize = 1000 := by
  norm_num [scanFaces, scanFace, scanValidFace, boostedVSize, offScreenTexture]

/-- C8, as stated, fails: the off-screen, unboosted texture whose image has three
discard levels has the pre-bias virtual size 1000, and its biased virtual size is
1000 at global bias 1 and still 1000 at global bias 4. -/
theorem biased_vsize_not_strictly_smaller :
    (offScreenTexture 3).mBoostLevel < sampleEnv.BOOST_HIGH
      ∧ (scanFaces sampleEnv (discardBias sampleEnv (offScreenTexture 3) 1)
          (offScreenTexture 3)).on_screen_count = 0
      ∧ (scanFaces sampleEnv (discardBias sampleEnv (offScreenTexture 3) 1)
          (offScreenTexture 3)).max_on_screen_vsize = 1000
      ∧ ¬ ((scanFaces sampleEnv (discardBias sampleEnv (offScreenTexture 3) 4)
            (offScreenTexture 3)).max_vsize
          < (scanFaces sampleEnv (discardBias sampleEnv (offScreenTexture 3) 1)
            (offScreenTexture 3)).max_vsize) := by
  have hmd : maxDiscardLevel sampleEnv (offScreenTexture 3) ≤ 3 := by decide
  have hb4 := discardBias_low_resolution sampleEnv (offScreenTexture 3) 4 hmd (by norm_num)
  have hb1 := discardBias_one sampleEnv (offScreenTexture 3)
  refine ⟨by decide, ?_, offScreenTexture_unbiased 3 _, ?_⟩
  · simp [scanFaces, scanFace, scanValidFace, offScreenTexture, S32_of_F32]
  · rw [hb4, hb1]
    exact lt_irrefl _

/-- C8, amended: for every texture whose maximum discard level is at least 4
(that of its GL image, or `MAX_DISCARD_LEVEL` without one) and whose pre-bias
virtual size is 1000, the biased virtual size computed with global bias 4 is
strictly smaller than the one computed with global bias 1; it is 1000 at bias 1
and at most 250 at bias 4. -/
theorem biased_vsize_strictly_smaller_from_four_levels (c : Env)
    (t : LLViewerFetchedTexture) (hmd : 4 ≤ maxDiscardLevel c t)
    (hraw : (scanFaces c (discardBias c t 1) t).max_on_screen_vsize = 1000) :
    (scanFaces c (discardBias c t 4) t).max_vsize
        < (scanFaces c (discardBias c t 1) t).max_vsize
      ∧ (scanFaces c (discardBias c t 1) t).max_vsize = 1000
      ∧ (scanFaces c (discardBias c t 4) t).max_vsize ≤ 250 := by
  obtain ⟨hpos, hle⟩ := discardBias_four c t hmd
  have hone := discardBias_one c t
  have h4 : (scanFaces c (discardBias c t 4) t).max_vsize = 1000 * discardBias c t 4 := by
    rw [scanFaces_max_vsize c _ hpos.le t,
      scanFaces_unbiased c (discardBias c t 4) (discardBias c t 1) t, hraw]
  have h1 : (scanFaces c (discardBias c t 1) t).max_vsize = 1000 := by
    rw [scanFaces_max_vsize c _ (by rw [hone]; norm_num) t, hraw, hone]
    norm_num
  rw [h4, h1]
  refine ⟨by linarith, rfl, by linarith⟩

/-- C8, amended, instance: the off-screen texture with five discard levels. -/
theorem biased_vsize_strictly_smaller_from_four_levels_witness :
    4 ≤ maxDiscardLevel sampleEnv (offScreenTexture 5)
      ∧ (scanFaces sampleEnv (discardBias sampleEnv (offScreenTexture 5) 1)
          (offScreenTexture 5)).max_on_screen_vsize = 1000
      ∧ (scanFaces sampleEnv (discardBias sampleEnv (offScreenTexture 5) 4)
          (offScreenTexture 5)).max_vsize
        < (scanFaces sampleEnv (discardBias sampleEnv (offScreenTexture 5) 1)
          (offScreenTexture 5)).max_vsize :=
  ⟨by decide, offScreenTexture_unbiased 5 _,
    (biased_vsize_strictly_smaller_from_four_levels sampleEnv (offScreenTexture 5)
      (by decide) (offScreenTexture_unbiased 5 _)).1⟩

/-- C18, as stated, fails: the off-screen, unboosted LOD texture that is resident
at full resolution (current discard level 0, below 2) has the unbiased maximum
1000, yet at global bias 4 the size handed to `addTextureStats` is the
bias-divided maximum 125/2, and that is what the update stores. -/
theorem sharp_off_screen_texture_fed_biased_size :
    sharpOffScreenTexture.mDiscardLevel < 2
      ∧ sharpOffScreenTexture.mBoostLevel < sampleEnv.BOOST_HIGH
      ∧ (scanFaces sampleEnv (discardBias sampleEnv sharpOffScreenTexture 4)
          sharpOffScreenTexture).on_screen_count = 0
      ∧ (scanFaces sampleEnv (discardBias sampleEnv sharpOffScreenTexture 4)
          sharpOffScreenTexture).max_on_screen_vsize = 1000
      ∧ fedVirtualSize sampleEnv 4 sharpOffScreenTexture = 125 / 2
      ∧ (updateFaceStats sampleEnv 4 sharpOffScreenTexture).mMaxVirtualSize = 125 / 2 := by
  decide!

/-- C18, amended: for every texture the face block of `updateImageDecodePriority`
runs on (boost level below `BOOST_HIGH` on entry), the block hands
`fedVirtualSize` to `addTextureStats`.  That size is the unbiased maximum,
whether or not the texture is on screen, when the update boosts the texture to
`BOOST_HIGH` (more than 1024 faces, or animated), when its type is below
`FETCHED_TEXTURE`, or when a face is close to the camera.  A fetched or LOD
texture with current discard level below 2 gets the unbiased maximum when it is
on screen; off screen, and in none of the cases above, every fetched or LOD
texture gets the bias-scaled maximum, whatever its discard level. -/
theorem unbiased_size_fed_when_exempt_close_or_sharp_on_screen (c : Env) (bias : ℚ)
    (t : LLViewerFetchedTexture) (hrun : t.mBoostLevel < c.BOOST_HIGH) :
    updateFaceStats c bias t
        = (preparedForStats c bias t).addTextureStats c (fedVirtualSize c bias t)
      ∧ (((scanFaces c (discardBias c t bias) t).face_count > 1024
            ∨ (scanFaces c (discardBias c t bias) t).animated ≠ 0
            ∨ t.mType < FETCHED_TEXTURE
            ∨ (scanFaces c (discardBias c t bias) t).close_to_camera ≠ 0) →
          fedVirtualSize c bias t
            = (scanFaces c (discardBias c t bias) t).max_on_screen_vsize)
      ∧ (((scanFaces c (discardBias c t bias) t).on_screen_count ≠ 0
            ∧ t.mDiscardLevel < 2 ∧ FETCHED_TEXTURE ≤ t.mType) →
          fedVirtualSize c bias t
            = (scanFaces c (discardBias c t bias) t).max_on_screen_vsize)
      ∧ (((scanFaces c (discardBias c t bias) t).on_screen_count = 0
            ∧ ¬ ((scanFaces c (discardBias c t bias) t).face_count > 1024
                ∨ (scanFaces c (discardBias c t bias) t).animated ≠ 0)
            ∧ FETCHED_TEXTURE ≤ t.mType
            ∧ (scanFaces c (discardBias c t bias) t).close_to_camera = 0) →
          fedVirtualSize c bias t = (scanFaces c (discardBias c t bias) t).max_vsize) := by
  obtain ⟨p1, p2, p3, p4⟩ := preparedForStats_fields c bias t
  refine ⟨updateFaceStats_eq c bias t hrun, ?_, ?_, ?_⟩
  · intro h
    unfold fedVirtualSize selectVSize
    simp only [p1, p2]
    split_ifs with h1 h2
    · rfl
    · rfl
    · exfalso
      apply h2
      rcases h with h | h | h | h
      · exact Or.inl (le_of_eq (p3 (Or.inl h)).symm)
      · exact Or.inl (le_of_eq (p3 (Or.inr h)).symm)
      · exact Or.inr (Or.inl h)
      · exact Or.inr (Or.inr h)
  · rintro ⟨h1, h2, h3⟩
    unfold fedVirtualSize selectVSize
    simp only [p1, p2]
    rw [if_pos]
    exact ⟨by simpa using h1, Or.inl ⟨h2, h3⟩⟩
  · rintro ⟨h1, h2, h3, h4⟩
    unfold fedVirtualSize selectVSize
    simp only [p1, p2]
    rw [if_neg, if_neg]
    · rintro (h | h | h)
      · rw [p4 h2] at h
        exact absurd hrun (not_lt.2 h)
      · exact absurd h3 (not_le.2 h)
      · exact h h4
    · rintro ⟨h, _⟩
      simp [h1] at h

/-- C18, amended, instance: the face block runs on the sharp off-screen texture
of the counterexample. -/
theorem unbiased_size_fed_when_exempt_close_or_sharp_on_screen_witness :
    sharpOffScreenTexture.mBoostLevel < sampleEnv.BOOST_HIGH
      ∧ updateFaceStats sampleEnv 4 sharpOffScreenTexture
        = (preparedForStats sampleEnv 4 sharpOffScreenTexture).addTextureStats sampleEnv
            (fedVirtualSize sampleEnv 4 sharpOffScreenTexture) :=
  ⟨by decide,
    (unbiased_size_fed_when_exempt_close_or_sharp_on_screen sampleEnv 4 sharpOffScreenTexture
      (by decide)).1⟩

/-- C19, as stated, fails: the unboosted LOD texture that is off screen carries a
running virtual size of 5000; at global bias 1 (no memory pressure) the update
does not reset it before adding the new estimate 1000, and 5000 survives. -/
theorem off_screen_running_size_not_reset_at_bias_one :
    staleOffScreenTexture.mType = LOD_TEXTURE
      ∧ staleOffScreenTexture.mBoostLevel = sampleEnv.BOOST_NONE
      ∧ (scanFaces sampleEnv (discardBias sampleEnv staleOffScreenTexture 1)
          staleOffScreenTexture).on_screen_count = 0
      ∧ (preparedForStats sampleEnv 1 staleOffScreenTexture).mMaxVirtualSize = 5000
      ∧ fedVirtualSize sampleEnv 1 staleOffScreenTexture = 1000
      ∧ (updateFaceStats sampleEnv 1 staleOffScreenTexture).mMaxVirtualSize = 5000 := by
  decide!

/-- C19, amended: for every unboosted LOD texture that the update does not boost
(at most 1024 faces, not animated), the running virtual size is reset to zero
before the new estimate is added when the global bias exceeds 3/2, on screen or
off, or when the texture is off screen and the bias exceeds 1; it is left as it
was when the bias is at most 3/2 and the texture is on screen, and also when the
texture is off screen and the bias is at most 1. -/
theorem running_size_reset_above_bias_thresholds (c : Env) (bias : ℚ)
    (t : LLViewerFetchedTexture) (hlod : t.mType = LOD_TEXTURE)
    (hnone : t.mBoostLevel = c.BOOST_NONE) (hrun : c.BOOST_NONE < c.BOOST_HIGH)
    (hlight : ¬ ((scanFaces c (discardBias c t bias) t).face_count > 1024
      ∨ (scanFaces c (discardBias c t bias) t).animated ≠ 0)) :
    updateFaceStats c bias t
        = (preparedForStats c bias t).addTextureStats c (fedVirtualSize c bias t)
      ∧ ((bias > 3 / 2
            ∨ ((scanFaces c (discardBias c t bias) t).on_screen_count = 0 ∧ bias > 1)) →
          (preparedForStats c bias t).mMaxVirtualSize = 0)
      ∧ ((bias ≤ 3 / 2
            ∧ ((scanFaces c (discardBias c t bias) t).on_screen_count ≠ 0 ∨ bias ≤ 1)) →
          (preparedForStats c bias t).mMaxVirtualSize = t.mMaxVirtualSize) := by
  obtain ⟨b1, _, b3, _, b5⟩ := boostHeavilyUsed_fields c
    (scanFaces c (discardBias c t bias) t)
    (setCloseToCamera (scanFaces c (discardBias c t bias) t) t)
  have hty : (boostHeavilyUsed c (scanFaces c (discardBias c t bias) t)
      (setCloseToCamera (scanFaces c (discardBias c t bias) t) t)).mType = LOD_TEXTURE := by
    rw [b1]; exact hlod
  have hbo : (boostHeavilyUsed c (scanFaces c (discardBias c t bias) t)
      (setCloseToCamera (scanFaces c (discardBias c t bias) t) t)).mBoostLevel
        = c.BOOST_NONE := by
    rw [b5 hlight]; exact hnone
  refine ⟨updateFaceStats_eq c bias t (by rw [hnone]; exact hrun), ?_, ?_⟩
  · intro h
    unfold preparedForStats resetMaxVirtualSize
    simp only
    rw [if_pos ⟨hty, hbo⟩, if_pos]
    rcases h with h | ⟨h1, h2⟩
    · exact Or.inl h
    · exact Or.inr ⟨by simp [h1], h2⟩
  · rintro ⟨h1, h2⟩
    unfold preparedForStats resetMaxVirtualSize
    simp only
    rw [if_pos ⟨hty, hbo⟩, if_neg, b3]
    · rfl
    · rintro (h | ⟨h3, h4⟩)
      · exact absurd h (not_lt.2 h1)
      · rcases h2 with h2 | h2
        · simp [h2] at h3
        · exact absurd h4 (not_lt.2 h2)

/-- C19, amended, instance: the stale off-screen texture at global bias 2. -/
theorem running_size_reset_above_bias_thresholds_witness :
    staleOffScreenTexture.mType = LOD_TEXTURE
      ∧ staleOffScreenTexture.mBoostLevel = sampleEnv.BOOST_NONE
      ∧ sampleEnv.BOOST_NONE < sampleEnv.BOOST_HIGH
      ∧ (preparedForStats sampleEnv 2 staleOffScreenTexture).mMaxVirtualSize = 0 :=
  ⟨by decide, by decide, by decide,
    (running_size_reset_above_bias_thresholds sampleEnv 2 staleOffScreenTexture (by decide)
      (by decide) (by decide) (by decide!)).2.1 (Or.inl (by norm_num))⟩

/-- C20: `updateImageDecodePriority` removes nothing and resets the
last-referenced timer of a texture whose reference count is above the floor of
three, and a texture whose idle time does not exceed the timeout of 30 seconds
stays registered, at the floor or not; the call returns in both cases.
`processTextureStats` lives outside the sources and is taken not to touch the
timer. -/
theorem referenced_image_kept_and_timer_reset (c : Env) (st : LLViewerTextureList)
    (p : TexPtr) (flush_images : Bool) (hcube : st.gCubeSnapshot = false)
    (hproc : ∀ t, (c.processTextureStats t).mLastReferencedElapsed
      = t.mLastReferencedElapsed) :
    (3 < (st.mHeap p).mNumRefs →
        ∃ st1, updateImageDecodePriority c st p flush_images = some st1
          ∧ st1.mUUIDMap = st.mUUIDMap ∧ st1.mImageList = st.mImageList
          ∧ st1.sNumImages = st.sNumImages
          ∧ (st1.mHeap p).mLastReferencedElapsed = 0)
      ∧ ((st.mHeap p).mLastReferencedElapsed ≤ 30 →
        ∃ st1, updateImageDecodePriority c st p flush_images = some st1
          ∧ st1.mUUIDMap = st.mUUIDMap ∧ st1.mImageList = st.mImageList
          ∧ st1.sNumImages = st.sNumImages) := by
  refine ⟨fun hrefs => ?_,
    fun hidle => updateImageDecodePriority_keep c st p flush_images hcube (Or.inr (Or.inl hidle))⟩
  obtain ⟨_, _, _, _, h5, _⟩ := prepared_same c st p
  unfold updateImageDecodePriority
  simp only [hcube, Bool.false_eq_true, if_false, h5]
  rw [if_neg (fun h => absurd h.1 (not_le.2 hrefs))]
  split_ifs
  · exact ⟨_, rfl, rfl, rfl, rfl, by rw [modify_mHeap_same]; exact touchReferenced_elapsed _ _⟩
  · refine ⟨_, rfl, (finishDecodePriority_frame c _ p).1, (finishDecodePriority_frame c _ p).2.1,
      (finishDecodePriority_frame c _ p).2.2, ?_⟩
    rw [finishDecodePriority_elapsed c _ p hproc, modify_mHeap_same]
    exact touchReferenced_elapsed _ _

/-- C20, instance: the `BOOST_UI` texture of the sample list, idle for 40 seconds
but held by four references, is updated with flushing enabled. -/
theorem referenced_image_kept_and_timer_reset_witness :
    referencedRegistry.gCubeSnapshot = false ∧ 3 < (referencedRegistry.mHeap 1).mNumRefs
      ∧ ∃ st1, updateImageDecodePriority sampleEnv referencedRegistry 1 true = some st1
          ∧ st1.mUUIDMap = referencedRegistry.mUUIDMap
          ∧ st1.mImageList = referencedRegistry.mImageList
          ∧ st1.sNumImages = referencedRegistry.sNumImages
          ∧ (st1.mHeap 1).mLastReferencedElapsed = 0 :=
  ⟨by decide, by decide,
    (referenced_image_kept_and_timer_reset sampleEnv referencedRegistry 1 true (by decide)
      (fun _ => rfl)).1 (by decide)⟩

/-- C11: when the create loop reaches an entry whose texture is in VRAM at a
discard level that already satisfies the desired one, the turn of the loop calls
`postCreateTexture` and at most `scaleDown`, never `createTexture`; it clears
`mCreatePending` and pops the entry off the queue.  The loop itself does this
turn on the front entry and goes on with the rest unless the timer is past half
of the budget. -/
theorem redundant_load_skips_upload (c : Env) (st : LLViewerTextureList) (imagep : TexPtr)
    (rest : List TexPtr) (max_time : ℚ) (create_timer : Clock)
    (hq : st.mCreateTextureList = imagep :: rest)
    (hpending : (st.mHeap imagep).mCreatePending = true)
    (hgl : (st.mHeap imagep).hasGLTexture = true)
    (hlevel : (st.mHeap imagep).mDiscardLevel ≤ (st.mHeap imagep).mDesiredDiscardLevel) :
    ∃ st1, createFront c st imagep = some st1
      ∧ (st1.mTrace = st.mTrace ++ [TraceEvent.postCreateTexture imagep]
          ∨ st1.mTrace = st.mTrace
              ++ [TraceEvent.postCreateTexture imagep, TraceEvent.scaleDownRequest imagep])
      ∧ (st1.mHeap imagep).mCreatePending = false
      ∧ st1.mCreateTextureList = rest
      ∧ ∀ fuel reads,
          createTexturesLoop c max_time create_timer (fuel + 1) reads st
            = if create_timer reads > max_time * (1 / 2) then some (st1, reads + 1)
              else createTexturesLoop c max_time create_timer fuel (reads + 1) st1 := by
  have hred : redundant_load (st.mHeap imagep) = true := by
    unfold redundant_load
    simp [hgl, hlevel]
  have hfront : createFront c st imagep = some (createFrontBody c st imagep) := by
    unfold createFront
    rw [if_neg (by simp [hpending])]
  have hup : uploadFront c st imagep = st := (uploadFront_frame c st imagep).2.2.2 hred
  obtain ⟨m1, _, _, _⟩ := finishUpload_frame c st imagep
  obtain ⟨s1, _, _, _⟩ := scaleDownFront_frame c (finishUpload c st imagep) imagep
  obtain ⟨_, _, b3, b4⟩ := createFrontBody_frame c st imagep
  refine ⟨createFrontBody c st imagep, hfront, ?_, b4, by rw [b3, hq]; rfl, ?_⟩
  · unfold createFrontBody
    rw [hup]
    rcases s1 with h | h
    · exact Or.inl (by rw [h, m1])
    · exact Or.inr (by rw [h, m1, List.append_assoc]; rfl)
  · intro fuel reads
    rw [createTexturesLoop]
    simp only [hq, hfront]

/-- C11, instance: texture 7 of `redundantList` is resident at discard level 0
while level 1 is desired, flagged and first in the create queue. -/
theorem redundant_load_skips_upload_witness :
    redundantList.mCreateTextureList = 7 :: []
      ∧ (redundantList.mHeap 7).mCreatePending = true
      ∧ (redundantList.mHeap 7).hasGLTexture = true
      ∧ (redundantList.mHeap 7).mDiscardLevel ≤ (redundantList.mHeap 7).mDesiredDiscardLevel
      ∧ ∃ st1, createFront sampleEnv redundantList 7 = some st1
          ∧ (st1.mTrace = redundantList.mTrace ++ [TraceEvent.postCreateTexture 7]
              ∨ st1.mTrace = redundantList.mTrace
                  ++ [TraceEvent.postCreateTexture 7, TraceEvent.scaleDownRequest 7])
          ∧ (st1.mHeap 7).mCreatePending = false
          ∧ st1.mCreateTextureList = [] :=
  ⟨by decide, by decide, by decide, by decide,
    (redundant_load_skips_upload sampleEnv redundantList 7 [] 1 fastClock (by decide)
      (by decide) (by decide) (by decide)).imp
      (fun _ h => ⟨h.1, h.2.1, h.2.2.1, h.2.2.2.1⟩)⟩

/-- C12, as stated, fails: the downscale queue holds seven textures, but the
render target `mDownResMap` is not complete; the drain handles none of them,
whatever the budget: the queue is as before, no texture is scaled down or
unflagged, and in the whole call of `updateImagesCreateTextures` only the create
queue is served. -/
theorem downscale_queue_waits_for_render_target :
    stalledList.mDownScaleQueue = [0, 1, 2, 3, 4, 5, 6]
      ∧ stalledList.mIsDisabled = false
      ∧ (drainDownScaleQueue sampleEnv stalledList 0 slowClock 0).map
          (fun r => r.1.mDownScaleQueue) = some [0, 1, 2, 3, 4, 5, 6]
      ∧ (drainDownScaleQueue sampleEnv stalledList 0 slowClock 0).map
          (fun r => r.1.mTrace) = some []
      ∧ (updateImagesCreateTextures sampleEnv stalledList 1 fastClock).map
          (fun r => r.1.mDownScaleQueue) = some [0, 1, 2, 3, 4, 5, 6]
      ∧ (updateImagesCreateTextures sampleEnv stalledList 1 fastClock).map
          (fun r => r.1.mTrace)
        = some [TraceEvent.createTexture 7, TraceEvent.postCreateTexture 7]
      ∧ (updateImagesCreateTextures sampleEnv stalledList 1 fastClock).map
          (fun r => ((r.1.mHeap 0).mDownScalePending, (r.1.mHeap 0).mDiscardLevel))
        = some (true, 0) := by
  decide!

/-- C12, amended: the drain runs only when the render target `mDownResMap` is
complete.  Then, for a queue that is not empty, for every time budget and every
timer, also one that is past the budget from the start, the drain returns after
handling a front part of the queue in queue order that has at least
`min(queue length, minBatch)` entries, where
`minBatch = (create queue length) / 20 + 5` is at least 5.  To handle an entry
means: `LLImageGL::scaleDown` to the desired discard level is called on it if it
has a GL image with a GL name, its flag `mDownScalePending` is cleared and it is
popped off the queue; the trace of the drain consists of exactly these calls, in
queue order, and every entry handled is left as `downScaledTexture` describes.
While the render target is not complete the drain leaves the list as it is.  The
queue is taken to hold distinct textures that carry the flag, which the drain
asserts. -/
theorem downscale_drain_handles_min_batch (c : Env) (st : LLViewerTextureList)
    (max_time : ℚ) (create_timer : Clock) (reads : Nat)
    (hne : st.mDownScaleQueue ≠ [])
    (hnodup : st.mDownScaleQueue.Nodup)
    (hflag : ∀ p ∈ st.mDownScaleQueue, (st.mHeap p).mDownScalePending = true) :
    (st.mDownResMapComplete = true →
        ∃ st1 reads1 n,
          drainDownScaleQueue c st max_time create_timer reads = some (st1, reads1)
            ∧ n ≤ st.mDownScaleQueue.length
            ∧ min st.mDownScaleQueue.length (st.mCreateTextureList.length / 20 + 5) ≤ n
            ∧ 5 ≤ st.mCreateTextureList.length / 20 + 5
            ∧ st1.mDownScaleQueue = st.mDownScaleQueue.drop n
            ∧ st1.mTrace
                = st.mTrace ++ (st.mDownScaleQueue.take n).flatMap (downScaleCalls st)
            ∧ (∀ p ∈ st.mDownScaleQueue.take n,
                st1.mHeap p = downScaledTexture c (st.mHeap p)
                  ∧ (st1.mHeap p).mDownScalePending = false
                  ∧ ((st.mHeap p).hasGLTexture = true →
                      TraceEvent.scaleDownGL p ∈ downScaleCalls st p))
            ∧ ∀ q, q ∉ st.mDownScaleQueue.take n → st1.mHeap q = st.mHeap q)
      ∧ (st.mDownResMapComplete = false →
          drainDownScaleQueue c st max_time create_timer reads = some (st, reads)) := by
  refine ⟨fun hmap => ?_, fun hmap => ?_⟩
  · obtain ⟨st1, reads1, n, e1, e2, e3, e4, _, _, e7, e8, e9, e10⟩ :=
      downScaleLoop_spec c max_time create_timer st.mDownScaleQueue.length reads
        ((st.mCreateTextureList.length : Int) / 20 + 5) st (le_refl _) hnodup hflag
    refine ⟨st1, reads1, n, ?_, e2, ?_, Nat.le_add_left _ _, e4, e9,
      fun p hp => ⟨e10 p hp, e7 p hp, fun hgl => ?_⟩, e8⟩
    · unfold drainDownScaleQueue
      rw [if_pos ⟨hne, hmap⟩]
      exact e1
    · have hcast : ((st.mCreateTextureList.length : Int) / 20 + 5)
          = ((st.mCreateTextureList.length / 20 + 5 : Nat) : Int) := by
        push_cast
        rfl
      rw [hcast] at e3
      rcases min_le_iff.1 e3 with h | h
      · exact le_trans (min_le_left _ _) (by exact_mod_cast h)
      · exact le_trans (min_le_right _ _) (by exact_mod_cast h)
    · unfold downScaleCalls
      rw [if_pos hgl]
      simp
  · unfold drainDownScaleQueue
    rw [if_neg (fun h => by rw [hmap] at h; exact absurd h.2 (by simp))]

/-- C12, amended, instance: the seven queued textures of `pressureList` with a
budget of zero and a timer that reads one second from the start. -/
theorem downscale_drain_handles_min_batch_witness :
    pressureList.mDownScaleQueue ≠ [] ∧ pressureList.mDownResMapComplete = true
      ∧ pressureList.mDownScaleQueue.Nodup
      ∧ (∀ p ∈ pressureList.mDownScaleQueue, (pressureList.mHeap p).mDownScalePending = true)
      ∧ ∃ st1 reads1 n,
          drainDownScaleQueue sampleEnv pressureList 0 slowClock 0 = some (st1, reads1)
            ∧ n ≤ pressureList.mDownScaleQueue.length
            ∧ min pressureList.mDownScaleQueue.length
                (pressureList.mCreateTextureList.length / 20 + 5) ≤ n
            ∧ 5 ≤ pressureList.mCreateTextureList.length / 20 + 5
            ∧ st1.mDownScaleQueue = pressureList.mDownScaleQueue.drop n
            ∧ st1.mTrace
                = pressureList.mTrace
                  ++ (pressureList.mDownScaleQueue.take n).flatMap (downScaleCalls pressureList) :=
  ⟨by decide, by decide, by decide, by decide,
    ((downscale_drain_handles_min_batch sampleEnv pressureList 0 slowClock 0 (by decide)
      (by decide) (by decide)).1 (by decide)).imp
      (fun _ h1 => h1.imp (fun _ h2 => h2.imp
        (fun _ h => ⟨h.1, h.2.1, h.2.2.1, h.2.2.2.1, h.2.2.2.2.1, h.2.2.2.2.2.1⟩)))⟩

/-- C16, as stated, fails: in a tick of the sample list, texture 5 is registered
and the create queue holds texture object 1 at the start; the fetch stage hands
texture 5 to `updateImageDecodePriority`, which removes it from the registry,
while the create queue is still undrained; the upload of object 1
(`createTexture 1`) comes later in the trace of the tick, and no stage after the
create stage evicts anything. -/
theorem eviction_precedes_create_drain :
    tickRegistry.findImage 5 .TEX_LIST_STANDARD = some 0
      ∧ tickRegistry.mCreateTextureList = [1]
      ∧ (updateImagesFetchTextures sampleEnv tickRegistry 1 fastClock).map
          (fun r => (r.1.findImage 5 .TEX_LIST_STANDARD, r.1.mCreateTextureList))
        = some (none, [1])
      ∧ (updateImages sampleEnv tickRegistry 1 fastClock fastClock fastClock).map
          (fun r => (r.mTrace, r.findImage 5 .TEX_LIST_STANDARD))
        = some ([TraceEvent.stageBegin .fastCache 1,
            TraceEvent.loadFromFastCache 0, TraceEvent.loadFromFastCache 1,
            TraceEvent.stageBegin .fetch 1,
            TraceEvent.fetchVisit 0, TraceEvent.updateImageDecodePriority 0,
            TraceEvent.updateFetch 0,
            TraceEvent.fetchVisit 1, TraceEvent.updateImageDecodePriority 1,
            TraceEvent.updateFetch 1,
            TraceEvent.stageBegin .create 1,
            TraceEvent.createTexture 1, TraceEvent.postCreateTexture 1], none) := by
  decide!

/-- C16, amended: in a call of `updateImages` that runs the stages, the calls
happen in the fixed order fast cache load, fetch update, create queue, downscale
queue; there is no eviction stage after the queues: the registry at the end of
the tick is the registry the fetch stage leaves, and the fetch stage starts from
the registry of the start of the tick, so every eviction of the tick is made by
`updateImageDecodePriority` inside the fetch stage, before the create queue and
the downscale queue are drained. -/
theorem stages_in_order_eviction_inside_fetch (c : Env) (st st1 : LLViewerTextureList)
    (max_time : ℚ) (fast_timer fetch_timer create_timer : Clock)
    (hrun : st.gTeleportDisplay = false ∨ (st.cleared = true ∧ st.teleportArriving = true))
    (h : updateImages c st max_time fast_timer fetch_timer create_timer = some st1) :
    (∃ ev, st1.mTrace = st.mTrace ++ ev
        ∧ ev.Pairwise (fun a b => a.stage.toNat ≤ b.stage.toNat))
      ∧ ∃ stIn budget stOut used, SameRegistry stIn st
          ∧ updateImagesFetchTextures c stIn budget fetch_timer = some (stOut, used)
          ∧ SameRegistry st1 stOut := by
  rw [updateImages_eq_runStages c st max_time _ _ _ hrun] at h
  obtain ⟨uf, ufe, A, B, C, stIn, stOut, e, hA, hB, hC, r1, r2, r3⟩ :=
    runStages_spec c _ _ _ _ _ _ h
  rw [(stageStart_frame st).1] at e
  refine ⟨⟨(TraceEvent.stageBegin .fastCache max_time :: A)
      ++ (TraceEvent.stageBegin .fetch (fetchBudget max_time uf) :: B)
      ++ (TraceEvent.stageBegin .create (createBudget max_time uf ufe) :: C),
    by rw [e]; simp, ?_⟩,
    stIn, _, stOut, ufe, SameRegistry_trans _ _ _ r1 (stageStart_frame st).2, r2, r3⟩
  have hA0 : ∀ e ∈ A, e.stage.toNat = 0 := fun e he => Nat.le_zero.1 (hA.1 e he).2.2
  have hB1 : ∀ e ∈ B, e.stage.toNat = 1 :=
    fun e he => le_antisymm (hB.1 e he).2.2 (hB.1 e he).2.1
  have hC2 : ∀ e ∈ C, 2 ≤ e.stage.toNat := fun e he => (hC.1 e he).2.1
  simp only [List.pairwise_append, List.pairwise_cons, List.mem_append, List.mem_cons]
  refine ⟨⟨⟨fun a ha => ?_, hA.2⟩, ⟨fun a ha => ?_, hB.2⟩, ?_⟩, ⟨fun a ha => ?_, hC.2⟩, ?_⟩
  · exact Nat.zero_le _
  · rw [hB1 a ha]
    exact le_refl 1
  · intro a ha b hb
    have h1 : a.stage.toNat = 0 := by
      rcases ha with ha | ha
      · rw [ha]; rfl
      · exact hA0 a ha
    rw [h1]
    exact Nat.zero_le _
  · exact hC2 a ha
  · intro a ha b hb
    have h1 : a.stage.toNat ≤ 1 := by
      rcases ha with (ha | ha) | (ha | ha)
      · rw [ha]; exact Nat.zero_le 1
      · rw [hA0 a ha]; exact Nat.zero_le 1
      · rw [ha]; exact le_refl 1
      · rw [hB1 a ha]
    have h2 : 2 ≤ b.stage.toNat := by
      rcases hb with hb | hb
      · rw [hb]; exact le_refl 2
      · exact hC2 b hb
    omega

/-- C16, amended, instance: the tick of the sample list of the counterexample. -/
theorem stages_in_order_eviction_inside_fetch_witness :
    tickRegistry.gTeleportDisplay = false
      ∧ ∃ st1, updateImages sampleEnv tickRegistry 1 slowClock slowClock slowClock = some st1
        ∧ (∃ ev, st1.mTrace = tickRegistry.mTrace ++ ev
            ∧ ev.Pairwise (fun a b => a.stage.toNat ≤ b.stage.toNat))
        ∧ ∃ stIn budget stOut used, SameRegistry stIn tickRegistry
            ∧ updateImagesFetchTextures sampleEnv stIn budget slowClock = some (stOut, used)
            ∧ SameRegistry st1 stOut :=
  ⟨by decide,
    (Option.isSome_iff_exists.1 tickRegistry_run).imp (fun st1 h =>
      ⟨h, stages_in_order_eviction_inside_fetch sampleEnv tickRegistry st1 1 slowClock
        slowClock slowClock (Or.inl (by decide)) h⟩)⟩

/-- C14: a texture enters the fast cache list at most once.  `createImage`
inserts the object it has just allocated, and only that one, exactly when the
fast cache is enabled and the texture is not sculpted; and whatever calls follow
(requests for the same or other textures, creations, deletions, drains of the
fast cache list), an object that exists and is not in the list, because it never
entered it or has been drained, is not in the list afterwards. -/
theorem fast_cache_entered_at_most_once (c : Env) (st st1 : LLViewerTextureList)
    (calls : List FastCacheCall) (hrun : runFastCacheCalls c st calls = some st1) :
    (∀ p, p < st.mNextPtr → p ∉ st.mFastCacheList → p ∉ st1.mFastCacheList)
      ∧ ∀ (image_id : LLUUID) (f_type : Int) (usemipmaps : Bool)
          (boost_priority texture_type internal_format primary_format : Int) (host : LLHost)
          (st2 : LLViewerTextureList) (p : TexPtr),
          createImage c st1 image_id f_type usemipmaps boost_priority texture_type
              internal_format primary_format host = some (st2, p) →
          p = st1.mNextPtr ∧ st2.mNextPtr = st1.mNextPtr + 1
            ∧ st2.mFastCacheList
              = if c.fast_cache_fetching_enabled = true ∧ boost_priority ≠ c.BOOST_SCULPTED
                then insert p st1.mFastCacheList
                else st1.mFastCacheList := by
  obtain ⟨_, hstep⟩ := runFastCacheCalls_fastStep c calls st st1 hrun
  refine ⟨fun p hp hnot hin => ?_, fun _ _ _ _ _ _ _ _ _ _ h =>
    createImage_fastCache _ _ _ _ _ _ _ _ _ _ _ _ h⟩
  rcases hstep p hin with h | h
  · exact hnot h
  · exact absurd hp (not_lt.2 h)

/-- C14, instance: object 0 enters the fast cache list when texture 5 is created
and leaves it with the first drain; two more requests for texture 5, the creation
of another texture and another drain do not bring it back. -/
theorem fast_cache_entered_at_most_once_witness :
    (runFastCacheCalls sampleEnv emptyList
        [.registry (.getImage 5 0 true 0 LOD_TEXTURE 0 0 {})]).map
          (fun s => decide (0 ∈ s.mFastCacheList)) = some true
      ∧ 0 < drainedRegistry.mNextPtr ∧ 0 ∉ drainedRegistry.mFastCacheList
      ∧ ∃ st1, runFastCacheCalls sampleEnv drainedRegistry laterCalls = some st1
          ∧ 0 ∉ st1.mFastCacheList :=
  ⟨by decide!, by decide!, by decide!,
    (Option.isSome_iff_exists.1 laterCalls_run).imp (fun st1 h =>
      ⟨h, (fast_cache_entered_at_most_once sampleEnv drainedRegistry st1 laterCalls h).1 0
        (by decide!) (by decide!)⟩)⟩

/-- C23: the size the face loop uses for a face with footprint `v`, camera
importance `i` and closeness `c` is `v * (1 + i * boost) * (1 + c * boost)` with
`boost` the setting `TextureCameraBoost`; a face with `i = 0` and `c = 0` keeps
exactly `v`; and the loop takes the unbiased maximum over this size and the
biased maximum over this size times the bias scaler, so both boosts are applied
before the bias. -/
theorem per_face_size_is_product_of_boosts (c : Env) (bias : ℚ) (hasParcelMedia : Bool)
    (acc : FaceScan) (f : LLFace) :
    boostedVSize c f
        = f.mVSize * (1 + f.mImportanceToCamera * c.texture_camera_boost)
            * (1 + f.mCloseToCamera * c.texture_camera_boost)
      ∧ boostedVSize c { f with mImportanceToCamera := 0, mCloseToCamera := 0 } = f.mVSize
      ∧ (scanValidFace c bias hasParcelMedia acc f).max_on_screen_vsize
          = max acc.max_on_screen_vsize
              (f.mVSize * (1 + f.mImportanceToCamera * c.texture_camera_boost)
                * (1 + f.mCloseToCamera * c.texture_camera_boost))
      ∧ (scanValidFace c bias hasParcelMedia acc f).max_vsize
          = max acc.max_vsize
              (f.mVSize * (1 + f.mImportanceToCamera * c.texture_camera_boost)
                * (1 + f.mCloseToCamera * c.texture_camera_boost) * bias) := by
  have h : boostedVSize c f
      = f.mVSize * (1 + f.mImportanceToCamera * c.texture_camera_boost)
          * (1 + f.mCloseToCamera * c.texture_camera_boost) := by
    unfold boostedVSize
    ring
  refine ⟨h, ?_, ?_, ?_⟩
  · unfold boostedVSize
    simp
  · rw [← h]
    rfl
  · rw [← h]
    rfl

/-- C27: for every texture and every global bias of at least 1 the size scaler
is `1 / round(4 ^ (effectiveBias - 1))` with
`effectiveBias = clamp(maxDiscard - 2, 1, globalBias)`.  The effective bias lies
between 1 and the global bias; it is `min(maxDiscard - 2, globalBias)` when
`maxDiscard` is at least 3 and 1 below that, so the resolution caps it.  The
biased maximum of the face loop is the unbiased one times the scaler.  The
scaler is `1 / 4 ^ n` for a texture of maximum discard level `n + 3` at a global
bias of at least `n + 1`, and also at the global bias `n + 1` for a texture of
maximum discard level at least `n + 3`.  Hence for a texture whose maximum
discard level is at most 3 the scaler is 1 and the biased maximum equals the
unbiased one. -/
theorem bias_capped_by_resolution (c : Env) (t : LLViewerFetchedTexture) (b : ℚ)
    (hb : 1 ≤ b) :
    discardBias c t b
        = 1 / (llroundf_powf4 (llclamp ((maxDiscardLevel c t : ℚ) - 2) 1 b - 1) : ℚ)
      ∧ 1 ≤ llclamp ((maxDiscardLevel c t : ℚ) - 2) 1 b
      ∧ llclamp ((maxDiscardLevel c t : ℚ) - 2) 1 b ≤ b
      ∧ (3 ≤ maxDiscardLevel c t →
          llclamp ((maxDiscardLevel c t : ℚ) - 2) 1 b
            = min ((maxDiscardLevel c t : ℚ) - 2) b)
      ∧ (maxDiscardLevel c t < 3 → llclamp ((maxDiscardLevel c t : ℚ) - 2) 1 b = 1)
      ∧ (scanFaces c (discardBias c t b) t).max_vsize
          = (scanFaces c (discardBias c t b) t).max_on_screen_vsize * discardBias c t b
      ∧ (∀ n : ℕ, maxDiscardLevel c t = (n : Int) + 3 → (n : ℚ) + 1 ≤ b →
          discardBias c t b = 1 / 4 ^ n)
      ∧ (∀ n : ℕ, b = (n : ℚ) + 1 → (n : Int) + 3 ≤ maxDiscardLevel c t →
          discardBias c t b = 1 / 4 ^ n)
      ∧ (maxDiscardLevel c t ≤ 3 →
          discardBias c t b = 1
            ∧ (scanFaces c (discardBias c t b) t).max_vsize
              = (scanFaces c (discardBias c t b) t).max_on_screen_vsize) := by
  have hpos : 0 ≤ discardBias c t b :=
    le_of_lt (discardBias_antitone c t b b (finiteScaler_of_one_le c t b hb) (le_refl _)).2
  refine ⟨rfl, llclamp_one_le _ _ hb, ?_, fun h3 => ?_, fun h3 => ?_,
    scanFaces_max_vsize c _ hpos t, fun n hn hnb => ?_, fun n hn hmd => ?_, fun hmd => ?_⟩
  · unfold llclamp
    split_ifs <;> linarith
  · have hq : (3 : ℚ) ≤ (maxDiscardLevel c t : ℚ) := by exact_mod_cast h3
    unfold llclamp
    split_ifs with h1 h2
    · linarith
    · rw [min_eq_right (le_of_lt h2)]
    · rw [min_eq_left (not_lt.1 h2)]
  · have hq : (maxDiscardLevel c t : ℚ) < 3 := by exact_mod_cast h3
    unfold llclamp
    rw [if_pos (by linarith)]
  · have hq : (maxDiscardLevel c t : ℚ) = (n : ℚ) + 3 := by exact_mod_cast hn
    have hc : llclamp ((maxDiscardLevel c t : ℚ) - 2) 1 b = (n : ℚ) + 1 := by
      have hn0 : (0 : ℚ) ≤ (n : ℚ) := Nat.cast_nonneg n
      unfold llclamp
      rw [if_neg (by linarith), if_neg (by linarith)]
      linarith
    unfold discardBias
    simp only
    rw [hc, add_sub_cancel_right, llroundf_powf4_natCast]
    push_cast
    rfl
  · have hq : (n : ℚ) + 3 ≤ (maxDiscardLevel c t : ℚ) := by exact_mod_cast hmd
    have hc : llclamp ((maxDiscardLevel c t : ℚ) - 2) 1 b = (n : ℚ) + 1 := by
      have hn0 : (0 : ℚ) ≤ (n : ℚ) := Nat.cast_nonneg n
      unfold llclamp
      rw [if_neg (by linarith)]
      split_ifs with h2
      · exact hn
      · linarith
    unfold discardBias
    simp only
    rw [hc, add_sub_cancel_right, llroundf_powf4_natCast]
    push_cast
    rfl
  · have h1 := discardBias_low_resolution c t b hmd hb
    refine ⟨h1, ?_⟩
    rw [scanFaces_max_vsize c _ hpos t, h1, mul_one]

/-- C27, instance: at global bias 4 the off-screen texture whose image has five
discard levels is scaled by 1/16, its effective bias being 3, and the one whose
image has three discard levels is not scaled. -/
theorem bias_capped_by_resolution_witness :
    (1 : ℚ) ≤ 4
      ∧ maxDiscardLevel sampleEnv (offScreenTexture 5) = ((2 : ℕ) : Int) + 3
      ∧ llclamp ((maxDiscardLevel sampleEnv (offScreenTexture 5) : ℚ) - 2) 1 4 = 3
      ∧ discardBias sampleEnv (offScreenTexture 5) 4 = 1 / 4 ^ 2
      ∧ maxDiscardLevel sampleEnv (offScreenTexture 3) ≤ 3
      ∧ discardBias sampleEnv (offScreenTexture 3) 4 = 1
      ∧ (scanFaces sampleEnv (discardBias sampleEnv (offScreenTexture 3) 4)
          (offScreenTexture 3)).max_vsize
        = (scanFaces sampleEnv (discardBias sampleEnv (offScreenTexture 3) 4)
          (offScreenTexture 3)).max_on_screen_vsize :=
  ⟨by norm_num, by decide, by decide!,
    (bias_capped_by_resolution sampleEnv (offScreenTexture 5) 4 (by norm_num)).2.2.2.2.2.2.1 2
      (by decide) (by norm_num),
    by decide,
    (bias_capped_by_resolution sampleEnv (offScreenTexture 3) 4
      (by norm_num)).2.2.2.2.2.2.2.2 (by decide)⟩

/-- C28: for a global bias of at least 1 the biased maximum of the face loop is
at most the unbiased maximum, so the size handed to `addTextureStats` is at most
the unbiased maximum whichever branch selects it.  The footprints need not be
non-negative for this: both maxima start at zero. -/
theorem biased_maximum_at_most_unbiased (c : Env) (t : LLViewerFetchedTexture) (b : ℚ)
    (hb : 1 ≤ b) :
    (scanFaces c (discardBias c t b) t).max_vsize
        ≤ (scanFaces c (discardBias c t b) t).max_on_screen_vsize
      ∧ fedVirtualSize c b t ≤ (scanFaces c (discardBias c t b) t).max_on_screen_vsize := by
  obtain ⟨hle, hpos⟩ := discardBias_antitone c t 1 b
    (finiteScaler_of_one_le c t 1 (le_refl 1)) hb
  rw [discardBias_one] at hle
  have hnn := scanFaces_nonneg c (discardBias c t b) t
  have hmax : (scanFaces c (discardBias c t b) t).max_vsize
      ≤ (scanFaces c (discardBias c t b) t).max_on_screen_vsize := by
    rw [scanFaces_max_vsize c _ hpos.le t]
    nlinarith
  refine ⟨hmax, ?_⟩
  unfold fedVirtualSize selectVSize
  simp only
  split_ifs
  · exact le_refl _
  · exact le_refl _
  · exact hmax

/-- C28, instance: the sharp off-screen texture at global bias 4. -/
theorem biased_maximum_at_most_unbiased_witness :
    (1 : ℚ) ≤ 4
      ∧ fedVirtualSize sampleEnv 4 sharpOffScreenTexture
        ≤ (scanFaces sampleEnv (discardBias sampleEnv sharpOffScreenTexture 4)
            sharpOffScreenTexture).max_on_screen_vsize :=
  ⟨by norm_num,
    (biased_maximum_at_most_unbiased sampleEnv sharpOffScreenTexture 4 (by norm_num)).2⟩

/-- C24, as stated, fails: a face in view has footprint 100 and a texture that is
stretched by ten in both directions, so the compensation factor clamped to the
configured range is 1/100, different from 1; the face loop takes 100 as the size
of the face and the update stores 100, the footprint itself, neither divided nor
multiplied by the factor. -/
theorem stretched_face_footprint_not_compensated :
    validFaces stretchedTexture
        = [{ mVSize := 100, mInFrustum := true, mScaleS := 1 / 10, mScaleT := 1 / 10 }]
      ∧ (∀ f ∈ validFaces stretchedTexture, textureScaleFactor sampleEnv f = 1 / 100)
      ∧ (∀ f ∈ validFaces stretchedTexture, boostedVSize sampleEnv f = 100)
      ∧ (scanFaces sampleEnv (discardBias sampleEnv stretchedTexture 1)
          stretchedTexture).max_on_screen_vsize = 100
      ∧ (updateFaceStats sampleEnv 1 stretchedTexture).mMaxVirtualSize = 100
      ∧ (100 : ℚ) / (1 / 100) ≠ 100 ∧ (100 : ℚ) * (1 / 100) ≠ 100 := by
  decide!

/-- C24, amended: `updateImageDecodePriority` takes the footprint of a face as
the face reports it and applies no texture-scale compensation: the size of a
face, the result of the face loop and the size handed to `addTextureStats` do
not depend on the texture scales of the faces, and the update does not depend on
the settings `TextureScaleMinAreaFactor` and `TextureScaleMaxAreaFactor`. -/
theorem footprint_not_scaled_by_texture_scale (c : Env) (bias : ℚ)
    (t : LLViewerFetchedTexture) (f : LLFace) (s u lo hi : ℚ) :
    boostedVSize c { f with mScaleS := s, mScaleT := u } = boostedVSize c f
      ∧ scanFaces c (discardBias c (t.withTextureScale s u) bias) (t.withTextureScale s u)
          = scanFaces c (discardBias c t bias) t
      ∧ fedVirtualSize c bias (t.withTextureScale s u) = fedVirtualSize c bias t
      ∧ updateFaceStats { c with texture_scale_min := lo, texture_scale_max := hi } bias t
          = updateFaceStats c bias t := by
  have hd : discardBias c (t.withTextureScale s u) bias = discardBias c t bias := rfl
  have hs : scanFaces c (discardBias c (t.withTextureScale s u) bias)
      (t.withTextureScale s u) = scanFaces c (discardBias c t bias) t := by
    rw [hd, scanFaces_withTextureScale]
  refine ⟨rfl, hs, ?_, ?_⟩
  · obtain ⟨a1, a2, a3, a4⟩ := preparedForStats_fields c bias (t.withTextureScale s u)
    obtain ⟨b1, b2, b3, b4⟩ := preparedForStats_fields c bias t
    rw [hs] at a3 a4
    have hboost : (preparedForStats c bias (t.withTextureScale s u)).mBoostLevel
        = (preparedForStats c bias t).mBoostLevel := by
      by_cases h : (scanFaces c (discardBias c t bias) t).face_count > 1024
          ∨ (scanFaces c (discardBias c t bias) t).animated ≠ 0
      · rw [a3 h, b3 h]
      · rw [a4 h, b4 h]
        rfl
    show selectVSize c bias
        (scanFaces c (discardBias c (t.withTextureScale s u) bias) (t.withTextureScale s u))
        (preparedForStats c bias (t.withTextureScale s u))
      = selectVSize c bias (scanFaces c (discardBias c t bias) t) (preparedForStats c bias t)
    rw [hs]
    exact selectVSize_congr c bias _ _ _ (a1.trans b1.symm) (a2.trans b2.symm) hboost
  · have hb : ∀ f, boostedVSize { c with texture_scale_min := lo, texture_scale_max := hi } f
        = boostedVSize c f := fun _ => rfl
    have hv : ∀ b hpm acc f,
        scanValidFace { c with texture_scale_min := lo, texture_scale_max := hi } b hpm acc f
          = scanValidFace c b hpm acc f := fun _ _ _ _ => rfl
    have hf : ∀ b hpm,
        scanFace { c with texture_scale_min := lo, texture_scale_max := hi } b hpm
          = scanFace c b hpm := by
      intro b hpm
      funext acc face
      cases face with
      | none => rfl
      | some f => exact congrArg (fun x => if f.hasViewerObject = true then x else acc) (hv b hpm acc f)
    have hsc : ∀ b, scanFaces { c with texture_scale_min := lo, texture_scale_max := hi } b t
        = scanFaces c b t := by
      intro b
      unfold scanFaces
      rw [hf]
    unfold updateFaceStats
    rw [hsc]
    rfl

/-- C25, as stated, fails: an unboosted texture on 1025 faces is boosted to
`BOOST_HIGH`, but the update that finds this out runs the face loop over all 1025
faces: the loop counts 1025 faces, and the size the update stores is the
footprint of the face that comes last in the face list (400, and 900 when only
that face is changed), not the 100 of the 1024 faces before it. -/
theorem crowded_texture_faces_all_visited :
    (crowdedTexture 400).mBoostLevel < sampleEnv.BOOST_HIGH
      ∧ (validFaces (crowdedTexture 400)).length = 1025
      ∧ (scanFaces sampleEnv (discardBias sampleEnv (crowdedTexture 400) 1)
          (crowdedTexture 400)).face_count = 1025
      ∧ (updateFaceStats sampleEnv 1 (crowdedTexture 400)).mBoostLevel = sampleEnv.BOOST_HIGH
      ∧ (updateFaceStats sampleEnv 1 (crowdedTexture 400)).mMaxVirtualSize = 400
      ∧ (updateFaceStats sampleEnv 1 (crowdedTexture 900)).mMaxVirtualSize = 900 := by
  have hlen := validFaces_crowdedTexture_length 400
  refine ⟨by decide, hlen, ?_, ?_, crowdedTexture_stored 400 (by norm_num) (by norm_num),
    crowdedTexture_stored 900 (by norm_num) (by norm_num)⟩
  · rw [scanFaces_face_count, hlen]
  · exact (updateFaceStats_crowded sampleEnv 1 (crowdedTexture 400) (by decide)
      (by rw [hlen]; decide)).2.2.2.2.2.1

/-- C25, amended: for a texture below `BOOST_HIGH` with more than 1024 valid
faces, `updateImageDecodePriority` runs the face loop over every valid face (the
count it compares with 1024 is the number of valid faces, and the unbiased
maximum bounds the size of every one of them), hands that unbiased maximum to
`addTextureStats` and sets the boost level to `BOOST_HIGH`; it is the next update
of the texture that skips the face loop and leaves the texture as it is. -/
theorem crowded_texture_scanned_then_boosted (c : Env) (bias : ℚ)
    (t : LLViewerFetchedTexture) (hrun : t.mBoostLevel < c.BOOST_HIGH)
    (hmany : 1024 < (validFaces t).length) :
    (scanFaces c (discardBias c t bias) t).face_count = (validFaces t).length
      ∧ (∀ f ∈ validFaces t,
          boostedVSize c f ≤ (scanFaces c (discardBias c t bias) t).max_on_screen_vsize)
      ∧ ((scanFaces c (discardBias c t bias) t).max_on_screen_vsize = 0
          ∨ ∃ f ∈ validFaces t,
              (scanFaces c (discardBias c t bias) t).max_on_screen_vsize = boostedVSize c f)
      ∧ fedVirtualSize c bias t = (scanFaces c (discardBias c t bias) t).max_on_screen_vsize
      ∧ updateFaceStats c bias t
          = (preparedForStats c bias t).addTextureStats c
              (scanFaces c (discardBias c t bias) t).max_on_screen_vsize
      ∧ (updateFaceStats c bias t).mBoostLevel = c.BOOST_HIGH
      ∧ updateFaceStats c bias (updateFaceStats c bias t) = updateFaceStats c bias t :=
  updateFaceStats_crowded c bias t hrun hmany

theorem crowded_texture_scanned_then_boosted_witness :
    (crowdedTexture 400).mBoostLevel < sampleEnv.BOOST_HIGH
      ∧ 1024 < (validFaces (crowdedTexture 400)).length
      ∧ (updateFaceStats sampleEnv 1 (crowdedTexture 400)).mBoostLevel = sampleEnv.BOOST_HIGH
      ∧ updateFaceStats sampleEnv 1 (updateFaceStats sampleEnv 1 (crowdedTexture 400))
          = updateFaceStats sampleEnv 1 (crowdedTexture 400) :=
  have hmany : 1024 < (validFaces (crowdedTexture 400)).length := by
    rw [validFaces_crowdedTexture_length]
    decide
  ⟨by decide, hmany,
    (crowded_texture_scanned_then_boosted sampleEnv 1 (crowdedTexture 400) (by decide)
      hmany).2.2.2.2.2.1,
    (crowded_texture_scanned_then_boosted sampleEnv 1 (crowdedTexture 400) (by decide)
      hmany).2.2.2.2.2.2⟩

/-- C26, as stated, fails: with flushing on, texture 1 (four references) loses a
saved raw image that was idle for 25 seconds, while texture 0 (three references),
itself idle for 25 seconds, stays registered: the timeout of the saved raw image
is below 25 seconds and the eviction timeout is not.  And the saved raw image of
texture 0, idle for 40 seconds, is kept: at the reference floor the update does
not release it. -/
theorem saved_raw_timeout_shorter_and_tied_to_references :
    (rawRegistry.mHeap 1).mNumRefs = 4 ∧ (rawRegistry.mHeap 1).mHasSavedRawImage = true
      ∧ (rawRegistry.mHeap 1).mSavedRawElapsed = 25
      ∧ (rawRegistry.updateImageDecodePriority sampleEnv 1 true).map
          (fun st => (st.mHeap 1).mHasSavedRawImage) = some false
      ∧ (rawRegistry.mHeap 0).mNumRefs = 3 ∧ (rawRegistry.mHeap 0).mLastReferencedElapsed = 25
      ∧ (rawRegistry.mHeap 0).mHasSavedRawImage = true
      ∧ (rawRegistry.mHeap 0).mSavedRawElapsed = 40
      ∧ (rawRegistry.updateImageDecodePriority sampleEnv 0 true).map
          (fun st => (decide (0 ∈ st.mImageList), (st.mHeap 0).mHasSavedRawImage))
            = some (true, true) := by
  decide!

/-- C26, amended: the saved raw image has the shorter timeout (20 seconds against
30 for the eviction), and `updateImageDecodePriority` releases it only on the
branch of a texture that is not a candidate for eviction: held by more than three
references, or updated without flushing, the texture loses a saved raw image that
was idle for more than 20 seconds.  A texture at the reference floor updated with
flushing keeps its saved raw image however long that was idle, unless the texture
itself was idle for more than 30 seconds, in which case it is handed to
`deleteImage`.  This holds when `processTextureStats` leaves the saved raw image
alone. -/
theorem saved_raw_released_only_above_reference_floor (c : Env) (st : LLViewerTextureList)
    (p : TexPtr) (flush_images : Bool) (hcube : st.gCubeSnapshot = false)
    (hproc : ∀ t, (c.processTextureStats t).mHasSavedRawImage = t.mHasSavedRawImage) :
    ((3 < (st.mHeap p).mNumRefs ∨ flush_images = false) →
        ∃ st1, updateImageDecodePriority c st p flush_images = some st1
          ∧ (st1.mHeap p).mHasSavedRawImage
              = ((st.mHeap p).mHasSavedRawImage && decide ((st.mHeap p).mSavedRawElapsed ≤ 20)))
      ∧ ((st.mHeap p).mNumRefs ≤ 3 → flush_images = true →
          (st.mHeap p).mLastReferencedElapsed ≤ 30 →
          ∃ st1, updateImageDecodePriority c st p flush_images = some st1
            ∧ (st1.mHeap p).mHasSavedRawImage = (st.mHeap p).mHasSavedRawImage
            ∧ st1.mImageList = st.mImageList)
      ∧ ((st.mHeap p).mNumRefs ≤ 3 → flush_images = true →
          (st.mHeap p).mLastReferencedElapsed > 30 →
          updateImageDecodePriority c st p flush_images
            = (st.modify p (fun t => updateSpotLights c
                (updateFaceStats c st.sDesiredDiscardBias t))).deleteImage (some p)) := by
  obtain ⟨_, _, _, _, h5, h6⟩ := prepared_same c st p
  obtain ⟨s1, s2⟩ := prepared_savedRaw c st p
  refine ⟨?_, ?_, ?_⟩
  · intro hlive
    have htouch : (((st.modify p (fun t => updateSpotLights c
          (updateFaceStats c st.sDesiredDiscardBias t))).modify p
            (touchReferenced 20)).mHeap p).mHasSavedRawImage
        = ((st.mHeap p).mHasSavedRawImage && decide ((st.mHeap p).mSavedRawElapsed ≤ 20)) := by
      rw [modify_mHeap_same, touchReferenced_savedRaw, s1, s2]
    unfold updateImageDecodePriority
    simp only [hcube, Bool.false_eq_true, if_false, h5]
    rw [if_neg (fun h => by
      rcases hlive with hl | hl
      · exact absurd h.1 (not_le.2 hl)
      · rw [hl] at h
        exact absurd h.2 (by simp))]
    split_ifs
    · exact ⟨_, rfl, htouch⟩
    · exact ⟨_, rfl, (finishDecodePriority_savedRaw c _ p hproc).trans htouch⟩
  · intro hrefs hflush hidle
    unfold updateImageDecodePriority
    simp only [hcube, Bool.false_eq_true, if_false, h5, h6]
    rw [if_pos ⟨hrefs, hflush⟩, if_neg (not_lt.2 hidle)]
    exact ⟨_, rfl, (finishDecodePriority_savedRaw c _ p hproc).trans s1,
      (finishDecodePriority_frame c _ p).2.1⟩
  · intro hrefs hflush hidle
    subst hflush
    exact updateImageDecodePriority_flush c st p hcube hrefs hidle

theorem saved_raw_released_only_above_reference_floor_witness :
    rawRegistry.gCubeSnapshot = false
      ∧ (∀ t, (sampleEnv.processTextureStats t).mHasSavedRawImage = t.mHasSavedRawImage)
      ∧ 3 < (rawRegistry.mHeap 1).mNumRefs
      ∧ ∃ st1, rawRegistry.updateImageDecodePriority sampleEnv 1 true = some st1
          ∧ (st1.mHeap 1).mHasSavedRawImage
              = ((rawRegistry.mHeap 1).mHasSavedRawImage
                  && decide ((rawRegistry.mHeap 1).mSavedRawElapsed ≤ 20)) :=
  ⟨by decide!, fun _ => rfl, by decide!,
    (saved_raw_released_only_above_reference_floor sampleEnv rawRegistry 1 true (by decide!)
      (fun _ => rfl)).1 (Or.inl (by decide!))⟩

/-- C21, as stated, fails: texture 7, an LOD texture with `BOOST_UI` for which
discard level 2 is desired, is uploaded by the create loop at discard level 0; it
then has a GL texture at a level finer than desired, yet neither the turn of the
loop nor the whole call of `updateImagesCreateTextures` requests a downscale: the
trace has no `scaleDown`, the downscale queue stays empty and the texture is not
flagged. -/
theorem boosted_fine_texture_not_scaled_down :
    (createFront sampleEnv (fineList 21) 7).map (fun st => (st.mHeap 7).hasGLTexture)
        = some true
      ∧ (createFront sampleEnv (fineList 21) 7).map
          (fun st => ((st.mHeap 7).mDiscardLevel, (st.mHeap 7).mDesiredDiscardLevel))
        = some (0, 2)
      ∧ (createFront sampleEnv (fineList 21) 7).map (fun st => st.mTrace)
        = some [TraceEvent.createTexture 7, TraceEvent.postCreateTexture 7]
      ∧ (createFront sampleEnv (fineList 21) 7).map (fun st => st.mDownScaleQueue) = some []
      ∧ (updateImagesCreateTextures sampleEnv (fineList 21) 1 fastClock).map
          (fun r => (r.1.mHeap 7).hasGLTexture) = some true
      ∧ (updateImagesCreateTextures sampleEnv (fineList 21) 1 fastClock).map
          (fun r => ((r.1.mHeap 7).mDiscardLevel, (r.1.mHeap 7).mDesiredDiscardLevel))
        = some (0, 2)
      ∧ (updateImagesCreateTextures sampleEnv (fineList 21) 1 fastClock).map
          (fun r => r.1.mTrace)
        = some [TraceEvent.createTexture 7, TraceEvent.postCreateTexture 7]
      ∧ (updateImagesCreateTextures sampleEnv (fineList 21) 1 fastClock).map
          (fun r => r.1.mDownScaleQueue) = some []
      ∧ (updateImagesCreateTextures sampleEnv (fineList 21) 1 fastClock).map
          (fun r => (r.1.mHeap 7).mDownScalePending) = some false := by
  decide!

/-- C21, amended: let `st0` be the list right after the upload of the front entry
of the create queue (`createTexture` unless redundant, `postCreateTexture`, reset
of `mCreatePending`, `pop`).  The turn of the create loop requests a downscale of
the entry exactly when the entry then has a GL texture at a discard level below
the desired one and, in addition, the desired level is at most
`MAX_DISCARD_LEVEL`, the boost level is `BOOST_NONE`, the type is `LOD_TEXTURE`
and the texture shows neither parcel media nor is a media texture.  In that case
the turn calls `scaleDown` at once, which flags the texture and appends it to the
downscale queue unless it was flagged already; otherwise the turn ends with
`st0`.  The create loop does this turn on its front entry. -/
theorem fine_texture_scaled_down_under_guard (c : Env) (st st0 : LLViewerTextureList)
    (imagep : TexPtr) (rest : List TexPtr) (max_time : ℚ) (create_timer : Clock)
    (hq : st.mCreateTextureList = imagep :: rest)
    (hpending : (st.mHeap imagep).mCreatePending = true)
    (h0 : st0 = finishUpload c (uploadFront c st imagep) imagep) :
    ∃ st1, createFront c st imagep = some st1
      ∧ (needsScaleDown c (st0.mHeap imagep) = true ↔
          ((st0.mHeap imagep).hasGLTexture = true
            ∧ (st0.mHeap imagep).mDiscardLevel < (st0.mHeap imagep).mDesiredDiscardLevel
            ∧ (st0.mHeap imagep).mDesiredDiscardLevel ≤ c.MAX_DISCARD_LEVEL
            ∧ (st0.mHeap imagep).mBoostLevel = c.BOOST_NONE
            ∧ (st0.mHeap imagep).mType = LOD_TEXTURE
            ∧ (st0.mHeap imagep).mHasParcelMedia = false
            ∧ (st0.mHeap imagep).mIsViewerMediaTexture = false))
      ∧ (needsScaleDown c (st0.mHeap imagep) = true →
          st1.mTrace = st0.mTrace ++ [TraceEvent.scaleDownRequest imagep]
            ∧ (st1.mHeap imagep).mDownScalePending = true
            ∧ st1.mDownScaleQueue
                = if (st0.mHeap imagep).mDownScalePending = true then st0.mDownScaleQueue
                  else st0.mDownScaleQueue ++ [imagep])
      ∧ (needsScaleDown c (st0.mHeap imagep) = false → st1 = st0)
      ∧ ∀ fuel reads,
          createTexturesLoop c max_time create_timer (fuel + 1) reads st
            = if create_timer reads > max_time * (1 / 2) then some (st1, reads + 1)
              else createTexturesLoop c max_time create_timer fuel (reads + 1) st1 := by
  have hfront : createFront c st imagep = some (createFrontBody c st imagep) := by
    unfold createFront
    rw [if_neg (by simp [hpending])]
  have hbody : createFrontBody c st imagep = scaleDownFront c st0 imagep := by
    rw [h0]
    rfl
  refine ⟨createFrontBody c st imagep, hfront, needsScaleDown_iff c _, ?_, ?_, ?_⟩
  · intro hneed
    have hgl : ((st0.log (.scaleDownRequest imagep)).mHeap imagep).hasGLTexture = true :=
      ((needsScaleDown_iff c _).1 hneed).1
    obtain ⟨q1, q2⟩ := scaleDown_queue (st0.log (.scaleDownRequest imagep)) imagep hgl
    have ht := (scaleDown_frame (st0.log (.scaleDownRequest imagep)) imagep).1
    rw [hbody]
    unfold scaleDownFront
    rw [if_pos hneed]
    exact ⟨ht, q1, q2⟩
  · intro hneed
    rw [hbody]
    unfold scaleDownFront
    rw [if_neg (by simp [hneed])]
  · intro fuel reads
    rw [createTexturesLoop]
    simp only [hq, hfront]

/-- C21, instance: the same texture without a boost (`BOOST_NONE`) is uploaded at
discard level 0 while level 2 is desired, and the turn of the create loop
requests its downscale. -/
theorem fine_texture_scaled_down_under_guard_witness :
    (fineList 0).mCreateTextureList = 7 :: []
      ∧ ((fineList 0).mHeap 7).mCreatePending = true
      ∧ ∃ st1, createFront sampleEnv (fineList 0) 7 = some st1
          ∧ st1.mTrace
              = (finishUpload sampleEnv (uploadFront sampleEnv (fineList 0) 7) 7).mTrace
                  ++ [TraceEvent.scaleDownRequest 7]
          ∧ (st1.mHeap 7).mDownScalePending = true :=
  ⟨by decide, by decide,
    (fine_texture_scaled_down_under_guard sampleEnv (fineList 0) _ 7 [] 1 fastClock
      (by decide) (by decide) rfl).imp
      (fun _ h => ⟨h.1, (h.2.2.1 (by decide!)).1, (h.2.2.1 (by decide!)).2.1⟩)⟩

/-- C22, as stated, fails: with 20 textures, the minimum count 10, the bias
`1.3f` (above 1) and the counter at zero, the floor of the product
`max(10, 20 / 20) * bias` is 12, because the `F32` nearest to 13/10 lies a little
below it; the code multiplies in single precision, the product rounds to 13, and
the count and the counter become 13. -/
theorem selection_count_not_exact_floor :
    roundingEnv.MIN_UPDATE_COUNT = 10 ∧ roundingRegistry.mUUIDMap.length = 20
      ∧ roundingRegistry.sDesiredDiscardBias = F32_round (13 / 10)
      ∧ roundingRegistry.sDesiredDiscardBias > 1
      ∧ roundingRegistry.sBiasTexturesUpdated = 0
      ∧ selectionCountSpec 10 20 roundingRegistry.sDesiredDiscardBias 0 = (12, 12)
      ∧ fetchUpdateCount roundingEnv roundingRegistry = (13, 13) := by
  decide!

/-- C22, amended: with the setting `TextureFetchUpdateMinCount` in the range of a
`U32`, fewer than `2 ^ 31` map entries and a product within the range of `S32`,
the count `updateImagesFetchTextures` computes and the counter it stores are
those of `selectionCountRounded`: `min(size, max(minCount, size / 20))` when the
bias is not above 1, and `min(size, floor(P))` with the counter raised by
`floor(P)` when the bias is above 1 and the counter is below the size of the map,
where `P` is the product `max(minCount, size / 20) * bias` taken in single
precision.  The count never exceeds the size of the map; the copy loop walks over
that many entries and selects those with a GL image object, all of them when
every texture has one. -/
theorem selection_count_formula (c : Env) (st : LLViewerTextureList)
    (hmin : 0 ≤ c.MIN_UPDATE_COUNT) (hmax : c.MIN_UPDATE_COUNT < 4294967296)
    (hsz : st.mUUIDMap.length < 2147483648)
    (hprod : F32_mul (F32_of_U32 (max c.MIN_UPDATE_COUNT.toNat (st.mUUIDMap.length / 20)))
      st.sDesiredDiscardBias < 2147483648) :
    fetchUpdateCount c st
        = selectionCountRounded c.MIN_UPDATE_COUNT.toNat st.mUUIDMap.length
            st.sDesiredDiscardBias st.sBiasTexturesUpdated
      ∧ (fetchUpdateCount c st).1 ≤ st.mUUIDMap.length
      ∧ (¬ st.sDesiredDiscardBias > 1 →
          (fetchUpdateCount c st).1
              = min st.mUUIDMap.length
                  (max c.MIN_UPDATE_COUNT.toNat (st.mUUIDMap.length / 20))
            ∧ (fetchUpdateCount c st).2 = st.sBiasTexturesUpdated)
      ∧ (st.sDesiredDiscardBias > 1 ∧ st.sBiasTexturesUpdated < st.mUUIDMap.length →
          (fetchUpdateCount c st).1
              = min st.mUUIDMap.length
                  ⌊F32_mul
                    (F32_of_U32 (max c.MIN_UPDATE_COUNT.toNat (st.mUUIDMap.length / 20)))
                    st.sDesiredDiscardBias⌋₊
            ∧ (fetchUpdateCount c st).2
              = st.sBiasTexturesUpdated
                  + ⌊F32_mul
                    (F32_of_U32 (max c.MIN_UPDATE_COUNT.toNat (st.mUUIDMap.length / 20)))
                    st.sDesiredDiscardBias⌋₊)
      ∧ ∃ es, fetchSelection c st = some es
          ∧ es.length ≤ (fetchUpdateCount c st).1
          ∧ ((∀ e ∈ st.mUUIDMap, (st.mHeap e.2).mGLTexturep.isSome = true) →
              es.length = (fetchUpdateCount c st).1) := by
  have hspec := fetchUpdateCount_eq_rounded c st hmin hmax hsz hprod
  have hle := fetchUpdateCount_le c st
  refine ⟨hspec, hle, ?_, ?_, _, fetchSelection_spec c st, ?_, ?_⟩
  · intro hb
    rw [hspec]
    unfold selectionCountRounded
    rw [if_neg (fun h => hb h.1)]
    exact ⟨rfl, rfl⟩
  · intro hb
    rw [hspec]
    unfold selectionCountRounded
    rw [if_pos hb]
    exact ⟨rfl, rfl⟩
  · rw [List.length_map]
    refine le_trans (List.filter_sublist _).length_le ?_
    rw [List.length_take]
    exact min_le_left _ _
  · intro hgl
    have hall : ∀ e ∈ (st.mUUIDMap.rotate
          (uuid_map_upper_bound st.mUUIDMap st.mLastUpdateKey)).take (fetchUpdateCount c st).1,
        (fun e : LLTextureKey × TexPtr => (st.mHeap e.2).mGLTexturep.isSome) e = true :=
      fun e he => hgl e (List.mem_rotate.1 (List.mem_of_mem_take he))
    rw [List.length_map, List.filter_eq_self.2 hall, List.length_take, List.length_rotate]
    exact min_eq_left hle

/-- C22, amended, instance: three textures, minimum count 32, bias 3/2 and the
counter at zero: the product 48 is exact in single precision, the count is
`min(3, 48) = 3` and the counter becomes 48. -/
theorem selection_count_formula_witness :
    (0 : Int) ≤ sampleEnv.MIN_UPDATE_COUNT ∧ sampleEnv.MIN_UPDATE_COUNT < 4294967296
      ∧ biasedRegistry.mUUIDMap.length < 2147483648
      ∧ F32_mul (F32_of_U32 (max sampleEnv.MIN_UPDATE_COUNT.toNat
            (biasedRegistry.mUUIDMap.length / 20))) biasedRegistry.sDesiredDiscardBias
          < 2147483648
      ∧ fetchUpdateCount sampleEnv biasedRegistry = (3, 48)
      ∧ fetchUpdateCount roundingEnv roundingRegistry
          = selectionCountRounded 10 20 (F32_round (13 / 10)) 0 :=
  ⟨by decide, by decide, by decide!, by decide!,
    (selection_count_formula sampleEnv biasedRegistry (by decide) (by decide) (by decide!)
      (by decide!)).1.trans (by decide!),
    (selection_count_formula roundingEnv roundingRegistry (by decide) (by decide)
      (by decide!) (by decide!)).1.trans (by decide!)⟩

/-- C29: for every list and every bias, the selection loop of
`updateImagesFetchTextures` finishes without reading the entry at `end()` of the
map, and what it selects is a part of the map taken in cyclic order from the
cursor: every entry of the map is selected at most once, so no key and (in a map
that holds every texture once) no texture comes twice.  With an empty map
nothing is selected. -/
theorem selection_within_map_without_repeats (c : Env) (st : LLViewerTextureList) :
    ∃ es : List (LLTextureKey × TexPtr),
      fetchSelection c st = some (es.map Prod.snd)
        ∧ es.Sublist
            (st.mUUIDMap.rotate (uuid_map_upper_bound st.mUUIDMap st.mLastUpdateKey))
        ∧ (∀ e ∈ es, e ∈ st.mUUIDMap)
        ∧ es.length ≤ st.mUUIDMap.length
        ∧ (st.mUUIDMap = [] → fetchSelection c st = some [])
        ∧ (uuid_map_sorted st.mUUIDMap → (es.map Prod.fst).Nodup)
        ∧ ((st.mUUIDMap.map Prod.snd).Nodup → (es.map Prod.snd).Nodup) := by
  have hsub : ((((st.mUUIDMap.rotate (uuid_map_upper_bound st.mUUIDMap st.mLastUpdateKey)).take
        (fetchUpdateCount c st).1).filter
          (fun e => (st.mHeap e.2).mGLTexturep.isSome))).Sublist
      (st.mUUIDMap.rotate (uuid_map_upper_bound st.mUUIDMap st.mLastUpdateKey)) :=
    (List.filter_sublist _).trans (List.take_sublist _ _)
  refine ⟨_, fetchSelection_spec c st, hsub, ?_, ?_, ?_, ?_, ?_⟩
  · intro e he
    exact List.mem_rotate.1 (hsub.subset he)
  · have h := hsub.length_le
    rw [List.length_rotate] at h
    exact h
  · intro hm
    rw [fetchSelection_spec, hm]
    simp
  · intro hs
    have h1 : ((st.mUUIDMap.rotate
        (uuid_map_upper_bound st.mUUIDMap st.mLastUpdateKey)).map Prod.fst).Nodup := by
      rw [List.map_rotate]
      exact List.nodup_rotate.2 (uuid_map_keys_nodup _ hs)
    exact List.Nodup.sublist (hsub.map Prod.fst) h1
  · intro hs
    have h1 : ((st.mUUIDMap.rotate
        (uuid_map_upper_bound st.mUUIDMap st.mLastUpdateKey)).map Prod.snd).Nodup := by
      rw [List.map_rotate]
      exact List.nodup_rotate.2 hs
    exact List.Nodup.sublist (hsub.map Prod.snd) h1

end LLViewerTextureListModel
